import Mathlib

/-!
Shallow embedding of the sqldef schema diff generator (`src/schema/generator.go`)
and proofs about its specification.

Modelling conventions:
* Go slices become `List`, Go pointers that can be `nil` become `Option`,
  Go `(T, error)` results become `Except String T`.
* Go `[]byte` raw values are modelled as `String`; byte lengths and byte
  slicing are modelled as character lengths and character slicing
  (all values of interest are ASCII).
* The Go `float64` payload of a `Value` is modelled as its rendered decimal
  text (`floatValRendered`), since Lean has no faithful model of Go's `%f`
  formatting; no theorem below depends on that rendering.
* Struct types whose Go definitions live outside `src/` (`Table`, `Column`,
  `Index`, ... are declared in the parser package) are reconstructed from the
  fields the generator uses together with §3 of the spec.
-/

/-- Decidable equality for `Except`, so that concrete generator runs can be
checked with `decide`. -/
instance {ε α : Type} [DecidableEq ε] [DecidableEq α] : DecidableEq (Except ε α) := fun a b =>
  match a, b with
  | .ok x, .ok y =>
    if h : x = y then .isTrue (by rw [h]) else .isFalse (fun hc => h (Except.ok.injEq .. ▸ hc))
  | .error x, .error y =>
    if h : x = y then .isTrue (by rw [h]) else .isFalse (fun hc => h (Except.error.injEq .. ▸ hc))
  | .ok _, .error _ => .isFalse (fun hc => Except.noConfusion hc)
  | .error _, .ok _ => .isFalse (fun hc => Except.noConfusion hc)

namespace Sqldef

/-- Generator mode (dialect), from `generator.go` lines 12-19. -/
inductive GeneratorMode where
  | mysql
  | postgres
  | sqlite3
  | mssql
deriving DecidableEq, Repr

/-- The tag of a `Value` union, per spec §3: Str, Int, Float, HexNum, Hex,
ValArg, Bit, Bool. -/
inductive ValueType where
  | valueTypeStr
  | valueTypeInt
  | valueTypeFloat
  | valueTypeHexNum
  | valueTypeHex
  | valueTypeValArg
  | valueTypeBit
  | valueTypeBool
deriving DecidableEq, Repr

/-- A parsed SQL value: the tag, the raw textual form, and type-specific
payloads (spec §3 "Value"). -/
structure Value where
  valueType : ValueType
  raw : String
  strVal : String := ""
  intVal : Int := 0
  /-- Go `floatVal float64`, modelled as its `%f`-rendered text. -/
  floatValRendered : String := ""
  bitVal : Bool := false
deriving DecidableEq, Repr

/-- Spec §3: `DefaultDefinition: {value: Value, constraint_name?}`. -/
structure DefaultDefinition where
  value : Option Value
  constraintName : String := ""
deriving DecidableEq, Repr

/-- Spec §3: `CheckDefinition: {definition, constraint_name?}`. -/
structure CheckDefinition where
  definition : String
  constraintName : String := ""
deriving DecidableEq, Repr

/-- Column key option, spec §3: `{None, Primary, SpatialKey, Unique,
UniqueKey, Key}`. -/
inductive ColumnKey where
  | columnKeyNone
  | columnKeyPrimary
  | columnKeySpatialKey
  | columnKeyUnique
  | columnKeyUniqueKey
  | columnKeyKey
deriving DecidableEq, Repr

/-- Modelled from the spec: `ColumnKey.isUnique` is declared in the parser
package, outside `src/`; spec §3 says "`Unique` and `UniqueKey` are both
treated as unique". -/
def ColumnKey.isUnique : ColumnKey → Bool
  | .columnKeyUnique => true
  | .columnKeyUniqueKey => true
  | _ => false

/-- Spec §3 "Sequence": Postgres-style identity attributes. -/
structure Sequence where
  Name : String := ""
  IfNotExists : Bool := false
  SeqType : String := ""
  IncrementBy : Option Int := none
  MinValue : Option Int := none
  NoMinValue : Bool := false
  MaxValue : Option Int := none
  NoMaxValue : Bool := false
  StartWith : Option Int := none
  Cache : Option Int := none
  Cycle : Bool := false
  NoCycle : Bool := false
  OwnedBy : String := ""
deriving DecidableEq, Repr

/-- A table column (spec §3 "Column", fields as used by the generator). -/
structure Column where
  name : String
  position : Int := 0
  typeName : String := ""
  unsigned : Bool := false
  notNull : Option Bool := none
  autoIncrement : Bool := false
  array : Bool := false
  defaultDef : Option DefaultDefinition := none
  length : Option Value := none
  scale : Option Value := none
  check : Option CheckDefinition := none
  checkNoInherit : Bool := false
  charset : String := ""
  collate : String := ""
  timezone : Bool := false
  keyOption : ColumnKey := .columnKeyNone
  onUpdate : Option Value := none
  enumValues : List String := []
  references : String := ""
  identity : String := ""
  sequence : Option Sequence := none
deriving DecidableEq, Repr

/-- One column of an index: the column name and an optional prefix length. -/
structure IndexColumn where
  column : String
  length : Option Int := none
deriving DecidableEq, Repr

/-- A named index option (e.g. MSSQL `WITH (PAD_INDEX = ON)`). -/
structure IndexOption where
  optionName : String
  value : Option Value := none
deriving DecidableEq, Repr

/-- An index (spec §3 "Index"). `whereClause` is the Go field `where`. -/
structure Index where
  name : String
  indexType : String := ""
  columns : List IndexColumn := []
  primary : Bool := false
  unique : Bool := false
  clustered : Bool := false
  whereClause : String := ""
  options : List IndexOption := []
deriving DecidableEq, Repr

/-- Spec §3 "ForeignKey". -/
structure ForeignKey where
  constraintName : String := ""
  indexName : String := ""
  indexColumns : List String := []
  referenceName : String := ""
  referenceColumns : List String := []
  onDelete : String := ""
  onUpdate : String := ""
deriving DecidableEq, Repr

/-- Spec §3 "Policy" (row-level security). -/
structure Policy where
  name : String
  referenceName : String := ""
  permissive : String := ""
  scope : String := ""
  roles : List String := []
  «using» : String := ""
  withCheck : String := ""
deriving DecidableEq, Repr

/-- Spec §3 "Table". -/
structure Table where
  name : String
  columns : List Column := []
  indexes : List Index := []
  foreignKeys : List ForeignKey := []
  policies : List Policy := []
deriving DecidableEq, Repr

/-- Spec §3 "View". -/
structure View where
  statement : String := ""
  name : String
  definition : String := ""
deriving DecidableEq, Repr

/-- The classified DDL statements (spec §2 item 1). Each carries the
original statement text. -/
inductive DDL where
  | createTable (statement : String) (table : Table)
  | createIndex (statement : String) (tableName : String) (index : Index)
  | addIndex (statement : String) (tableName : String) (index : Index)
  | addPrimaryKey (statement : String) (tableName : String) (index : Index)
  | addForeignKey (statement : String) (tableName : String) (foreignKey : ForeignKey)
  | addPolicy (statement : String) (tableName : String) (policy : Policy)
  | view (v : View)
deriving DecidableEq, Repr

/-- `DDL.Statement()`: the original statement text. -/
def DDL.statement : DDL → String
  | .createTable s _ => s
  | .createIndex s _ _ => s
  | .addIndex s _ _ => s
  | .addPrimaryKey s _ _ => s
  | .addForeignKey s _ _ => s
  | .addPolicy s _ _ => s
  | .view v => v.statement

/-- The generator's simulated state (`generator.go` lines 33-41). -/
structure Generator where
  mode : GeneratorMode
  desiredTables : List Table := []
  currentTables : List Table := []
  desiredViews : List View := []
  currentViews : List View := []
deriving DecidableEq, Repr

/-! ### Helper functions (`generator.go` lines 1299-1368) -/

/-- `containsString` (lines 1361-1368). -/
def containsString (strs : List String) (str : String) : Bool :=
  strs.any (fun s => s == str)

/-- `convertColumnsToColumnNames` (lines 1309-1315). -/
def convertColumnsToColumnNames (columns : List Column) : List String :=
  columns.map (·.name)

/-- `convertIndexesToIndexNames` (lines 1317-1323). -/
def convertIndexesToIndexNames (indexes : List Index) : List String :=
  indexes.map (·.name)

/-- `convertForeignKeysToConstraintNames` (lines 1325-1331). -/
def convertForeignKeysToConstraintNames (foreignKeys : List ForeignKey) : List String :=
  foreignKeys.map (·.constraintName)

/-- `convertForeignKeysToIndexNames` (lines 1333-1343): the index name when
set, else the constraint name when set, else nothing. -/
def convertForeignKeysToIndexNames (foreignKeys : List ForeignKey) : List String :=
  foreignKeys.filterMap (fun foreignKey =>
    if foreignKey.indexName.length > 0 then some foreignKey.indexName
    else if foreignKey.constraintName.length > 0 then some foreignKey.constraintName
    else none)

/-- `convertPolicyNames` (lines 1345-1351). -/
def convertPolicyNames (policies : List Policy) : List String :=
  policies.map (·.name)

/-- `convertViewNames` (lines 1353-1359). -/
def convertViewNames (views : List View) : List String :=
  views.map (·.name)

/-- `findTableByName` (lines 1051-1058): first table with the name. -/
def findTableByName (tables : List Table) (name : String) : Option Table :=
  tables.find? (fun table => table.name == name)

/-- `findColumnByName` (lines 1060-1067). -/
def findColumnByName (columns : List Column) (name : String) : Option Column :=
  columns.find? (fun column => column.name == name)

/-- `findIndexByName` (lines 1069-1076). -/
def findIndexByName (indexes : List Index) (name : String) : Option Index :=
  indexes.find? (fun index => index.name == name)

/-- `findIndexOptionByName` (lines 1078-1085). -/
def findIndexOptionByName (options : List IndexOption) (name : String) : Option IndexOption :=
  options.find? (fun option => option.optionName == name)

/-- `findForeignKeyByName` (lines 1087-1094). -/
def findForeignKeyByName (foreignKeys : List ForeignKey) (constraintName : String) :
    Option ForeignKey :=
  foreignKeys.find? (fun foreignKey => foreignKey.constraintName == constraintName)

/-- `findPrimaryKey` (lines 1096-1103): first index with `primary`. -/
def findPrimaryKey (indexes : List Index) : Option Index :=
  indexes.find? (fun index => index.primary)

/-- `findPolicyByName` (lines 1105-1112). -/
def findPolicyByName (policies : List Policy) (name : String) : Option Policy :=
  policies.find? (fun policy => policy.name == name)

/-- `findViewByName` (lines 1114-1121). -/
def findViewByName (views : List View) (name : String) : Option View :=
  views.find? (fun view => view.name == name)

/-- Modelled from the spec (§4.4.4): `Table.PrimaryKey()` is declared in the
parser package, outside `src/`. The first index with `primary = true` if
any; otherwise, if any columns have `key_option = Primary`, a synthesized
Index named `"PRIMARY"` over those columns in order; otherwise none. -/
def Table.PrimaryKey (table : Table) : Option Index :=
  match findPrimaryKey table.indexes with
  | some index => some index
  | none =>
    let primaryColumns := table.columns.filter (fun column => column.keyOption == .columnKeyPrimary)
    if primaryColumns.isEmpty then
      none
    else
      some {
        name := "PRIMARY"
        indexType := "primary key"
        columns := primaryColumns.map (fun column => { column := column.name })
        primary := true
        unique := true
        clustered := true
      }

/-! ### Equality predicates (`generator.go` lines 1122-1297) -/

/-- `isNullValue` (lines 1183-1185). -/
def isNullValue (value : Option Value) : Bool :=
  match value with
  | some v => v.valueType == .valueTypeValArg && v.raw == "null"
  | none => false

/-- `areSameValue` (lines 1164-1181): raw texts compared, with the current
raw truncated to the desired raw's length when the desired value is a
`Float` and the current raw is strictly longer. -/
def areSameValue (current desired : Option Value) : Bool :=
  match current, desired with
  | none, none => true
  | none, some _ => false
  | some _, none => false
  | some c, some d =>
    let currentRaw := c.raw
    let desiredRaw := d.raw
    let currentRaw :=
      if d.valueType == .valueTypeFloat && currentRaw.length > desiredRaw.length then
        currentRaw.take desiredRaw.length
      else currentRaw
    currentRaw == desiredRaw

/-- `areSameDefaultValue` (lines 1151-1162): strip a `null` `ValArg` on each
side, then `areSameValue`. -/
def areSameDefaultValue (currentDefault desiredDefault : Option DefaultDefinition) : Bool :=
  let current : Option Value :=
    match currentDefault with
    | some dd => if isNullValue dd.value then none else dd.value
    | none => none
  let desired : Option Value :=
    match desiredDefault with
    | some dd => if isNullValue dd.value then none else dd.value
    | none => none
  areSameValue current desired

/-- `areSameCheckDefinition` (lines 1141-1149). -/
def areSameCheckDefinition (checkA checkB : Option CheckDefinition) : Bool :=
  match checkA, checkB with
  | none, none => true
  | none, some _ => false
  | some _, none => false
  | some a, some b => a.definition == b.definition

/-- `normalizeDataType` (lines 1187-1199). -/
def normalizeDataType (mode : GeneratorMode) (dataType : String) : String :=
  let dataType :=
    if dataType == "bool" then "boolean"
    else if dataType == "int" then "integer"
    else if dataType == "char" then "character"
    else if dataType == "varchar" then "character varying"
    else dataType
  if mode == .mysql then
    if dataType == "boolean" then "tinyint" else dataType
  else dataType

/-- `haveSameDataType` (lines 1134-1139). -/
def haveSameDataType (mode : GeneratorMode) (current desired : Column) : Bool :=
  normalizeDataType mode current.typeName == normalizeDataType mode desired.typeName &&
    (current.length.isNone || desired.length.isNone ||
      (current.length.map (·.intVal)).getD 0 == (desired.length.map (·.intVal)).getD 0) &&
    current.array == desired.array

/-- `haveSameColumnDefinition` (lines 1122-1132). The Go code compares the
`check` field with `==`, but that field is a `*CheckDefinition` POINTER:
the two columns always originate from independently parsed (or
independently stored) allocations, so the pointers are equal exactly when
both are nil. Two structurally equal non-nil checks compare UNEQUAL here,
unlike `areSameCheckDefinition` (line 1141) which dereferences. Modelled
as: both checks are `none`. -/
def haveSameColumnDefinition (mode : GeneratorMode) (current desired : Column) : Bool :=
  haveSameDataType mode current desired &&
    current.unsigned == desired.unsigned &&
    ((current.notNull == some true) ==
      ((desired.notNull == some true) || desired.keyOption == .columnKeyPrimary)) &&
    current.timezone == desired.timezone &&
    (current.check.isNone && desired.check.isNone) &&
    (desired.charset == "" || current.charset == desired.charset) &&
    (desired.collate == "" || current.collate == desired.collate) &&
    current.onUpdate == desired.onUpdate

/-- `areSameIndexes` (lines 1209-1240): flags, column name sequences and
`where` compared both ways, but only the second index's options are
required to have matching name-and-value options in the first. -/
def areSameIndexes (indexA indexB : Index) : Bool :=
  if indexA.unique != indexB.unique then false
  else if indexA.primary != indexB.primary then false
  else if indexA.columns.length != indexB.columns.length then false
  else if !((indexA.columns.zip indexB.columns).all
      (fun p => p.1.column == p.2.column)) then false
  else if indexA.whereClause != indexB.whereClause then false
  else
    indexB.options.all (fun optionB =>
      match findIndexOptionByName indexA.options optionB.optionName with
      | some optionA => areSameValue optionA.value optionB.value
      | none => false)

/-- `areSamePrimaryKeys` (lines 1201-1207). -/
def areSamePrimaryKeys (primaryKeyA primaryKeyB : Option Index) : Bool :=
  match primaryKeyA, primaryKeyB with
  | some a, some b => areSameIndexes a b
  | none, none => true
  | _, _ => false

/-- `normalizeOnUpdate` (lines 1283-1289). -/
def normalizeOnUpdate (mode : GeneratorMode) (onUpdate : String) : String :=
  if (mode == .postgres || mode == .mssql) && onUpdate == "" then "NO ACTION" else onUpdate

/-- `normalizeOnDelete` (lines 1291-1297). -/
def normalizeOnDelete (mode : GeneratorMode) (onDelete : String) : String :=
  if (mode == .postgres || mode == .mssql) && onDelete == "" then "NO ACTION" else onDelete

/-- `areSameForeignKeys` (lines 1242-1251): only the normalized ON UPDATE /
ON DELETE actions are compared. -/
def areSameForeignKeys (mode : GeneratorMode) (foreignKeyA foreignKeyB : ForeignKey) : Bool :=
  normalizeOnUpdate mode foreignKeyA.onUpdate == normalizeOnUpdate mode foreignKeyB.onUpdate &&
    normalizeOnDelete mode foreignKeyA.onDelete == normalizeOnDelete mode foreignKeyB.onDelete

/-- Go `strings.ToLower`, modelled character-by-character (all inputs of
interest are ASCII). -/
def toLowerStr (s : String) : String := ⟨s.data.map Char.toLower⟩

/-- `areSamePolicies` (lines 1253-1281). When the case-folded `using`
(or `with_check`) strings differ, the result is whether parenthesizing the
first side yields the second side verbatim. Roles are sorted by raw text
and compared elementwise under case-folding. -/
def areSamePolicies (policyA policyB : Policy) : Bool :=
  if toLowerStr policyA.scope != toLowerStr policyB.scope then false
  else if toLowerStr policyA.permissive != toLowerStr policyB.permissive then false
  else if toLowerStr policyA.using != toLowerStr policyB.using then
    ("(" ++ policyA.using ++ ")") == policyB.using
  else if toLowerStr policyA.withCheck != toLowerStr policyB.withCheck then
    ("(" ++ policyA.withCheck ++ ")") == policyB.withCheck
  else if policyA.roles.length != policyB.roles.length then false
  else
    let rolesA := policyA.roles.mergeSort (fun a b => a ≤ b)
    let rolesB := policyB.roles.mergeSort (fun a b => a ≤ b)
    (rolesA.zip rolesB).all (fun p => toLowerStr p.1 == toLowerStr p.2)

/-- `isPrimaryKey` (lines 958-973). -/
def isPrimaryKey (column : Column) (table : Table) : Bool :=
  column.keyOption == .columnKeyPrimary ||
    table.indexes.any (fun index =>
      index.primary && index.columns.any (fun indexColumn => indexColumn.column == column.name))

/-- `Generator.notNull` (lines 945-956): the effective NOT NULL of a column
whose tri-state is unset defaults to whether it's a Postgres serial. -/
def notNullEffective (mode : GeneratorMode) (column : Column) : Bool :=
  match column.notNull with
  | none =>
    match mode with
    | .postgres => column.typeName == "serial" || column.typeName == "bigserial"
    | _ => false
  | some b => b

/-- `mergeTable` (lines 976-988): destructively appends to `table1` each
column/index of `table2` whose name is already present (checked against the
growing list). -/
def mergeTable (table1 : Table) (table2 : Table) : Table :=
  let columns := table2.columns.foldl
    (fun acc column =>
      if containsString (convertColumnsToColumnNames acc) column.name then acc ++ [column]
      else acc)
    table1.columns
  let indexes := table2.indexes.foldl
    (fun acc index =>
      if containsString (convertIndexesToIndexNames acc) index.name then acc ++ [index]
      else acc)
    table1.indexes
  { table1 with columns := columns, indexes := indexes }

/-! ### Rendering (`generator.go` lines 671-943, 1388-1443) -/

/-- `escapeSQLName` (lines 934-943). -/
def escapeSQLName (mode : GeneratorMode) (name : String) : String :=
  match mode with
  | .postgres => "\"" ++ name ++ "\""
  | .mssql => "[" ++ name ++ "]"
  | _ => "`" ++ name ++ "`"

/-- The index of the first occurrence of `pat` in `l`, if any. -/
def findSubstrIdx : List Char → List Char → Option Nat
  | [], pat => if pat.isEmpty then some 0 else none
  | c :: rest, pat =>
    if pat.isPrefixOf (c :: rest) then some 0
    else (findSubstrIdx rest pat).map (· + 1)

/-- Go `strings.SplitN(s, sep, 2)`: split at the first occurrence of
`sep`. -/
def splitN2 (s : String) (sep : String) : List String :=
  match findSubstrIdx s.data sep.data with
  | none => [s]
  | some i => [⟨s.data.take i⟩, ⟨s.data.drop (i + sep.data.length)⟩]

/-- Go `strings.Replace(s, pattern, "", 1)`: remove the first occurrence. -/
def replaceFirst (s pattern : String) : String :=
  match findSubstrIdx s.data pattern.data with
  | none => s
  | some i => ⟨s.data.take i ++ s.data.drop (i + pattern.data.length)⟩

/-- `escapeTableName` (lines 912-932). -/
def escapeTableName (mode : GeneratorMode) (name : String) : String :=
  match mode with
  | .postgres | .mssql =>
    let schemaTable := splitN2 name "."
    let pair : String × String :=
      match schemaTable with
      | [tableName] =>
        (match mode with
         | .postgres => ("public", tableName)
         | _ => ("dbo", tableName))
      | schemaName :: tableName :: _ => (schemaName, tableName)
      | [] => ("", "")
    escapeSQLName mode pair.1 ++ "." ++ escapeSQLName mode pair.2
  | _ => escapeSQLName mode name

/-- `generateDataType` (lines 671-691). -/
def generateDataType (column : Column) : String :=
  let suffix := if column.array then "[]" else ""
  match column.length with
  | some length =>
    match column.scale with
    | some scale =>
      column.typeName ++ "(" ++ length.raw ++ ", " ++ scale.raw ++ ")" ++ suffix
    | none => column.typeName ++ "(" ++ length.raw ++ ")" ++ suffix
  | none =>
    if column.typeName == "enum" then
      column.typeName ++ "(" ++ String.intercalate ", " column.enumValues ++ ")" ++ suffix
    else column.typeName ++ suffix

/-- `generateDefaultDefinition` (lines 1424-1443). -/
def generateDefaultDefinition (defaultVal : Value) : Except String String :=
  match defaultVal.valueType with
  | .valueTypeStr => .ok ("DEFAULT '" ++ defaultVal.strVal ++ "'")
  | .valueTypeInt => .ok ("DEFAULT " ++ toString defaultVal.intVal)
  | .valueTypeFloat => .ok ("DEFAULT " ++ defaultVal.floatValRendered)
  | .valueTypeBit => .ok (if defaultVal.bitVal then "DEFAULT b'1'" else "DEFAULT b'0'")
  | .valueTypeValArg => .ok ("DEFAULT " ++ defaultVal.raw)
  | _ => .error "unsupported default value type"

/-- `generateSequenceClause` (lines 1388-1422). -/
def generateSequenceClause (sequence : Sequence) : String :=
  let ddl :=
    (if sequence.Name != "" then "SEQUENCE NAME " ++ sequence.Name ++ " " else "")
    ++ (match sequence.StartWith with
        | some n => "START WITH " ++ toString n ++ " "
        | none => "")
    ++ (match sequence.IncrementBy with
        | some n => "INCREMENT BY " ++ toString n ++ " "
        | none => "")
    ++ (match sequence.MinValue with
        | some n => "MINVALUE " ++ toString n ++ " "
        | none => "")
    ++ (if sequence.NoMinValue then "NO MINVALUE " else "")
    ++ (match sequence.MaxValue with
        | some n => "MAXVALUE " ++ toString n ++ " "
        | none => "")
    ++ (if sequence.NoMaxValue then "NO MAXVALUE " else "")
    ++ (match sequence.Cache with
        | some n => "CACHE " ++ toString n ++ " "
        | none => "")
    ++ (if sequence.Cycle then "CYCLE " else "")
    ++ (if sequence.NoCycle then "NO CYCLE " else "")
  -- Go `strings.TrimSpace`
  ⟨(ddl.data.dropWhile Char.isWhitespace).reverse.dropWhile Char.isWhitespace |>.reverse⟩

/-- Go `strings.TrimSuffix(s, " ")`: drop one trailing space if present. -/
def trimSuffixSpace (s : String) : String :=
  if s.data.getLast? == some ' ' then s.dropRight 1 else s

/-- The `[NOT NULL | NULL]` clause of `generateColumnDefinition`
(lines 713-717): `NOT NULL` only when `identity` is empty and the column is
explicitly not-null or a primary key. -/
def columnDefinitionNullClauses (column : Column) : List String :=
  if column.identity == "" &&
      ((column.notNull == some true) || column.keyOption == .columnKeyPrimary) then
    ["NOT NULL "]
  else if column.notNull == some false then
    ["NULL "]
  else []

/-- The default clause of `generateColumnDefinition` (lines 719-725). -/
def columnDefinitionDefaultClauses (column : Column) : Except String (List String) :=
  match column.defaultDef with
  | some dd =>
    match dd.value with
    | some v =>
      match generateDefaultDefinition v with
      | .ok d => .ok [d ++ " "]
      | .error e => .error (e ++ " in column: " ++ column.name)
    | none => .ok []
  | none => .ok []

/-- The key-option clause of `generateColumnDefinition` (lines 742-757);
`SpatialKey`/`Key` hit the `default:` arm and error. -/
def columnDefinitionKeyClauses (column : Column) (enableUnique : Bool) :
    Except String (List String) :=
  match column.keyOption with
  | .columnKeyNone => .ok []
  | .columnKeyUnique => .ok (if enableUnique then ["UNIQUE "] else [])
  | .columnKeyUniqueKey => .ok (if enableUnique then ["UNIQUE KEY "] else [])
  | .columnKeyPrimary => .ok []
  | _ => .error ("unsupported column key in column: " ++ column.name)

/-- The identity / MSSQL `IDENTITY(s,i)` clause of `generateColumnDefinition`
(lines 759-766). The Go code dereferences `*sequence.StartWith` and
`*sequence.IncrementBy` (a nil pointer would panic); modelled with
default 0. -/
def columnDefinitionIdentityClauses (mode : GeneratorMode) (column : Column) : List String :=
  if column.identity != "" then
    ["GENERATED " ++ column.identity ++ " AS IDENTITY "] ++
      (match column.sequence with
       | some s => ["(" ++ generateSequenceClause s ++ ") "]
       | none => [])
  else if mode == .mssql then
    match column.sequence with
    | some s =>
      ["IDENTITY(" ++ toString (s.StartWith.getD 0) ++ "," ++ toString (s.IncrementBy.getD 0) ++ ")"]
    | none => []
  else []

/-- `generateColumnDefinition` (lines 693-770) as the ordered list of
appended clauses; the rendered definition is their concatenation with one
trailing space trimmed (`generateColumnDefinition` below). -/
def columnDefinitionClauses (mode : GeneratorMode) (column : Column) (enableUnique : Bool) :
    Except String (List String) := do
  let defaultClauses ← columnDefinitionDefaultClauses column
  let keyClauses ← columnDefinitionKeyClauses column enableUnique
  .ok ([escapeSQLName mode column.name ++ " " ++ generateDataType column ++ " "]
    ++ (if column.unsigned then ["UNSIGNED "] else [])
    ++ (if column.timezone then ["WITH TIME ZONE "] else [])
    ++ (if column.charset != "" then ["CHARACTER SET " ++ column.charset ++ " "] else [])
    ++ (if column.collate != "" then ["COLLATE " ++ column.collate ++ " "] else [])
    ++ columnDefinitionNullClauses column
    ++ defaultClauses
    ++ (if column.autoIncrement then ["AUTO_INCREMENT "] else [])
    ++ (match column.onUpdate with
        | some v => ["ON UPDATE " ++ v.raw ++ " "]
        | none => [])
    ++ (match column.check with
        | some check => ["CHECK (" ++ check.definition ++ ") "]
        | none => [])
    ++ (if column.checkNoInherit then ["NO INHERIT "] else [])
    ++ keyClauses
    ++ columnDefinitionIdentityClauses mode column)

/-- `generateColumnDefinition` (lines 693-770). -/
def generateColumnDefinition (mode : GeneratorMode) (column : Column) (enableUnique : Bool) :
    Except String String :=
  (columnDefinitionClauses mode column enableUnique).map
    (fun clauses => trimSuffixSpace (String.join clauses))

/-- `generateIndexOptionDefinition` (lines 832-863). Go dereferences
`indexOption.value` (nil would panic); modelled with `""`. -/
def generateIndexOptionDefinition (mode : GeneratorMode) (indexOptions : List IndexOption) :
    String :=
  if indexOptions.length > 0 then
    match mode with
    | .mysql =>
      match indexOptions with
      | indexOption :: _ =>
        let optionName :=
          if indexOption.optionName == "parser" then "WITH " ++ indexOption.optionName
          else indexOption.optionName
        " " ++ optionName ++ " " ++ ((indexOption.value.map (·.raw)).getD "")
      | [] => ""
    | .mssql =>
      let options := indexOptions.map (fun indexOption =>
        let optionValue :=
          match indexOption.value with
          | some v =>
            if v.valueType == .valueTypeBool then
              if v.raw == "true" then "ON" else "OFF"
            else v.raw
          | none => ""
        indexOption.optionName ++ " = " ++ optionValue)
      " WITH (" ++ String.intercalate ", " options ++ ")"
    | _ => ""
  else ""

/-- `generateAddIndex` (lines 772-830). -/
def generateAddIndex (mode : GeneratorMode) (table : String) (index : Index) : String :=
  let uniqueOption := if index.unique then " UNIQUE" else ""
  let clusteredOption := if index.clustered then " CLUSTERED" else " NONCLUSTERED"
  let columns := index.columns.map (fun indexColumn =>
    escapeSQLName mode indexColumn.column ++
      (match indexColumn.length with
       | some n => "(" ++ toString n ++ ")"
       | none => ""))
  let optionDefinition := generateIndexOptionDefinition mode index.options
  match mode with
  | .mssql =>
    let ddl :=
      if !index.primary then
        "CREATE" ++ uniqueOption ++ clusteredOption ++ " INDEX " ++
          escapeSQLName mode index.name ++ " ON " ++ escapeTableName mode table
      else
        "ALTER TABLE " ++ escapeTableName mode table ++ " ADD" ++
          (if index.name != "PRIMARY" then " CONSTRAINT " ++ escapeSQLName mode index.name
           else "") ++
          " " ++ index.indexType ++ clusteredOption
    ddl ++ " (" ++ String.intercalate ", " columns ++ ")" ++ optionDefinition
  | _ =>
    let ddl := "ALTER TABLE " ++ escapeTableName mode table ++ " ADD " ++ index.indexType
    let ddl := ddl ++ (if !index.primary then " " ++ escapeSQLName mode index.name else "")
    ddl ++ " (" ++ String.intercalate ", " columns ++ ")" ++ optionDefinition

/-- `generateDropIndex` (lines 899-910): the `default:` (SQLite) arm
returns the empty string. -/
def generateDropIndex (mode : GeneratorMode) (tableName indexName : String) : String :=
  match mode with
  | .mysql =>
    "ALTER TABLE " ++ escapeTableName mode tableName ++ " DROP INDEX " ++
      escapeSQLName mode indexName
  | .postgres => "DROP INDEX " ++ escapeSQLName mode indexName
  | .mssql =>
    "DROP INDEX " ++ escapeSQLName mode indexName ++ " ON " ++ escapeTableName mode tableName
  | _ => ""

/-- `generateForeignKeyDefinition` (lines 865-897). -/
def generateForeignKeyDefinition (mode : GeneratorMode) (foreignKey : ForeignKey) : String :=
  let definition := "CONSTRAINT " ++ escapeSQLName mode foreignKey.constraintName ++
    " FOREIGN KEY "
  let definition := definition ++
    (if foreignKey.indexName.length > 0 then escapeSQLName mode foreignKey.indexName ++ " "
     else "")
  let indexColumns := foreignKey.indexColumns.map (escapeSQLName mode)
  let referenceColumns := foreignKey.referenceColumns.map (escapeSQLName mode)
  let definition := definition ++ "(" ++ String.intercalate "," indexColumns ++
    ") REFERENCES " ++ escapeSQLName mode foreignKey.referenceName ++
    " (" ++ String.intercalate "," referenceColumns ++ ") "
  let definition := definition ++
    (if foreignKey.onDelete.length > 0 then "ON DELETE " ++ foreignKey.onDelete ++ " " else "")
  let definition := definition ++
    (if foreignKey.onUpdate.length > 0 then "ON UPDATE " ++ foreignKey.onUpdate ++ " " else "")
  trimSuffixSpace definition

/-! ### The emitter (`generator.go` lines 74-669) -/

/-- The per-column body of `generateDDLsForAbsentColumn`'s loop (lines
207-212): a `DROP CONSTRAINT` statement for a matching column whose default
definition carries a named constraint. -/
def absentColumnConstraintDdl (g : Generator) (currentTable : Table) (columnName : String)
    (column : Column) : Option String :=
  if column.name == columnName then
    match column.defaultDef with
    | some dd =>
      if dd.constraintName != "" then
        some ("ALTER TABLE " ++ escapeTableName g.mode currentTable.name ++
          " DROP CONSTRAINT " ++ escapeSQLName g.mode dd.constraintName)
      else none
    | none => none
  else none

/-- `generateDDLsForAbsentColumn` (lines 202-217): under MSSQL, first drop
any named default constraint of the matching column, then drop the
column. -/
def generateDDLsForAbsentColumn (g : Generator) (currentTable : Table) (columnName : String) :
    List String :=
  let ddls :=
    if g.mode == .mssql then
      currentTable.columns.filterMap (absentColumnConstraintDdl g currentTable columnName)
    else []
  ddls ++ ["ALTER TABLE " ++ escapeTableName g.mode currentTable.name ++ " DROP COLUMN " ++
    escapeSQLName g.mode columnName]

/-- The first index column's name. Go indexes `index.columns[0]` (panics on
an empty slice); modelled as `""`. -/
def headIndexColumnName (index : Index) : String :=
  match index.columns with
  | c :: _ => c.column
  | [] => ""

/-- `generateDDLsForAbsentIndex` (lines 626-669). -/
def generateDDLsForAbsentIndex (g : Generator) (currentIndex : Index)
    (currentTable desiredTable : Table) : Except String (List String) :=
  if currentIndex.primary then
    match desiredTable.columns.find? (fun column => column.keyOption == .columnKeyPrimary) with
    | none =>
      if g.mode == .mssql then
        .ok ["ALTER TABLE " ++ escapeTableName g.mode currentTable.name ++
          " DROP CONSTRAINT " ++ escapeSQLName g.mode currentIndex.name]
      else .ok []
    | some primaryKeyColumn =>
      if primaryKeyColumn.name != headIndexColumnName currentIndex then
        .error ("primary key column name of '" ++ currentTable.name ++ "' should be '" ++
          primaryKeyColumn.name ++ "' but currently '" ++ headIndexColumnName currentIndex ++
          "'. This is not handled yet.")
      else .ok []
  else if currentIndex.unique then
    match desiredTable.columns.find? (fun column =>
        column.name == headIndexColumnName currentIndex && column.keyOption.isUnique) with
    | none => .ok [generateDropIndex g.mode currentTable.name currentIndex.name]
    | some _ => .ok []
  else
    .ok [generateDropIndex g.mode currentTable.name currentIndex.name]

/-- `generateDDLsForAbsentForeignKey` (lines 600-622). -/
def generateDDLsForAbsentForeignKey (g : Generator) (currentForeignKey : ForeignKey)
    (currentTable desiredTable : Table) : List String :=
  match g.mode with
  | .mysql =>
    ["ALTER TABLE " ++ escapeTableName g.mode currentTable.name ++ " DROP FOREIGN KEY " ++
      escapeSQLName g.mode currentForeignKey.constraintName]
  | .postgres | .mssql =>
    match desiredTable.columns.find? (fun column =>
        column.references == currentForeignKey.referenceName) with
    | none =>
      ["ALTER TABLE " ++ escapeTableName g.mode currentTable.name ++ " DROP CONSTRAINT " ++
        escapeSQLName g.mode currentForeignKey.constraintName]
    | some _ => []
  | _ => []

/-- The add-column branch of the per-desired-column loop (lines 230-253). -/
def examineColumnNew (g : Generator) (desired : Table) (desiredColumn : Column)
    (after : String) : Except String (List String) :=
  match generateColumnDefinition g.mode desiredColumn true with
  | .error e => .error e
  | .ok definition =>
    let ddl :=
      match g.mode with
      | .mssql =>
        "ALTER TABLE " ++ escapeTableName g.mode desired.name ++ " ADD " ++ definition
      | _ =>
        "ALTER TABLE " ++ escapeTableName g.mode desired.name ++ " ADD COLUMN " ++ definition
    let ddl := if g.mode == .mysql then ddl ++ after else ddl
    .ok [ddl]

/-- The MySQL-like change-column rules (lines 256-285). -/
def examineColumnMysql (g : Generator) (currentTable : Table) (desired : Table)
    (currentColumn desiredColumn : Column) (after : String) : Except String (List String) :=
  let currentPos := currentColumn.position
  let desiredPos := desiredColumn.position
  let changeOrder := currentPos > desiredPos &&
    currentPos - desiredPos >
      (currentTable.columns.length : Int) - (desired.columns.length : Int)
  let ddls1E : Except String (List String) :=
    if !haveSameColumnDefinition g.mode currentColumn desiredColumn ||
        !areSameDefaultValue currentColumn.defaultDef desiredColumn.defaultDef ||
        changeOrder then
      match generateColumnDefinition g.mode desiredColumn false with
      | .error e => .error e
      | .ok definition =>
        let ddl := "ALTER TABLE " ++ escapeTableName g.mode desired.name ++
          " CHANGE COLUMN " ++ escapeSQLName g.mode currentColumn.name ++ " " ++ definition
        let ddl := if changeOrder then ddl ++ after else ddl
        .ok [ddl]
    else .ok []
  match ddls1E with
  | .error e => .error e
  | .ok ddls1 =>
    let ddls2 :=
      if desiredColumn.keyOption.isUnique && !currentColumn.keyOption.isUnique &&
          (findIndexByName currentTable.indexes desiredColumn.name).isNone then
        ["ALTER TABLE " ++ escapeTableName g.mode desired.name ++ " ADD UNIQUE KEY " ++
          escapeSQLName g.mode desiredColumn.name ++ "(" ++
          escapeSQLName g.mode desiredColumn.name ++ ")"]
      else []
    .ok (ddls1 ++ ddls2)

/-- The PostgreSQL-like change-column rules (lines 286-350). -/
def examineColumnPostgres (g : Generator) (currentTable : Table) (desired : Table)
    (currentColumn desiredColumn : Column) : Except String (List String) :=
  let ddlsType :=
    if !haveSameDataType g.mode currentColumn desiredColumn then
      ["ALTER TABLE " ++ escapeTableName g.mode desired.name ++ " ALTER COLUMN " ++
        escapeSQLName g.mode currentColumn.name ++ " TYPE " ++
        generateDataType desiredColumn]
    else []
  let ddlsNull :=
    if !isPrimaryKey currentColumn currentTable then
      if notNullEffective g.mode currentColumn && !notNullEffective g.mode desiredColumn then
        ["ALTER TABLE " ++ escapeTableName g.mode desired.name ++ " ALTER COLUMN " ++
          escapeSQLName g.mode currentColumn.name ++ " DROP NOT NULL"]
      else if !notNullEffective g.mode currentColumn &&
          notNullEffective g.mode desiredColumn then
        ["ALTER TABLE " ++ escapeTableName g.mode desired.name ++ " ALTER COLUMN " ++
          escapeSQLName g.mode currentColumn.name ++ " SET NOT NULL"]
      else []
    else []
  let ddlsIdentity :=
    if currentColumn.identity != desiredColumn.identity then
      if currentColumn.identity == "" then
        let alter := "ALTER TABLE " ++ escapeTableName g.mode desired.name ++
          " ALTER COLUMN " ++ escapeSQLName g.mode desiredColumn.name ++
          " ADD GENERATED " ++ desiredColumn.identity ++ " AS IDENTITY"
        [match desiredColumn.sequence with
         | some s => alter ++ " (" ++ generateSequenceClause s ++ ")"
         | none => alter]
      else if desiredColumn.identity == "" then
        ["ALTER TABLE " ++ escapeTableName g.mode currentTable.name ++ " ALTER COLUMN " ++
          escapeSQLName g.mode currentColumn.name ++ " DROP IDENTITY IF EXISTS"]
      else
        ["ALTER TABLE " ++ escapeTableName g.mode desired.name ++ " ALTER COLUMN " ++
          escapeSQLName g.mode desiredColumn.name ++ " SET GENERATED " ++
          desiredColumn.identity]
    else []
  let ddlsDefaultE : Except String (List String) :=
    if !areSameDefaultValue currentColumn.defaultDef desiredColumn.defaultDef then
      match desiredColumn.defaultDef with
      | none =>
        .ok ["ALTER TABLE " ++ escapeTableName g.mode currentTable.name ++
          " ALTER COLUMN " ++ escapeSQLName g.mode currentColumn.name ++ " DROP DEFAULT"]
      | some dd =>
        -- Go dereferences `*desiredColumn.defaultDef.value` (nil would panic).
        match generateDefaultDefinition
            (dd.value.getD { valueType := .valueTypeValArg, raw := "" }) with
        | .error e => .error e
        | .ok definition =>
          .ok ["ALTER TABLE " ++ escapeTableName g.mode currentTable.name ++
            " ALTER COLUMN " ++ escapeSQLName g.mode currentColumn.name ++ " SET " ++
            definition]
    else .ok []
  let ddlsCheck :=
    if !areSameCheckDefinition currentColumn.check desiredColumn.check ||
        currentColumn.checkNoInherit != desiredColumn.checkNoInherit then
      let constraintName := replaceFirst desired.name "public." ++ "_" ++
        desiredColumn.name ++ "_check"
      (match currentColumn.check with
       | some _ =>
         ["ALTER TABLE " ++ escapeTableName g.mode desired.name ++ " DROP CONSTRAINT " ++
           constraintName]
       | none => []) ++
      (match desiredColumn.check with
       | some check =>
         let ddl := "ALTER TABLE " ++ escapeTableName g.mode desired.name ++
           " ADD CONSTRAINT " ++ constraintName ++ " CHECK (" ++ check.definition ++ ")"
         [if desiredColumn.checkNoInherit then ddl ++ " NO INHERIT" else ddl]
       | none => [])
    else []
  match ddlsDefaultE with
  | .error e => .error e
  | .ok ddlsDefault =>
    .ok (ddlsType ++ ddlsNull ++ ddlsIdentity ++ ddlsDefault ++ ddlsCheck)

/-- The MSSQL-like change-column rules (lines 351-367). -/
def examineColumnMssql (g : Generator) (desired : Table)
    (currentColumn desiredColumn : Column) : Except String (List String) :=
  let ddlsCheck :=
    if !areSameCheckDefinition currentColumn.check desiredColumn.check ||
        currentColumn.checkNoInherit != desiredColumn.checkNoInherit then
      let constraintName := replaceFirst desired.name "dbo." ++ "_" ++
        desiredColumn.name ++ "_check"
      (match currentColumn.check with
       | some check =>
         ["ALTER TABLE " ++ escapeTableName g.mode desired.name ++ " DROP CONSTRAINT " ++
           check.constraintName]
       | none => []) ++
      (match desiredColumn.check with
       | some check =>
         let desiredConstraintName :=
           if check.constraintName == "" then constraintName else check.constraintName
         ["ALTER TABLE " ++ escapeTableName g.mode desired.name ++ " ADD CONSTRAINT " ++
           desiredConstraintName ++ " CHECK (" ++ check.definition ++ ")"]
       | none => [])
    else []
  .ok ddlsCheck

/-- The body of the per-desired-column loop of `generateDDLsForCreateTable`
(lines 224-371), dispatching to the per-dialect rules. `prev` is the
previous desired column (for the MySQL `FIRST`/`AFTER` clause). -/
def examineColumn (g : Generator) (currentTable : Table) (desired : Table)
    (prev : Option Column) (desiredColumn : Column) : Except String (List String) :=
  let currentColumnOpt := findColumnByName currentTable.columns desiredColumn.name
  let desiredColumn :=
    if currentColumnOpt.isNone || !((currentColumnOpt.map (·.autoIncrement)).getD false) then
      { desiredColumn with autoIncrement := false }
    else desiredColumn
  let after :=
    match prev with
    | none => " FIRST"
    | some p => " AFTER " ++ escapeSQLName g.mode p.name
  match currentColumnOpt with
  | none => examineColumnNew g desired desiredColumn after
  | some currentColumn =>
    match g.mode with
    | .mysql => examineColumnMysql g currentTable desired currentColumn desiredColumn after
    | .postgres => examineColumnPostgres g currentTable desired currentColumn desiredColumn
    | .mssql => examineColumnMssql g desired currentColumn desiredColumn
    | .sqlite3 => .ok []

/-- The per-desired-column loop (lines 224-371), threading the previous
column for the MySQL positional clause. -/
def examineColumns (g : Generator) (currentTable : Table) (desired : Table) :
    Option Column → List Column → Except String (List String)
  | _, [] => .ok []
  | prev, desiredColumn :: rest =>
    match examineColumn g currentTable desired prev desiredColumn with
    | .error e => .error e
    | .ok ddls =>
      match examineColumns g currentTable desired (some desiredColumn) rest with
      | .error e => .error e
      | .ok restDdls => .ok (ddls ++ restDdls)

/-- Phase 2 of `generateDDLsForCreateTable` (lines 373-386): remove stale
AUTO_INCREMENT (MySQL only). -/
def removeStaleAutoIncrement (g : Generator) (currentTable : Table) (desired : Table) :
    List Column → Except String (List String)
  | [] => .ok []
  | currentColumn :: rest =>
    let ddlsE : Except String (List String) :=
      if currentColumn.autoIncrement &&
          !(((findColumnByName desired.columns currentColumn.name).map
              (·.autoIncrement)).getD false) then
        match generateColumnDefinition g.mode
            { currentColumn with autoIncrement := false } false with
        | .error e => .error e
        | .ok definition =>
          .ok ["ALTER TABLE " ++ escapeTableName g.mode currentTable.name ++
            " CHANGE COLUMN " ++ escapeSQLName g.mode currentColumn.name ++ " " ++ definition]
      else .ok []
    match ddlsE with
    | .error e => .error e
    | .ok ddls =>
      match removeStaleAutoIncrement g currentTable desired rest with
      | .error e => .error e
      | .ok restDdls => .ok (ddls ++ restDdls)

/-- Phase 3 of `generateDDLsForCreateTable` (lines 388-405): primary key
changes. Go indexes `strings.SplitN(name, ".", 2)[1]` (panics without a
dot); modelled as `""`. -/
def examinePrimaryKey (g : Generator) (currentTable : Table) (desired : Table) : List String :=
  let currentPrimaryKey := currentTable.PrimaryKey
  let desiredPrimaryKey := desired.PrimaryKey
  if !areSamePrimaryKeys currentPrimaryKey desiredPrimaryKey then
    (match currentPrimaryKey with
     | some _ =>
       match g.mode with
       | .mysql =>
         ["ALTER TABLE " ++ escapeTableName g.mode desired.name ++ " DROP PRIMARY KEY"]
       | .postgres =>
         let tableName := ((splitN2 desired.name ".").drop 1).headD ""
         ["ALTER TABLE " ++ escapeTableName g.mode desired.name ++ " DROP CONSTRAINT " ++
           escapeSQLName g.mode (tableName ++ "_pkey")]
       | _ => []
     | none => []) ++
    (match desiredPrimaryKey with
     | some desiredPK => [generateAddIndex g.mode desired.name desiredPK]
     | none => [])
  else []

/-- Phase 4 of `generateDDLsForCreateTable` (lines 407-423): examine each
desired non-primary index. -/
def examineIndexes (g : Generator) (currentTable : Table) (desired : Table) : List String :=
  desired.indexes.foldl
    (fun acc desiredIndex =>
      if desiredIndex.primary then acc
      else
        match findIndexByName currentTable.indexes desiredIndex.name with
        | some currentIndex =>
          if !areSameIndexes currentIndex desiredIndex then
            acc ++ [generateDropIndex g.mode desired.name desiredIndex.name,
              generateAddIndex g.mode desired.name desiredIndex]
          else acc
        | none => acc ++ [generateAddIndex g.mode desired.name desiredIndex])
    []

/-- Phase 5 of `generateDDLsForCreateTable` (lines 425-437): add new
AUTO_INCREMENT (MySQL only). -/
def addNewAutoIncrement (g : Generator) (currentTable : Table) (desired : Table) :
    List Column → Except String (List String)
  | [] => .ok []
  | desiredColumn :: rest =>
    let ddlsE : Except String (List String) :=
      if desiredColumn.autoIncrement &&
          !(((findColumnByName currentTable.columns desiredColumn.name).map
              (·.autoIncrement)).getD false) then
        match generateColumnDefinition g.mode desiredColumn false with
        | .error e => .error e
        | .ok definition =>
          .ok ["ALTER TABLE " ++ escapeTableName g.mode currentTable.name ++
            " CHANGE COLUMN " ++ escapeSQLName g.mode desiredColumn.name ++ " " ++ definition]
      else .ok []
    match ddlsE with
    | .error e => .error e
    | .ok ddls =>
      match addNewAutoIncrement g currentTable desired rest with
      | .error e => .error e
      | .ok restDdls => .ok (ddls ++ restDdls)

/-- The `MissingConstraintName` error message (lines 442-446); `%v` of a Go
string slice is the space-separated list in brackets. -/
def missingConstraintNameMessage (tableName : String) (foreignKey : ForeignKey) : String :=
  "Foreign key without constraint symbol was found in table '" ++ tableName ++
    "' (index name: '" ++ foreignKey.indexName ++ "', columns: [" ++
    String.intercalate " " foreignKey.indexColumns ++
    "]). Specify the constraint symbol to identify the foreign key."

/-- Phase 6 of `generateDDLsForCreateTable` (lines 439-467): examine each
desired foreign key, rejecting empty constraint names. -/
def examineForeignKeys (g : Generator) (currentTable : Table) (desired : Table) :
    List ForeignKey → Except String (List String)
  | [] => .ok []
  | desiredForeignKey :: rest =>
    if desiredForeignKey.constraintName.length == 0 then
      .error (missingConstraintNameMessage desired.name desiredForeignKey)
    else
      let ddls :=
        match findForeignKeyByName currentTable.foreignKeys
            desiredForeignKey.constraintName with
        | some currentForeignKey =>
          if !areSameForeignKeys g.mode currentForeignKey desiredForeignKey then
            (match g.mode with
             | .mysql =>
               ["ALTER TABLE " ++ escapeTableName g.mode desired.name ++
                 " DROP FOREIGN KEY " ++ escapeSQLName g.mode currentForeignKey.constraintName]
             | .postgres | .mssql =>
               ["ALTER TABLE " ++ escapeTableName g.mode desired.name ++
                 " DROP CONSTRAINT " ++ escapeSQLName g.mode currentForeignKey.constraintName]
             | _ => []) ++
            ["ALTER TABLE " ++ escapeTableName g.mode desired.name ++ " ADD " ++
              generateForeignKeyDefinition g.mode desiredForeignKey]
          else []
        | none =>
          ["ALTER TABLE " ++ escapeTableName g.mode desired.name ++ " ADD " ++
            generateForeignKeyDefinition g.mode desiredForeignKey]
      match examineForeignKeys g currentTable desired rest with
      | .ok restDdls => .ok (ddls ++ restDdls)
      | .error e => .error e

/-- `generateDDLsForCreateTable` (lines 220-470): the six phases in order. -/
def generateDDLsForCreateTable (g : Generator) (currentTable : Table) (desired : Table) :
    Except String (List String) :=
  match examineColumns g currentTable desired none desired.columns with
  | .error e => .error e
  | .ok columnDdls =>
    match (if g.mode == .mysql then
        removeStaleAutoIncrement g currentTable desired currentTable.columns
      else .ok []) with
    | .error e => .error e
    | .ok autoIncRemovals =>
      let pkDdls := examinePrimaryKey g currentTable desired
      let indexDdls := examineIndexes g currentTable desired
      match (if g.mode == .mysql then
          addNewAutoIncrement g currentTable desired desired.columns
        else .ok []) with
      | .error e => .error e
      | .ok autoIncAdds =>
        match examineForeignKeys g currentTable desired desired.foreignKeys with
        | .error e => .error e
        | .ok fkDdls =>
          .ok (columnDdls ++ autoIncRemovals ++ pkDdls ++ indexDdls ++ autoIncAdds ++ fkDdls)

/-- Replace the first table with the given name (models Go's in-place
mutation through the pointer returned by `findTableByName`). -/
def replaceTableByName (tables : List Table) (name : String) (newTable : Table) : List Table :=
  match tables with
  | [] => []
  | t :: rest =>
    if t.name == name then newTable :: rest else t :: replaceTableByName rest name newTable

/-- `generateDDLsForCreateIndex` (lines 474-516). Returns the emitted DDLs
and the updated simulated state. -/
def generateDDLsForCreateIndex (g : Generator) (tableName : String) (desiredIndex : Index)
    (action statement : String) : Except String (List String × Generator) :=
  match findTableByName g.currentTables tableName with
  | none =>
    .error (action ++ " is performed for inexistent table '" ++ tableName ++ "': '" ++
      statement ++ "'")
  | some currentTable =>
    let (ddls, newCurrentTable) :=
      match findIndexByName currentTable.indexes desiredIndex.name with
      | none =>
        ([statement], { currentTable with indexes := currentTable.indexes ++ [desiredIndex] })
      | some currentIndex =>
        if !areSameIndexes currentIndex desiredIndex then
          ([generateDropIndex g.mode currentTable.name currentIndex.name, statement],
            { currentTable with
              indexes := currentTable.indexes.map (fun ci =>
                if ci.name == desiredIndex.name then desiredIndex else ci) })
        else ([], currentTable)
    let g := { g with
      currentTables := replaceTableByName g.currentTables tableName newCurrentTable }
    match findTableByName g.desiredTables tableName with
    | none =>
      .error (action ++ " is performed before create table '" ++ tableName ++ "': '" ++
        statement ++ "'")
    | some desiredTable =>
      if containsString (convertIndexesToIndexNames desiredTable.indexes) desiredIndex.name then
        .error ("index '" ++ desiredIndex.name ++ "' is doubly created against table '" ++
          tableName ++ "': '" ++ statement ++ "'")
      else
        .ok (ddls, { g with
          desiredTables := replaceTableByName g.desiredTables tableName
            { desiredTable with indexes := desiredTable.indexes ++ [desiredIndex] } })

/-- `generateDDLsForAddForeignKey` (lines 518-534). -/
def generateDDLsForAddForeignKey (g : Generator) (tableName : String)
    (desiredForeignKey : ForeignKey) (action statement : String) :
    Except String (List String × Generator) :=
  match findTableByName g.desiredTables tableName with
  | none =>
    .error (action ++ " is performed before create table '" ++ tableName ++ "': '" ++
      statement ++ "'")
  | some desiredTable =>
    if containsString (convertForeignKeysToConstraintNames desiredTable.foreignKeys)
        desiredForeignKey.constraintName then
      .error ("index '" ++ desiredForeignKey.constraintName ++
        "' is doubly created against table '" ++ tableName ++ "': '" ++ statement ++ "'")
    else
      .ok ([], { g with
        desiredTables := replaceTableByName g.desiredTables tableName
          { desiredTable with
            foreignKeys := desiredTable.foreignKeys ++ [desiredForeignKey] } })

/-- `generateDDLsForCreatePolicy` (lines 536-568). -/
def generateDDLsForCreatePolicy (g : Generator) (tableName : String) (desiredPolicy : Policy)
    (action statement : String) : Except String (List String × Generator) :=
  match findTableByName g.currentTables tableName with
  | none =>
    .error (action ++ " is performed for inexistent table '" ++ tableName ++ "': '" ++
      statement ++ "'")
  | some currentTable =>
    let (ddls, newCurrentTable) :=
      match findPolicyByName currentTable.policies desiredPolicy.name with
      | none =>
        ([statement],
          { currentTable with policies := currentTable.policies ++ [desiredPolicy] })
      | some currentPolicy =>
        if !areSamePolicies currentPolicy desiredPolicy then
          (["DROP POLICY " ++ escapeSQLName g.mode currentPolicy.name ++ " ON " ++
              escapeTableName g.mode currentTable.name, statement], currentTable)
        else ([], currentTable)
    let g := { g with
      currentTables := replaceTableByName g.currentTables tableName newCurrentTable }
    match findTableByName g.desiredTables tableName with
    | none =>
      .error (action ++ " is performed before create table '" ++ tableName ++ "': '" ++
        statement ++ "'")
    | some desiredTable =>
      if containsString (convertPolicyNames desiredTable.policies) desiredPolicy.name then
        .error ("policy '" ++ desiredPolicy.name ++ "' is doubly created against table '" ++
          tableName ++ "': '" ++ statement ++ "'")
      else
        .ok (ddls, { g with
          desiredTables := replaceTableByName g.desiredTables tableName
            { desiredTable with policies := desiredTable.policies ++ [desiredPolicy] } })

/-- `generateDDLsForCreateView` (lines 570-596). -/
def generateDDLsForCreateView (g : Generator) (viewName : String) (desiredView : View) :
    Except String (List String × Generator) :=
  let ddls :=
    match findViewByName g.currentViews viewName with
    | none => [desiredView.statement]
    | some currentView =>
      if toLowerStr currentView.definition != toLowerStr desiredView.definition then
        if g.mode == .sqlite3 || g.mode == .mssql then
          ["DROP VIEW " ++ escapeTableName g.mode viewName,
            "CREATE VIEW " ++ escapeTableName g.mode viewName ++ " AS " ++
              desiredView.definition]
        else
          ["CREATE OR REPLACE VIEW " ++ escapeTableName g.mode viewName ++ " AS " ++
            desiredView.definition]
      else []
  if containsString (convertViewNames g.desiredViews) desiredView.name then
    .error ("view '" ++ desiredView.name ++ "' is doubly created: '" ++
      desiredView.statement ++ "'")
  else
    .ok (ddls, { g with desiredViews := g.desiredViews ++ [desiredView] })

/-- The desired-side walk of `generateDDLs` (lines 77-130). `AddPrimaryKey`
hits the `default:` arm (Go formats the value with `%v`; modelled with the
statement text). -/
def walkDesired (g : Generator) : List DDL → Except String (List String × Generator)
  | [] => .ok ([], g)
  | ddl :: rest => do
    let (ddls1, g1) ←
      match ddl with
      | .createTable statement table =>
        (match findTableByName g.currentTables table.name with
         | some currentTable => do
           let tableDDLs ← generateDDLsForCreateTable g currentTable table
           let g := { g with
             currentTables := replaceTableByName g.currentTables table.name
               (mergeTable currentTable table) }
           pure (tableDDLs, { g with desiredTables := g.desiredTables ++ [table] })
         | none =>
           pure ([statement],
             { g with
               currentTables := g.currentTables ++ [table],
               desiredTables := g.desiredTables ++ [table] }))
      | .createIndex statement tableName index =>
        generateDDLsForCreateIndex g tableName index "CREATE INDEX" statement
      | .addIndex statement tableName index =>
        generateDDLsForCreateIndex g tableName index "ALTER TABLE" statement
      | .addForeignKey statement tableName foreignKey =>
        generateDDLsForAddForeignKey g tableName foreignKey "ALTER TABLE" statement
      | .addPolicy statement tableName policy =>
        generateDDLsForCreatePolicy g tableName policy "CREATE POLICY" statement
      | .view v => generateDDLsForCreateView g v.name v
      | .addPrimaryKey statement _ _ =>
        .error ("unexpected ddl type in generateDDLs: " ++ statement)
    let (restDdls, g2) ← walkDesired g1 rest
    .ok (ddls1 ++ restDdls, g2)

/-- `removeTableByName` (lines 1370-1386). Go calls `log.Fatalf` (process
abort) when nothing was removed; modelled as an error. -/
def removeTableByName (tables : List Table) (name : String) : Except String (List Table) :=
  if tables.any (fun t => t.name == name) then
    .ok (tables.filter (fun t => !(name == t.name)))
  else
    .error ("Failed to removeTableByName: Table `" ++ name ++ "` is not found")

/-- The index part of the final cleanup walk (lines 154-168). -/
def cleanupAbsentIndexes (g : Generator) (currentTable desiredTable : Table) :
    List Index → Except String (List String)
  | [] => .ok []
  | index :: rest =>
    if containsString (convertIndexesToIndexNames desiredTable.indexes) index.name ||
        containsString (convertForeignKeysToIndexNames desiredTable.foreignKeys) index.name then
      cleanupAbsentIndexes g currentTable desiredTable rest
    else do
      let indexDDLs ← generateDDLsForAbsentIndex g index currentTable desiredTable
      let restDdls ← cleanupAbsentIndexes g currentTable desiredTable rest
      .ok (indexDDLs ++ restDdls)

/-- The final cleanup walk over tables (lines 132-189). The walk iterates
over a snapshot of `currentTables` while `DROP TABLE` removals update the
live list. -/
def cleanupTables (g : Generator) (live : List Table) :
    List Table → Except String (List String × List Table)
  | [] => .ok ([], live)
  | currentTable :: rest =>
    match findTableByName g.desiredTables currentTable.name with
    | none => do
      let live1 ← removeTableByName live currentTable.name
      let (restDdls, live2) ← cleanupTables g live1 rest
      .ok (["DROP TABLE " ++ escapeTableName g.mode currentTable.name] ++ restDdls, live2)
    | some desiredTable => do
      let fkDdls := currentTable.foreignKeys.foldl
        (fun acc foreignKey =>
          if containsString (convertForeignKeysToConstraintNames desiredTable.foreignKeys)
              foreignKey.constraintName then acc
          else acc ++ generateDDLsForAbsentForeignKey g foreignKey currentTable desiredTable)
        []
      let indexDdls ← cleanupAbsentIndexes g currentTable desiredTable currentTable.indexes
      let columnDdls := currentTable.columns.foldl
        (fun acc column =>
          if containsString (convertColumnsToColumnNames desiredTable.columns)
              column.name then acc
          else acc ++ generateDDLsForAbsentColumn g currentTable column.name)
        []
      let policyDdls := currentTable.policies.foldl
        (fun acc policy =>
          if containsString (convertPolicyNames desiredTable.policies) policy.name then acc
          else acc ++ ["DROP POLICY " ++ escapeSQLName g.mode policy.name ++ " ON " ++
            escapeTableName g.mode currentTable.name])
        []
      let (restDdls, live1) ← cleanupTables g live rest
      .ok (fkDdls ++ indexDdls ++ columnDdls ++ policyDdls ++ restDdls, live1)

/-- The final cleanup walk over views (lines 191-197). -/
def cleanupViews (g : Generator) : List String :=
  g.currentViews.foldl
    (fun acc currentView =>
      if containsString (convertViewNames g.desiredViews) currentView.name then acc
      else acc ++ ["DROP VIEW " ++ escapeTableName g.mode currentView.name])
    []

/-- `generateDDLs` (lines 74-200): the desired-side walk followed by the
final cleanup walk. -/
def generateDDLs (g : Generator) (desiredDDLs : List DDL) : Except String (List String) := do
  let (ddls, g1) ← walkDesired g desiredDDLs
  let (cleanupDdls, _) ← cleanupTables g1 g1.currentTables g1.currentTables
  .ok (ddls ++ cleanupDdls ++ cleanupViews g1)

/-- `convertDDLsToTables` (lines 990-1039): folds the current DDL stream
into tables. `AddIndex` hits the `default:` arm and errors. -/
def convertDDLsToTables (ddls : List DDL) : Except String (List Table) :=
  convertDDLsToTablesAux [] ddls
where
  /-- The fold with its accumulated tables. -/
  convertDDLsToTablesAux (tables : List Table) : List DDL → Except String (List Table)
    | [] => .ok tables
    | ddl :: rest =>
      match ddl with
      | .createTable _ table => convertDDLsToTablesAux (tables ++ [table]) rest
      | .createIndex statement tableName index =>
        (match findTableByName tables tableName with
         | none => .error ("CREATE INDEX is performed before CREATE TABLE: " ++ statement)
         | some table =>
           convertDDLsToTablesAux
             (replaceTableByName tables tableName
               { table with indexes := table.indexes ++ [index] }) rest)
      | .addPrimaryKey statement tableName index =>
        (match findTableByName tables tableName with
         | none => .error ("ADD PRIMARY KEY is performed before CREATE TABLE: " ++ statement)
         | some table =>
           let newColumns := table.columns.map (fun column =>
             if column.name == headIndexColumnName index then
               { column with keyOption := .columnKeyPrimary }
             else column)
           convertDDLsToTablesAux
             (replaceTableByName tables tableName { table with columns := newColumns }) rest)
      | .addForeignKey statement tableName foreignKey =>
        (match findTableByName tables tableName with
         | none => .error ("ADD FOREIGN KEY is performed before CREATE TABLE: " ++ statement)
         | some table =>
           convertDDLsToTablesAux
             (replaceTableByName tables tableName
               { table with foreignKeys := table.foreignKeys ++ [foreignKey] }) rest)
      | .addPolicy statement tableName policy =>
        (match findTableByName tables tableName with
         | none => .error ("ADD POLICY performed before CREATE TABLE: " ++ statement)
         | some table =>
           convertDDLsToTablesAux
             (replaceTableByName tables tableName
               { table with policies := table.policies ++ [policy] }) rest)
      | .view _ => convertDDLsToTablesAux tables rest
      | .addIndex statement _ _ =>
        .error ("unexpected ddl type in convertDDLsToTables: " ++ statement)

/-- `convertDDLsToViews` (lines 1041-1049). -/
def convertDDLsToViews (ddls : List DDL) : List View :=
  ddls.filterMap (fun ddl =>
    match ddl with
    | .view v => some v
    | _ => none)

/-- `GenerateIdempotentDDLs` (lines 44-71) after parsing: build the current
schema from the current DDL stream and run the generator over the desired
stream. (Parsing itself is an external collaborator, spec §1.) -/
def diffDDLs (mode : GeneratorMode) (desiredDDLs currentDDLs : List DDL) :
    Except String (List String) := do
  let tables ← convertDDLsToTables currentDDLs
  let views := convertDDLsToViews currentDDLs
  generateDDLs
    { mode := mode, desiredTables := [], currentTables := tables,
      desiredViews := [], currentViews := views }
    desiredDDLs

/-! ### Well-formedness for the identity property -/

/-- The CREATE TABLE statements of a DDL stream, in order. -/
def streamTables (ddls : List DDL) : List (String × Table) :=
  ddls.filterMap (fun ddl =>
    match ddl with
    | .createTable s t => some (s, t)
    | _ => none)

/-- The indexes the stream's CREATE INDEX statements add to the named
table, in order. -/
def tableIndexes (name : String) (ddls : List DDL) : List Index :=
  ddls.filterMap (fun ddl =>
    match ddl with
    | .createIndex _ tn i => if tn == name then some i else none
    | _ => none)

/-- The foreign keys the stream's ADD FOREIGN KEY statements add to the
named table, in order. -/
def tableForeignKeys (name : String) (ddls : List DDL) : List ForeignKey :=
  ddls.filterMap (fun ddl =>
    match ddl with
    | .addForeignKey _ tn fk => if tn == name then some fk else none
    | _ => none)

/-- The policies the stream's CREATE POLICY statements add to the named
table, in order. -/
def tablePolicies (name : String) (ddls : List DDL) : List Policy :=
  ddls.filterMap (fun ddl =>
    match ddl with
    | .addPolicy _ tn p => if tn == name then some p else none
    | _ => none)

/-- A table extended with further indexes, foreign keys and policies. -/
def extendTable (t : Table) (is : List Index) (fks : List ForeignKey)
    (ps : List Policy) : Table :=
  { t with indexes := t.indexes ++ is,
           foreignKeys := t.foreignKeys ++ fks,
           policies := t.policies ++ ps }

/-- A table together with everything the stream adds to it. -/
def applyExtras (t : Table) (ddls : List DDL) : Table :=
  extendTable t (tableIndexes t.name ddls) (tableForeignKeys t.name ddls)
    (tablePolicies t.name ddls)

/-- Every ALTER-style statement references a table created earlier in the
stream, and no ADD PRIMARY KEY / ADD INDEX statement occurs (the former
always aborts the desired-side walk, the latter the current-side
conversion). `created` accumulates the table names created so far. -/
def wfOrder (created : List String) : List DDL → Bool
  | [] => true
  | .createTable _ t :: rest => wfOrder (created ++ [t.name]) rest
  | .createIndex _ tn _ :: rest => containsString created tn && wfOrder created rest
  | .addForeignKey _ tn _ :: rest => containsString created tn && wfOrder created rest
  | .addPolicy _ tn _ :: rest => containsString created tn && wfOrder created rest
  | .view _ :: rest => wfOrder created rest
  | .addPrimaryKey _ _ _ :: _ => false
  | .addIndex _ _ _ :: _ => false

/-- Well-formedness of one table of a stream together with the indexes,
foreign keys and policies that later statements of the stream add to it:
distinct column names; distinct index names across the table's own and the
added indexes, each with distinct option names, the added ones
non-primary; distinct foreign-key constraint names across own and added,
the table's own ones non-empty; distinct policy names across own and
added; and — under MySQL — every primary-key column carries an explicit
`NOT NULL` and no column carries a column-level CHECK (the check-pointer
comparison in `haveSameColumnDefinition` makes any check-carrying column
compare unequal to its independently parsed self). -/
def TableStreamOK (mode : GeneratorMode) (t : Table) (is : List Index)
    (fks : List ForeignKey) (ps : List Policy) : Prop :=
  (t.columns.map (·.name)).Nodup ∧
  ((t.indexes ++ is).map (·.name)).Nodup ∧
  (∀ i ∈ t.indexes ++ is, (i.options.map (·.optionName)).Nodup) ∧
  (∀ i ∈ is, i.primary = false) ∧
  ((t.foreignKeys ++ fks).map (·.constraintName)).Nodup ∧
  (∀ fk ∈ t.foreignKeys, fk.constraintName ≠ "") ∧
  ((t.policies ++ ps).map (·.name)).Nodup ∧
  (mode = .mysql → ∀ c ∈ t.columns,
    (c.keyOption = .columnKeyPrimary → c.notNull = some true) ∧ c.check = none)

/-- Well-formedness of a schema stream for the identity property: distinct
table names, distinct view names, orderly statements (`wfOrder`), and each
table well-formed together with its stream-added extras. -/
def StreamWF (mode : GeneratorMode) (ddls : List DDL) : Prop :=
  ((streamTables ddls).map (fun p => p.2.name)).Nodup ∧
  ((convertDDLsToViews ddls).map (·.name)).Nodup ∧
  wfOrder [] ddls = true ∧
  ∀ p ∈ streamTables ddls, TableStreamOK mode p.2 (tableIndexes p.2.name ddls)
    (tableForeignKeys p.2.name ddls) (tablePolicies p.2.name ddls)

/-! ### Concrete fixtures for counterexamples and witnesses -/

def colA : Column := { name := "a" }

def colB : Column := { name := "b" }

def t1ex : Table := { name := "t", columns := [colA] }

def t2ex : Table := { name := "t", columns := [colA, colB] }

def vHalf : Value := { valueType := .valueTypeFloat, raw := "0.5" }

def vHalf0 : Value := { valueType := .valueTypeFloat, raw := "0.50" }

def polPlain : Policy := { name := "p", «using» := "a" }

def polParen : Policy := { name := "p", «using» := "(a)" }

def polWcA : Policy := { name := "p", «using» := "u", withCheck := "b", roles := ["r1"] }

def polWcB : Policy := { name := "p", «using» := "U", withCheck := "(b)", roles := ["r2"] }

def optPad : IndexOption :=
  { optionName := "pad", value := some { valueType := .valueTypeStr, raw := "10" } }

def idxWithOpt : Index := { name := "i", options := [optPad] }

def idxNoOpt : Index := { name := "i" }

def idxNoOpt2 : Index := { name := "j", unique := true }

def vInt1 : Value := { valueType := .valueTypeInt, raw := "1", intVal := 1 }

def ddefC : DefaultDefinition := { value := some vInt1, constraintName := "df_c" }

def colKeep : Column := { name := "keep", typeName := "integer" }

def colDropped : Column := { name := "c", typeName := "integer", defaultDef := some ddefC }

def tblCur : Table := { name := "t", columns := [colKeep, colDropped] }

def tblDes : Table := { name := "t", columns := [colKeep] }

def gMssql : Generator := { mode := .mssql }

def gSqlite : Generator := { mode := .sqlite3 }

def fkAnon : ForeignKey :=
  { constraintName := "", indexColumns := ["uid"], referenceName := "users" }

def tblFk : Table := { name := "posts", columns := [colKeep], foreignKeys := [fkAnon] }

def idxAge : Index := { name := "age_idx", columns := [{ column := "age" }] }

def tblIdx : Table := { name := "t", columns := [colKeep], indexes := [idxAge] }

def gDup : Generator := { mode := .mysql, desiredTables := [tblIdx], currentTables := [tblIdx] }

def idxPlain : Index := { name := "i" }

/-- A generator state holding one table on both sides (used in proofs). -/
def gOneTable (mode : GeneratorMode) (t : Table) : Generator :=
  { mode := mode, currentTables := [t], desiredTables := [t] }

/-- The initial generator state with empty current schema. -/
def gEmpty (mode : GeneratorMode) : Generator := { mode := mode }

def colIdent : Column :=
  { name := "n", typeName := "integer", notNull := some true, identity := "ALWAYS" }

def colIdPk : Column := { name := "id", typeName := "bigint", keyOption := .columnKeyPrimary }

def tblUsers : Table := { name := "users", columns := [colIdPk] }

def ddlUsers : DDL := .createTable "CREATE TABLE users (id bigint PRIMARY KEY)" tblUsers

def colIdFull : Column :=
  { name := "id", typeName := "bigint", keyOption := .columnKeyPrimary, notNull := some true }

def colName2 : Column := { name := "name", typeName := "varchar", notNull := some true }

def idxName2 : Index :=
  { name := "name_idx", indexType := "index", columns := [{ column := "name" }] }

def tblOk : Table :=
  { name := "users", columns := [colIdFull, colName2], indexes := [idxName2] }

def colW1 : Column :=
  { name := "id", typeName := "bigint", keyOption := .columnKeyPrimary, notNull := some true }

def colW2 : Column := { name := "w2", typeName := "integer" }

def idxW0 : Index := { name := "idx0", indexType := "index", columns := [{ column := "w2" }] }

def idxW1 : Index := { name := "widx", indexType := "index", columns := [{ column := "w2" }] }

def fkW0 : ForeignKey :=
  { constraintName := "fk0", indexColumns := ["w2"], referenceName := "other",
    referenceColumns := ["id"] }

def fkW1 : ForeignKey :=
  { constraintName := "fk1", indexColumns := ["id"], referenceName := "other",
    referenceColumns := ["id"] }

def polW0 : Policy :=
  { name := "pol0", scope := "ALL", permissive := "PERMISSIVE", roles := ["PUBLIC"],
    «using» := "true" }

def polW1 : Policy :=
  { name := "pol1", scope := "SELECT", permissive := "PERMISSIVE", roles := ["PUBLIC"],
    «using» := "true" }

def tblW : Table :=
  { name := "pt", columns := [colW1, colW2], indexes := [idxW0],
    foreignKeys := [fkW0], policies := [polW0] }

def viewW : View :=
  { statement := "CREATE VIEW v AS SELECT 1", name := "v", definition := "SELECT 1" }

/-- A schema stream exercising every statement kind the identity covers. -/
def streamW : List DDL :=
  [.createTable "CREATE TABLE pt (id bigint PRIMARY KEY NOT NULL, w2 integer)" tblW,
   .createIndex "CREATE INDEX widx ON pt (w2)" "pt" idxW1,
   .addForeignKey "ALTER TABLE pt ADD CONSTRAINT fk1 FOREIGN KEY (id) REFERENCES other (id)"
     "pt" fkW1,
   .addPolicy "CREATE POLICY pol1 ON pt" "pt" polW1,
   .view viewW]

def colChk : Column :=
  { name := "c", typeName := "integer", check := some { definition := "c > 0" } }

def tblChk : Table := { name := "t", columns := [colChk] }

def ddlChk : DDL := .createTable "CREATE TABLE t (c integer CHECK (c > 0))" tblChk

def apkDdl : DDL := .addPrimaryKey "ALTER TABLE t ADD PRIMARY KEY (c)" "t"
  { name := "PRIMARY", primary := true, columns := [{ column := "c" }] }

def aidxDdl : DDL := .addIndex "ALTER TABLE t ADD INDEX tidx (c)" "t"
  { name := "tidx", columns := [{ column := "c" }] }

/-! ### Helper lemmas -/

theorem beq_comm' {α : Type} [BEq α] [LawfulBEq α] (a b : α) : (a == b) = (b == a) := by
  by_cases h : a = b
  · subst h; rfl
  · rw [beq_eq_false_iff_ne.mpr h, beq_eq_false_iff_ne.mpr (Ne.symm h)]

theorem except_bind_ok {ε α β : Type} (a : α) (f : α → Except ε β) :
    (Except.ok a >>= f) = f a := rfl

theorem except_bind_err {ε α β : Type} (e : ε) (f : α → Except ε β) :
    ((Except.error e : Except ε α) >>= f) = .error e := rfl

theorem except_pure {ε α : Type} (a : α) : (pure a : Except ε α) = .ok a := rfl

theorem string_length_ne_zero {s : String} (h : s ≠ "") : s.length ≠ 0 := by
  intro hl
  apply h
  cases s with
  | mk data =>
    cases data with
    | nil => rfl
    | cons c t => simp [String.length] at hl

theorem containsString_map_self {α : Type} (f : α → String) (l : List α) (a : α)
    (ha : a ∈ l) : containsString (l.map f) (f a) = true := by
  simp only [containsString, List.any_eq_true]
  exact ⟨f a, List.mem_map_of_mem f ha, beq_self_eq_true (f a)⟩

theorem containsString_append_singleton (l : List String) (a : String)
    (h : containsString l a = true) (x : String) :
    containsString (l ++ [a]) x = containsString l x := by
  by_cases hax : a = x
  · subst hax
    simp only [containsString] at h ⊢
    simp [List.any_append, h]
  · simp [containsString, List.any_append, beq_eq_false_iff_ne.mpr hax]

theorem find?_name_self {α : Type} (f : α → String) (l : List α)
    (hnd : (l.map f).Nodup) (a : α) (ha : a ∈ l) :
    l.find? (fun x => f x == f a) = some a := by
  induction l with
  | nil => cases ha
  | cons b t ih =>
    by_cases hb : f b = f a
    · have hba : b = a := by
        rcases List.mem_cons.mp ha with h | h
        · exact h.symm
        · exact absurd (hb ▸ List.mem_map_of_mem f h) (List.nodup_cons.mp hnd).1
      subst hba
      simp [List.find?_cons, hb]
    · have hat : a ∈ t := by
        rcases List.mem_cons.mp ha with h | h
        · exact absurd (h ▸ rfl) hb
        · exact h
      rw [List.find?_cons, beq_eq_false_iff_ne.mpr hb]
      exact ih (List.nodup_cons.mp hnd).2 hat

theorem containsString_map_of_find?_none {α : Type} (f : α → String) (l : List α)
    (n : String) (h : l.find? (fun x => f x == n) = none) :
    containsString (l.map f) n = false := by
  rw [containsString, List.any_eq_false]
  intro x hx
  rcases List.mem_map.mp hx with ⟨a, ha, rfl⟩
  have := List.find?_eq_none.mp h a ha
  simpa using this

theorem containsString_map_of_find?_some {α : Type} (f : α → String) (l : List α)
    (n : String) (a : α) (h : l.find? (fun x => f x == n) = some a) :
    containsString (l.map f) n = true := by
  have hp := List.find?_some h
  have hm := List.mem_of_find?_eq_some h
  simp only [containsString, List.any_eq_true]
  exact ⟨f a, List.mem_map_of_mem f hm, hp⟩

theorem foldl_skip {α : Type} (p : α → Bool) (emit : α → List String) (l : List α)
    (h : ∀ a ∈ l, p a = true) :
    ∀ acc, l.foldl (fun acc a => if p a then acc else acc ++ emit a) acc = acc := by
  induction l with
  | nil => intro acc; rfl
  | cons b t ih =>
    intro acc
    rw [List.foldl_cons, h b (List.mem_cons_self b t)]
    exact ih (fun a ha => h a (List.mem_cons_of_mem b ha)) acc

theorem zip_self_all {α : Type} (f : α → String) (l : List α) :
    (l.zip l).all (fun p => f p.1 == f p.2) = true := by
  induction l with
  | nil => rfl
  | cons b t ih => simpa using ih

theorem foldl_merge_eq_filter {α : Type} (f : α → String) (l2 : List α) :
    ∀ l1 : List α,
      l2.foldl (fun acc x => if containsString (acc.map f) (f x) then acc ++ [x] else acc) l1 =
        l1 ++ l2.filter (fun x => containsString (l1.map f) (f x)) := by
  induction l2 with
  | nil => intro l1; simp
  | cons b t ih =>
    intro l1
    rw [List.foldl_cons]
    by_cases hb : containsString (l1.map f) (f b) = true
    · rw [if_pos hb, ih (l1 ++ [b])]
      have hcong : ∀ x ∈ t,
          containsString ((l1 ++ [b]).map f) (f x) = containsString (l1.map f) (f x) := by
        intro x _
        rw [List.map_append, List.map_singleton]
        exact containsString_append_singleton (l1.map f) (f b) hb (f x)
      rw [List.filter_congr hcong, List.filter_cons]
      simp [hb, List.append_assoc]
    · rw [if_neg hb, ih l1, List.filter_cons]
      simp [hb]

/-! ### Claim theorems -/

/-- C2 counterexample: with `into = {columns: [a]}` and
`from = {columns: [a, b]}`, `merge_table` appends a duplicate of `a` (whose
name IS already present) and does not append `b` (whose name is NOT
present) — the opposite of the claim. -/
theorem mergeTable_counterexample :
    mergeTable t1ex t2ex = { t1ex with columns := [colA, colA] } ∧
    colB ∈ t2ex.columns ∧
    containsString (convertColumnsToColumnNames t1ex.columns) colB.name = false ∧
    colB ∉ (mergeTable t1ex t2ex).columns := by decide

theorem mergeTable_filter_eq (table1 table2 : Table) :
    mergeTable table1 table2 =
      { table1 with
        columns := table1.columns ++ table2.columns.filter
          (fun c => containsString (convertColumnsToColumnNames table1.columns) c.name),
        indexes := table1.indexes ++ table2.indexes.filter
          (fun i => containsString (convertIndexesToIndexNames table1.indexes) i.name) } := by
  unfold mergeTable
  simp only [convertColumnsToColumnNames, convertIndexesToIndexNames]
  rw [foldl_merge_eq_filter (fun c : Column => c.name) table2.columns table1.columns,
    foldl_merge_eq_filter (fun i : Index => i.name) table2.indexes table1.indexes]

/-- C2 (amended): `merge_table(into, from)` appends to `into` exactly those
columns and indexes of `from` whose name IS already present by name in
`into` (in order); entries whose name is absent are not appended. -/
theorem mergeTable_appends_present_names (table1 table2 : Table) :
    mergeTable table1 table2 =
      { table1 with
        columns := table1.columns ++ table2.columns.filter
          (fun c => containsString (convertColumnsToColumnNames table1.columns) c.name),
        indexes := table1.indexes ++ table2.indexes.filter
          (fun i => containsString (convertIndexesToIndexNames table1.indexes) i.name) } :=
  mergeTable_filter_eq table1 table2

/-- C3 counterexample: both values have type `Float`; with current raw
`"0.5"` and desired raw `"0.50"` no truncation happens and the comparison
fails, while the swapped orientation truncates and succeeds — the
normalization is not applied "regardless of which side carries the longer
raw", and symmetry fails. -/
theorem areSameValue_float_counterexample :
    vHalf.valueType = .valueTypeFloat ∧ vHalf0.valueType = .valueTypeFloat ∧
    areSameValue (some vHalf) (some vHalf0) = false ∧
    areSameValue (some vHalf0) (some vHalf) = true := by decide

/-- C3 (amended): for two present values, `areSameValue` compares raw texts
verbatim except that when the *desired* (second) value has type `Float` and
the current raw is strictly longer, the current raw is truncated to the
desired raw's length; the normalization depends on the desired side only. -/
theorem areSameValue_float_one_sided (c d : Value) :
    areSameValue (some c) (some d) =
      (c.raw == d.raw ||
        (d.valueType == ValueType.valueTypeFloat && d.raw.length < c.raw.length &&
          c.raw.take d.raw.length == d.raw)) := by
  by_cases hf : d.valueType = ValueType.valueTypeFloat
  · by_cases hl : d.raw.length < c.raw.length
    · have hne : (c.raw == d.raw) = false := by
        refine beq_eq_false_iff_ne.mpr (fun he => ?_)
        rw [he] at hl
        exact Nat.lt_irrefl _ hl
      simp [areSameValue, hf, hl, hne, gt_iff_lt]
    · simp [areSameValue, hf, hl, gt_iff_lt]
  · have hfb : (d.valueType == ValueType.valueTypeFloat) = false := beq_eq_false_iff_ne.mpr hf
    simp [areSameValue, hfb]

theorem zip_all_comm (l1 l2 : List IndexColumn) :
    ((l1.zip l2).all fun p => p.1.column == p.2.column) =
      ((l2.zip l1).all fun p => p.1.column == p.2.column) := by
  induction l1 generalizing l2 with
  | nil => cases l2 <;> rfl
  | cons a t ih =>
    cases l2 with
    | nil => rfl
    | cons b s => simp [ih s, beq_comm' a.column b.column]

/-- C4 counterexample: two policies whose case-folded `using` strings
differ, yet `areSamePolicies` returns `true` (because parenthesizing the
first side yields the second verbatim) — refuting "returns false whenever
the case-folded using strings differ". -/
theorem areSamePolicies_paren_counterexample :
    toLowerStr polPlain.using ≠ toLowerStr polParen.using ∧
    areSamePolicies polPlain polParen = true := by decide

/-- C4 (amended): `areSamePolicies` requires scope and permissive to agree
under case-folding; when the case-folded `using` strings differ the result
is exactly whether `"(" ++ a.using ++ ")"` equals `b.using` verbatim (and
`with_check` and roles are not examined at all); when the case-folded
`using` strings agree but the case-folded `with_check` strings differ, the
result is exactly whether `"(" ++ a.with_check ++ ")"` equals
`b.with_check` verbatim (and roles are not examined at all); when all four
stringly fields agree under case-folding, the roles are compared
elementwise under case-folding after sorting each side by raw text. -/
theorem areSamePolicies_characterization :
    (∀ policyA policyB : Policy, areSamePolicies policyA policyB = true →
      toLowerStr policyA.scope = toLowerStr policyB.scope ∧
      toLowerStr policyA.permissive = toLowerStr policyB.permissive) ∧
    (∀ policyA policyB : Policy,
      toLowerStr policyA.scope = toLowerStr policyB.scope →
      toLowerStr policyA.permissive = toLowerStr policyB.permissive →
      toLowerStr policyA.using ≠ toLowerStr policyB.using →
      ∀ wc rs,
        areSamePolicies policyA { policyB with withCheck := wc, roles := rs } =
          (("(" ++ policyA.using ++ ")") == policyB.using)) ∧
    (∀ policyA policyB : Policy,
      toLowerStr policyA.scope = toLowerStr policyB.scope →
      toLowerStr policyA.permissive = toLowerStr policyB.permissive →
      toLowerStr policyA.using = toLowerStr policyB.using →
      toLowerStr policyA.withCheck ≠ toLowerStr policyB.withCheck →
      ∀ rs,
        areSamePolicies policyA { policyB with roles := rs } =
          (("(" ++ policyA.withCheck ++ ")") == policyB.withCheck)) ∧
    (∀ policyA policyB : Policy,
      toLowerStr policyA.scope = toLowerStr policyB.scope →
      toLowerStr policyA.permissive = toLowerStr policyB.permissive →
      toLowerStr policyA.using = toLowerStr policyB.using →
      toLowerStr policyA.withCheck = toLowerStr policyB.withCheck →
      areSamePolicies policyA policyB =
        ((policyA.roles.length == policyB.roles.length) &&
          (((policyA.roles.mergeSort (fun a b => a ≤ b)).zip
              (policyB.roles.mergeSort (fun a b => a ≤ b))).all
            (fun p => toLowerStr p.1 == toLowerStr p.2)))) := by
  refine ⟨?_, ?_, ?_, ?_⟩
  · intro a b h
    have h1 : toLowerStr a.scope = toLowerStr b.scope := by
      by_contra hne
      simp [areSamePolicies, bne_iff_ne, hne] at h
    have h2 : toLowerStr a.permissive = toLowerStr b.permissive := by
      by_contra hne
      simp [areSamePolicies, bne_iff_ne, h1, hne] at h
    exact ⟨h1, h2⟩
  · intro a b h1 h2 hne wc rs
    simp [areSamePolicies, bne_iff_ne, h1, h2, hne]
  · intro a b h1 h2 h3 hne rs
    simp [areSamePolicies, bne_iff_ne, h1, h2, h3, hne]
  · intro a b h1 h2 h3 h4
    by_cases hlen : a.roles.length = b.roles.length
    · simp [areSamePolicies, bne_iff_ne, h1, h2, h3, h4, hlen]
    · simp [areSamePolicies, bne_iff_ne, h1, h2, h3, h4, hlen]

/-- C4 witness: the characterization applied at the concrete
parenthesization counterexample pair (the `using` branch) and at a pair
whose case-folded `using` strings agree while the `with_check` strings
differ (the `with_check` branch, roles unexamined). -/
theorem areSamePolicies_characterization_witness :
    (areSamePolicies polPlain polParen =
      (("(" ++ polPlain.using ++ ")") == polParen.using)) ∧
    (areSamePolicies polWcA polWcB =
      (("(" ++ polWcA.withCheck ++ ")") == polWcB.withCheck)) :=
  ⟨areSamePolicies_characterization.2.1 polPlain polParen rfl rfl (by decide)
      polParen.withCheck polParen.roles,
    areSamePolicies_characterization.2.2.1 polWcA polWcB rfl rfl (by decide) (by decide)
      polWcB.roles⟩

/-- C8 counterexample: `a` carries an option with no counterpart in `b`;
`areSameIndexes a b = true` but `areSameIndexes b a = false`, refuting both
symmetry and "returns false whenever either side has an unmatched
option". -/
theorem areSameIndexes_asymmetry_counterexample :
    areSameIndexes idxWithOpt idxNoOpt = true ∧
    areSameIndexes idxNoOpt idxWithOpt = false ∧
    idxWithOpt.options ≠ [] := by decide

/-- C8 (amended): `areSameIndexes` checks options one-sidedly: when it
returns true, every option of the SECOND index has a same-named option in
the first with an `areSameValue`-equal value (options of the first with no
counterpart are ignored); the predicate is symmetric when both option
lists are empty. -/
theorem areSameIndexes_one_sided :
    (∀ indexA indexB : Index, areSameIndexes indexA indexB = true →
      ∀ optionB ∈ indexB.options, ∃ optionA ∈ indexA.options,
        optionA.optionName = optionB.optionName ∧
        areSameValue optionA.value optionB.value = true) ∧
    (∀ indexA indexB : Index, indexA.options = [] → indexB.options = [] →
      areSameIndexes indexA indexB = areSameIndexes indexB indexA) := by
  constructor
  · intro a b h oB hoB
    have hall : b.options.all (fun optionB =>
        match findIndexOptionByName a.options optionB.optionName with
        | some optionA => areSameValue optionA.value optionB.value
        | none => false) = true := by
      rw [areSameIndexes] at h
      split at h
      · exact absurd h (by simp)
      · split at h
        · exact absurd h (by simp)
        · split at h
          · exact absurd h (by simp)
          · split at h
            · exact absurd h (by simp)
            · split at h
              · exact absurd h (by simp)
              · exact h
    have hoBp := List.all_eq_true.mp hall oB hoB
    cases hfind : findIndexOptionByName a.options oB.optionName with
    | none => rw [hfind] at hoBp; simp at hoBp
    | some oA =>
      rw [hfind] at hoBp
      refine ⟨oA, List.mem_of_find?_eq_some hfind, ?_, hoBp⟩
      have := List.find?_some hfind
      exact beq_iff_eq.mp this
  · intro a b ha hb
    by_cases h1 : a.unique = b.unique
    · by_cases h2 : a.primary = b.primary
      · by_cases h3 : a.columns.length = b.columns.length
        · by_cases h5 : a.whereClause = b.whereClause
          · simp [areSameIndexes, ha, hb, bne_iff_ne, h1, h2, h3, h5,
              zip_all_comm a.columns b.columns]
          · simp [areSameIndexes, ha, hb, bne_iff_ne, h1, h2, h3, h5, Ne.symm h5,
              zip_all_comm a.columns b.columns]
        · simp [areSameIndexes, bne_iff_ne, h1, h2, h3, Ne.symm h3]
      · simp [areSameIndexes, bne_iff_ne, h1, h2, Ne.symm h2]
    · simp [areSameIndexes, bne_iff_ne, h1, Ne.symm h1]

/-- C8 witness: the one-sidedness applied to the concrete option-carrying
index, and the empty-options symmetry applied to two concrete indexes. -/
theorem areSameIndexes_one_sided_witness :
    (∃ optionA ∈ idxWithOpt.options, optionA.optionName = optPad.optionName ∧
      areSameValue optionA.value optPad.value = true) ∧
    areSameIndexes idxNoOpt idxNoOpt2 = areSameIndexes idxNoOpt2 idxNoOpt :=
  ⟨areSameIndexes_one_sided.1 idxWithOpt idxWithOpt (by decide) optPad (by decide),
    areSameIndexes_one_sided.2 idxNoOpt idxNoOpt2 rfl rfl⟩

/-- C9: under the SQLite-like dialect `generateDropIndex` returns the empty
string for every table and index name, and consequently the cleanup of an
obsolete non-primary non-unique index appends an empty-string element. -/
theorem sqlite_drop_index_empty :
    (∀ tableName indexName, generateDropIndex .sqlite3 tableName indexName = "") ∧
    (∀ (g : Generator) (index : Index) (currentTable desiredTable : Table),
      g.mode = .sqlite3 → index.primary = false → index.unique = false →
      generateDDLsForAbsentIndex g index currentTable desiredTable = .ok [""]) := by
  constructor
  · intro tableName indexName
    rfl
  · intro g index currentTable desiredTable hm hp hu
    simp [generateDDLsForAbsentIndex, hp, hu, generateDropIndex, hm]

/-- C9 witness: the SQLite drop-index rendering and the cleanup behaviour
at concrete inputs. -/
theorem sqlite_drop_index_empty_witness :
    generateDropIndex .sqlite3 "t" "i" = "" ∧
    generateDDLsForAbsentIndex gSqlite idxPlain tblCur tblDes = .ok [""] :=
  ⟨sqlite_drop_index_empty.1 "t" "i",
    sqlite_drop_index_empty.2 gSqlite idxPlain tblCur tblDes rfl rfl rfl⟩

theorem ne_of_data_head? {a b : String} (h : a.data.head? ≠ b.data.head?) : a ≠ b :=
  fun he => h (by rw [he])

theorem head?_append_of_head? {α : Type} {l1 : List α} (l2 : List α) {c : α}
    (h : l1.head? = some c) : (l1 ++ l2).head? = some c := by
  cases l1 with
  | nil => simp at h
  | cons x t => simpa using h

theorem string_head_append {p : String} (s : String) {c : Char}
    (h : p.data.head? = some c) : (p ++ s).data.head? = some c := by
  rw [String.data_append]
  exact head?_append_of_head? _ h

theorem ne_not_null_of_head {s : String} {c : Char} (h : s.data.head? = some c)
    (hc : c ≠ 'N') : s ≠ "NOT NULL " := by
  apply ne_of_data_head?
  rw [h]
  simpa using hc

theorem escapeSQLName_head (mode : GeneratorMode) (n : String) :
    (escapeSQLName mode n).data.head? = some '"' ∨
    (escapeSQLName mode n).data.head? = some '[' ∨
    (escapeSQLName mode n).data.head? = some '`' := by
  cases mode
  case postgres => exact Or.inl (string_head_append _ (string_head_append _ (by decide)))
  case mssql => exact Or.inr (Or.inl (string_head_append _ (string_head_append _ (by decide))))
  case mysql => exact Or.inr (Or.inr (string_head_append _ (string_head_append _ (by decide))))
  case sqlite3 => exact Or.inr (Or.inr (string_head_append _ (string_head_append _ (by decide))))

theorem columnDefinitionDefaultClauses_head (column : Column) (l : List String)
    (h : columnDefinitionDefaultClauses column = .ok l) :
    ∀ s ∈ l, s.data.head? = some 'D' := by
  rw [columnDefinitionDefaultClauses] at h
  split at h
  · split at h
    · rename_i v _
      cases hg : generateDefaultDefinition v with
      | error e => rw [hg] at h; cases h
      | ok d =>
        rw [hg] at h
        cases h
        intro s hs
        rw [List.mem_singleton] at hs
        subst hs
        have hd : d.data.head? = some 'D' := by
          rw [generateDefaultDefinition] at hg
          split at hg
          · cases hg; exact string_head_append _ (string_head_append _ (by decide))
          · cases hg; exact string_head_append _ (by decide)
          · cases hg; exact string_head_append _ (by decide)
          · cases hg
            split <;> decide
          · cases hg; exact string_head_append _ (by decide)
          · cases hg
        exact string_head_append _ hd
    · cases h; simp
  · cases h; simp

theorem columnDefinitionKeyClauses_mem (column : Column) (enableUnique : Bool)
    (l : List String) (h : columnDefinitionKeyClauses column enableUnique = .ok l) :
    ∀ s ∈ l, s = "UNIQUE " ∨ s = "UNIQUE KEY " := by
  rw [columnDefinitionKeyClauses] at h
  cases hk : column.keyOption <;> rw [hk] at h <;> try cases h
  case columnKeyNone => simp
  case columnKeyPrimary => simp
  case columnKeyUnique =>
    cases enableUnique <;> simp_all
  case columnKeyUniqueKey =>
    cases enableUnique <;> simp_all

/-- C10: when a column's `identity` field is non-empty,
`generateColumnDefinition` never renders the `NOT NULL` clause — even when
`not_null` is explicitly true or the key option is `Primary` — and renders
the `GENERATED <identity> AS IDENTITY` clause instead. -/
theorem generateColumnDefinition_identity_no_not_null (mode : GeneratorMode)
    (column : Column) (enableUnique : Bool) (hid : column.identity ≠ "")
    (clauses : List String)
    (hcl : columnDefinitionClauses mode column enableUnique = .ok clauses) :
    "NOT NULL " ∉ clauses ∧
    ("GENERATED " ++ column.identity ++ " AS IDENTITY ") ∈ clauses ∧
    generateColumnDefinition mode column enableUnique =
      .ok (trimSuffixSpace (String.join clauses)) := by
  have hgen : generateColumnDefinition mode column enableUnique =
      .ok (trimSuffixSpace (String.join clauses)) := by
    rw [generateColumnDefinition, hcl]
    rfl
  rw [columnDefinitionClauses] at hcl
  cases hd : columnDefinitionDefaultClauses column with
  | error e => rw [hd] at hcl; simp only [except_bind_err] at hcl; cases hcl
  | ok defaultClauses =>
    rw [hd] at hcl
    simp only [except_bind_ok] at hcl
    cases hk : columnDefinitionKeyClauses column enableUnique with
    | error e => rw [hk] at hcl; simp only [except_bind_err] at hcl; cases hcl
    | ok keyClauses =>
      rw [hk] at hcl
      simp only [except_bind_ok] at hcl
      cases hcl
      refine ⟨?_, ?_, hgen⟩
      · intro hmem
        simp only [List.mem_append] at hmem
        rcases hmem with
          ((((((((((((h | h) | h) | h) | h) | h) | h) | h) | h) | h) | h) | h) | h)
        · rw [List.mem_singleton] at h
          refine ne_of_data_head? ?_ h.symm
          rcases escapeSQLName_head mode column.name with hq | hq | hq <;>
            rw [string_head_append _ (string_head_append _ (string_head_append _ hq))] <;>
            decide
        · split at h <;> simp_all
        · split at h <;> simp_all
        · split at h
          · rw [List.mem_singleton] at h
            exact ne_not_null_of_head
              (string_head_append _ (string_head_append _
                (show ("CHARACTER SET ").data.head? = some 'C' by decide)))
              (by decide) h.symm
          · simp at h
        · split at h
          · rw [List.mem_singleton] at h
            exact ne_not_null_of_head
              (string_head_append _ (string_head_append _
                (show ("COLLATE ").data.head? = some 'C' by decide)))
              (by decide) h.symm
          · simp at h
        · rw [columnDefinitionNullClauses] at h
          rw [if_neg (by simp [hid])] at h
          split at h <;> simp_all
        · have := columnDefinitionDefaultClauses_head column defaultClauses hd _ h
          exact absurd this (by decide)
        · split at h <;> simp_all
        · split at h
          · rw [List.mem_singleton] at h
            exact ne_not_null_of_head
              (string_head_append _ (string_head_append _
                (show ("ON UPDATE ").data.head? = some 'O' by decide)))
              (by decide) h.symm
          · simp at h
        · split at h
          · rw [List.mem_singleton] at h
            exact ne_not_null_of_head
              (string_head_append _ (string_head_append _
                (show ("CHECK (").data.head? = some 'C' by decide)))
              (by decide) h.symm
          · simp at h
        · split at h <;> simp_all
        · rcases columnDefinitionKeyClauses_mem column enableUnique keyClauses hk _ h with
            h1 | h1 <;> simp_all
        · rw [columnDefinitionIdentityClauses, if_pos (by simp [bne_iff_ne, hid])] at h
          rcases List.mem_append.mp h with h1 | h1
          · rw [List.mem_singleton] at h1
            exact ne_not_null_of_head
              (string_head_append _ (string_head_append _
                (show ("GENERATED ").data.head? = some 'G' by decide)))
              (by decide) h1.symm
          · split at h1
            · rw [List.mem_singleton] at h1
              exact ne_not_null_of_head
                (string_head_append _ (string_head_append _
                  (show ("(").data.head? = some '(' by decide)))
                (by decide) h1.symm
            · simp at h1
      · refine List.mem_append.mpr (Or.inr ?_)
        rw [columnDefinitionIdentityClauses, if_pos (by simp [bne_iff_ne, hid])]
        exact List.mem_append.mpr (Or.inl (List.mem_singleton.mpr rfl))

/-- C10 witness: the identity-carrying column renders without `NOT NULL`
although `not_null = some true`. -/
theorem generateColumnDefinition_identity_witness :
    columnDefinitionClauses .postgres colIdent true =
      .ok ["\"n\" integer ", "GENERATED ALWAYS AS IDENTITY "] ∧
    colIdent.notNull = some true ∧
    "NOT NULL " ∉ ["\"n\" integer ", "GENERATED ALWAYS AS IDENTITY "] ∧
    ("GENERATED " ++ colIdent.identity ++ " AS IDENTITY ") ∈
      ["\"n\" integer ", "GENERATED ALWAYS AS IDENTITY "] :=
  ⟨by decide, by decide,
    (generateColumnDefinition_identity_no_not_null .postgres colIdent true (by decide)
      ["\"n\" integer ", "GENERATED ALWAYS AS IDENTITY "] (by decide)).1,
    (generateColumnDefinition_identity_no_not_null .postgres colIdent true (by decide)
      ["\"n\" integer ", "GENERATED ALWAYS AS IDENTITY "] (by decide)).2.1⟩

theorem absentColumnConstraintDdl_some {g : Generator} {currentTable : Table}
    {columnName : String} {a : Column} {s : String}
    (h : absentColumnConstraintDdl g currentTable columnName a = some s) :
    a.name = columnName ∧ ∃ dd, a.defaultDef = some dd ∧ dd.constraintName ≠ "" ∧
      s = "ALTER TABLE " ++ escapeTableName g.mode currentTable.name ++
        " DROP CONSTRAINT " ++ escapeSQLName g.mode dd.constraintName := by
  rw [absentColumnConstraintDdl] at h
  split at h
  · rename_i hname
    split at h
    · rename_i dd hdd
      split at h
      · rename_i hne
        cases h
        exact ⟨by simpa using hname, dd, hdd, by simpa [bne_iff_ne] using hne, rfl⟩
      · cases h
    · cases h
  · cases h

/-- C5 counterexample: under the PostgreSQL-like dialect, the generated
statement list for dropping an absent column whose default definition
carries the non-empty constraint name `"df_c"` is the singleton
`DROP COLUMN` statement — nothing precedes it, refuting the claim's
"for every dialect". -/
theorem absentColumn_drop_ordering_counterexample :
    diffDDLs .postgres [.createTable "CREATE TABLE t" tblDes]
        [.createTable "CREATE TABLE t" tblCur] =
      .ok ["ALTER TABLE \"public\".\"t\" DROP COLUMN \"c\""] ∧
    colDropped ∈ tblCur.columns ∧
    (∃ dd, colDropped.defaultDef = some dd ∧ dd.constraintName = "df_c" ∧
      dd.constraintName ≠ "") ∧
    findColumnByName tblDes.columns colDropped.name = none :=
  ⟨by decide, by decide, ⟨ddefC, rfl, rfl, by decide⟩, by decide⟩

/-- C5 (amended): under the MSSQL-like dialect, whenever the dropped
column matches a current column whose default definition carries a
non-empty constraint name, the emitted `DROP COLUMN` is immediately
preceded by `DROP CONSTRAINT <that constraint name>`. -/
theorem absentColumn_mssql_constraint_before_drop (g : Generator) (currentTable : Table)
    (columnName : String) (hm : g.mode = .mssql)
    (hex : ∃ column ∈ currentTable.columns, column.name = columnName ∧
      ∃ dd, column.defaultDef = some dd ∧ dd.constraintName ≠ "") :
    ∃ prefixDdls constraintName, constraintName ≠ "" ∧
      (∃ column ∈ currentTable.columns, column.name = columnName ∧
        ∃ dd, column.defaultDef = some dd ∧ dd.constraintName = constraintName) ∧
      generateDDLsForAbsentColumn g currentTable columnName =
        prefixDdls ++
          ["ALTER TABLE " ++ escapeTableName g.mode currentTable.name ++
            " DROP CONSTRAINT " ++ escapeSQLName g.mode constraintName,
           "ALTER TABLE " ++ escapeTableName g.mode currentTable.name ++ " DROP COLUMN " ++
            escapeSQLName g.mode columnName] := by
  obtain ⟨c, hc, hcn, dd, hdd, hne⟩ := hex
  have hfc : absentColumnConstraintDdl g currentTable columnName c =
      some ("ALTER TABLE " ++ escapeTableName g.mode currentTable.name ++
        " DROP CONSTRAINT " ++ escapeSQLName g.mode dd.constraintName) := by
    rw [absentColumnConstraintDdl, if_pos (by simpa using hcn), hdd]
    simp [bne_iff_ne, hne]
  have hmem : ("ALTER TABLE " ++ escapeTableName g.mode currentTable.name ++
      " DROP CONSTRAINT " ++ escapeSQLName g.mode dd.constraintName) ∈
      currentTable.columns.filterMap (absentColumnConstraintDdl g currentTable columnName) :=
    List.mem_filterMap.mpr ⟨c, hc, hfc⟩
  have hnil : currentTable.columns.filterMap
      (absentColumnConstraintDdl g currentTable columnName) ≠ [] := by
    intro h0
    rw [h0] at hmem
    exact List.not_mem_nil _ hmem
  obtain ⟨a, ha, hfa⟩ := List.mem_filterMap.mp (List.getLast_mem hnil)
  obtain ⟨han, dd2, hadd2, hne2, hlast⟩ := absentColumnConstraintDdl_some hfa
  refine ⟨(currentTable.columns.filterMap
      (absentColumnConstraintDdl g currentTable columnName)).dropLast,
    dd2.constraintName, hne2, ⟨a, ha, han, dd2, hadd2, rfl⟩, ?_⟩
  rw [hm] at hlast
  simp only [generateDDLsForAbsentColumn, hm, beq_self_eq_true, if_true]
  conv_lhs => rw [← List.dropLast_append_getLast hnil, hlast]
  simp

/-- C5 witness: the MSSQL ordering applied at the concrete two-column
table. -/
theorem absentColumn_mssql_witness :
    gMssql.mode = .mssql ∧
    (∃ prefixDdls constraintName, constraintName ≠ "" ∧
      (∃ column ∈ tblCur.columns, column.name = "c" ∧
        ∃ dd, column.defaultDef = some dd ∧ dd.constraintName = constraintName) ∧
      generateDDLsForAbsentColumn gMssql tblCur "c" =
        prefixDdls ++
          ["ALTER TABLE " ++ escapeTableName gMssql.mode tblCur.name ++
            " DROP CONSTRAINT " ++ escapeSQLName gMssql.mode constraintName,
           "ALTER TABLE " ++ escapeTableName gMssql.mode tblCur.name ++ " DROP COLUMN " ++
            escapeSQLName gMssql.mode "c"]) :=
  ⟨rfl, absentColumn_mssql_constraint_before_drop gMssql tblCur "c" rfl
    ⟨colDropped, by decide, rfl, ddefC, rfl, by decide⟩⟩

theorem except_bind_eq_ok {ε α β : Type} {e : Except ε α} {f : α → Except ε β} {c : β}
    (h : (e >>= f) = .ok c) : ∃ b, e = .ok b ∧ f b = .ok c := by
  cases e with
  | ok a => exact ⟨a, rfl, h⟩
  | error err => simp only [except_bind_err] at h; cases h

theorem examineForeignKeys_error (g : Generator) (currentTable desired : Table)
    (fks : List ForeignKey) (hex : ∃ fk ∈ fks, fk.constraintName = "") :
    ∃ badFk ∈ fks, badFk.constraintName = "" ∧
      examineForeignKeys g currentTable desired fks =
        .error (missingConstraintNameMessage desired.name badFk) := by
  induction fks with
  | nil =>
    obtain ⟨fk, h, _⟩ := hex
    cases h
  | cons head rest ih =>
    obtain ⟨fk, hmem, hname⟩ := hex
    by_cases hh : head.constraintName = ""
    · refine ⟨head, List.mem_cons_self _ _, hh, ?_⟩
      rw [examineForeignKeys, if_pos (by simp [hh])]
    · have hfk : fk ∈ rest := by
        rcases List.mem_cons.mp hmem with h | h
        · exact absurd (h ▸ hname) hh
        · exact h
      obtain ⟨badFk, hbmem, hbname, heq⟩ := ih ⟨fk, hfk, hname⟩
      refine ⟨badFk, List.mem_cons_of_mem _ hbmem, hbname, ?_⟩
      rw [examineForeignKeys, if_neg (by simpa using string_length_ne_zero hh)]
      rw [heq]

/-- C6: a desired foreign key with an empty constraint name makes the
per-foreign-key examination return the `MissingConstraintName` error
identifying the table, and `generateDDLsForCreateTable` never returns a
statement list. -/
theorem createTable_missing_fk_name_rejected (g : Generator) (currentTable desired : Table)
    (fk : ForeignKey) (hmem : fk ∈ desired.foreignKeys) (hname : fk.constraintName = "") :
    (∀ ddls, generateDDLsForCreateTable g currentTable desired ≠ .ok ddls) ∧
    (∃ badFk ∈ desired.foreignKeys, badFk.constraintName = "" ∧
      examineForeignKeys g currentTable desired desired.foreignKeys =
        .error (missingConstraintNameMessage desired.name badFk)) := by
  have hfk := examineForeignKeys_error g currentTable desired desired.foreignKeys
    ⟨fk, hmem, hname⟩
  refine ⟨?_, hfk⟩
  intro ddls h
  obtain ⟨badFk, _, _, heq⟩ := hfk
  rw [generateDDLsForCreateTable] at h
  split at h
  · cases h
  · split at h
    · cases h
    · split at h
      · cases h
      · rw [heq] at h
        exact Except.noConfusion h

/-- C6 witness: the rejection applied at the concrete table carrying an
anonymous foreign key. -/
theorem createTable_missing_fk_name_witness :
    (fkAnon ∈ tblFk.foreignKeys ∧ fkAnon.constraintName = "") ∧
    ((∀ ddls, generateDDLsForCreateTable gMssql tblFk tblFk ≠ .ok ddls) ∧
      (∃ badFk ∈ tblFk.foreignKeys, badFk.constraintName = "" ∧
        examineForeignKeys gMssql tblFk tblFk tblFk.foreignKeys =
          .error (missingConstraintNameMessage tblFk.name badFk))) :=
  ⟨⟨by decide, rfl⟩,
    createTable_missing_fk_name_rejected gMssql tblFk tblFk fkAnon (by decide) rfl⟩

theorem findTableByName_cons_self (t : Table) (rest : List Table) :
    findTableByName (t :: rest) t.name = some t := by
  simp [findTableByName, List.find?_cons]

theorem replaceTableByName_cons_self (t t' : Table) (rest : List Table) :
    replaceTableByName (t :: rest) t.name t' = t' :: rest := by
  simp [replaceTableByName]

theorem findIndexByName_append_self (l : List Index) (i : Index)
    (h : findIndexByName l i.name = none) :
    findIndexByName (l ++ [i]) i.name = some i := by
  rw [findIndexByName] at h ⊢
  rw [List.find?_append, h]
  simp [List.find?_cons]

theorem walkDesired_gEmpty_createTable (mode : GeneratorMode) (s : String) (t : Table)
    (rest : List DDL) :
    walkDesired (gEmpty mode) (DDL.createTable s t :: rest) =
      (walkDesired (gOneTable mode t) rest).map (fun p => ([s] ++ p.1, p.2)) := by
  rw [walkDesired]
  rw [show findTableByName (gEmpty mode).currentTables t.name = none from rfl]
  have hg : ({ gEmpty mode with
      currentTables := (gEmpty mode).currentTables ++ [t],
      desiredTables := (gEmpty mode).desiredTables ++ [t] } : Generator) = gOneTable mode t :=
    rfl
  rw [hg]
  cases hw : walkDesired (gOneTable mode t) rest with
  | error e =>
    simp only [except_pure, except_bind_ok]
    rw [hw]
    rfl
  | ok p =>
    cases p
    simp only [except_pure, except_bind_ok]
    rw [hw]
    rfl

/-- C7: a duplicate `CREATE INDEX`/`ADD INDEX` name in the desired stream
makes `generateDDLsForCreateIndex` return the `DuplicateIndex` error
carrying the offending statement text, and a desired stream with two
same-named index creations against the same (created) table makes the
whole generator return that error rather than a statement list. -/
theorem duplicate_index_rejected :
    (∀ (g : Generator) (tableName : String) (desiredIndex : Index)
      (action statement : String) (currentTable desiredTable : Table),
      findTableByName g.currentTables tableName = some currentTable →
      findTableByName g.desiredTables tableName = some desiredTable →
      containsString (convertIndexesToIndexNames desiredTable.indexes)
        desiredIndex.name = true →
      generateDDLsForCreateIndex g tableName desiredIndex action statement =
        .error ("index '" ++ desiredIndex.name ++ "' is doubly created against table '" ++
          tableName ++ "': '" ++ statement ++ "'")) ∧
    (∀ (mode : GeneratorMode) (s0 s1 s2 : String) (table : Table) (index : Index),
      ∃ e, generateDDLs { mode := mode }
          [DDL.createTable s0 table, DDL.createIndex s1 table.name index,
            DDL.createIndex s2 table.name index] = .error e ∧
        (e = "index '" ++ index.name ++ "' is doubly created against table '" ++
            table.name ++ "': '" ++ s1 ++ "'" ∨
         e = "index '" ++ index.name ++ "' is doubly created against table '" ++
            table.name ++ "': '" ++ s2 ++ "'")) := by
  have hpart1 : ∀ (g : Generator) (tableName : String) (desiredIndex : Index)
      (action statement : String) (currentTable desiredTable : Table),
      findTableByName g.currentTables tableName = some currentTable →
      findTableByName g.desiredTables tableName = some desiredTable →
      containsString (convertIndexesToIndexNames desiredTable.indexes)
        desiredIndex.name = true →
      generateDDLsForCreateIndex g tableName desiredIndex action statement =
        .error ("index '" ++ desiredIndex.name ++ "' is doubly created against table '" ++
          tableName ++ "': '" ++ statement ++ "'") := by
    intro g tableName desiredIndex action statement currentTable desiredTable hcur hdes hdup
    rw [generateDDLsForCreateIndex, hcur]
    cases hidx : findIndexByName currentTable.indexes desiredIndex.name with
    | none => simp [hdes, hdup]
    | some currentIndex =>
      cases hs : areSameIndexes currentIndex desiredIndex <;> simp [hs, hdes, hdup]
  refine ⟨hpart1, ?_⟩
  intro mode s0 s1 s2 table index
  rw [show ({ mode := mode } : Generator) = gEmpty mode from rfl]
  rw [generateDDLs, walkDesired_gEmpty_createTable]
  cases hidx : findIndexByName table.indexes index.name with
  | some currentIndex =>
    have hdup := containsString_map_of_find?_some (fun i : Index => i.name) table.indexes
      index.name currentIndex hidx
    have herr := hpart1 (gOneTable mode table)
      table.name index "CREATE INDEX" s1 table table
      (findTableByName_cons_self table []) (findTableByName_cons_self table [])
      (by simpa [convertIndexesToIndexNames] using hdup)
    refine ⟨_, ?_, Or.inl rfl⟩
    rw [walkDesired, herr]
    rfl
  | none =>
    have hnodup := containsString_map_of_find?_none (fun i : Index => i.name) table.indexes
      index.name hidx
    have hstep2 : generateDDLsForCreateIndex (gOneTable mode table)
        table.name index "CREATE INDEX" s1 =
        .ok ([s1], gOneTable mode { table with indexes := table.indexes ++ [index] }) := by
      rw [generateDDLsForCreateIndex]
      rw [show findTableByName (gOneTable mode table).currentTables table.name = some table
        from findTableByName_cons_self table []]
      dsimp only
      rw [hidx]
      dsimp only
      rw [show findTableByName (gOneTable mode table).desiredTables table.name = some table
        from findTableByName_cons_self table []]
      dsimp only
      rw [if_neg (by simp [convertIndexesToIndexNames, hnodup])]
      simp [gOneTable, replaceTableByName_cons_self]
    have hdup2 : containsString
        (convertIndexesToIndexNames
          ({ table with indexes := table.indexes ++ [index] } : Table).indexes)
        index.name = true := by
      simp [convertIndexesToIndexNames, containsString]
    have herr := hpart1
      (gOneTable mode { table with indexes := table.indexes ++ [index] })
      table.name index "CREATE INDEX" s2
      { table with indexes := table.indexes ++ [index] }
      { table with indexes := table.indexes ++ [index] }
      (findTableByName_cons_self _ []) (findTableByName_cons_self _ []) hdup2
    refine ⟨_, ?_, Or.inr rfl⟩
    rw [walkDesired, hstep2]
    simp only [except_bind_ok]
    rw [walkDesired, herr]
    rfl

/-- C7 witness: the duplicate-index rejection applied at a concrete state
and at a concrete three-statement desired stream. -/
theorem duplicate_index_rejected_witness :
    generateDDLsForCreateIndex gDup "t" idxAge "CREATE INDEX" "CREATE INDEX age ON t" =
      .error ("index '" ++ idxAge.name ++ "' is doubly created against table '" ++ "t" ++
        "': '" ++ "CREATE INDEX age ON t" ++ "'") ∧
    (∃ e, generateDDLs { mode := .mysql }
        [DDL.createTable "CT" tblDes, DDL.createIndex "CI1" tblDes.name idxAge,
          DDL.createIndex "CI2" tblDes.name idxAge] = .error e ∧
      (e = "index '" ++ idxAge.name ++ "' is doubly created against table '" ++
          tblDes.name ++ "': '" ++ "CI1" ++ "'" ∨
       e = "index '" ++ idxAge.name ++ "' is doubly created against table '" ++
          tblDes.name ++ "': '" ++ "CI2" ++ "'")) :=
  ⟨duplicate_index_rejected.1 gDup "t" idxAge "CREATE INDEX" "CREATE INDEX age ON t"
      tblIdx tblIdx (by decide) (by decide) (by decide),
    duplicate_index_rejected.2 .mysql "CT" "CI1" "CI2" tblDes idxAge⟩

/-! ### Reflexivity lemmas for the identity property -/

theorem areSameValue_refl (v : Option Value) : areSameValue v v = true := by
  cases v with
  | none => rfl
  | some c => simp [areSameValue]

theorem areSameDefaultValue_refl (d : Option DefaultDefinition) :
    areSameDefaultValue d d = true := by
  cases d with
  | none => rfl
  | some dd =>
    show areSameValue (if isNullValue dd.value then none else dd.value)
      (if isNullValue dd.value then none else dd.value) = true
    split
    · rfl
    · exact areSameValue_refl _

theorem areSameCheckDefinition_refl (c : Option CheckDefinition) :
    areSameCheckDefinition c c = true := by
  cases c <;> simp [areSameCheckDefinition]

theorem haveSameDataType_refl (mode : GeneratorMode) (c : Column) :
    haveSameDataType mode c c = true := by
  simp [haveSameDataType]

theorem haveSameColumnDefinition_self (mode : GeneratorMode) (c : Column)
    (h : c.keyOption = .columnKeyPrimary → c.notNull = some true)
    (hch : c.check = none) :
    haveSameColumnDefinition mode c c = true := by
  by_cases hk : c.keyOption = .columnKeyPrimary
  · simp [haveSameColumnDefinition, haveSameDataType_refl, h hk, hk, hch]
  · have hkb : (c.keyOption == ColumnKey.columnKeyPrimary) = false := beq_eq_false_iff_ne.mpr hk
    simp [haveSameColumnDefinition, haveSameDataType_refl, hkb, hch]

theorem findColumnByName_self (l : List Column) (hnd : (l.map (·.name)).Nodup)
    (c : Column) (hc : c ∈ l) : findColumnByName l c.name = some c := by
  simpa [findColumnByName] using find?_name_self (fun x : Column => x.name) l hnd c hc

theorem findIndexByName_self (l : List Index) (hnd : (l.map (·.name)).Nodup)
    (i : Index) (hi : i ∈ l) : findIndexByName l i.name = some i := by
  simpa [findIndexByName] using find?_name_self (fun x : Index => x.name) l hnd i hi

theorem findForeignKeyByName_self (l : List ForeignKey)
    (hnd : (l.map (·.constraintName)).Nodup) (fk : ForeignKey) (hfk : fk ∈ l) :
    findForeignKeyByName l fk.constraintName = some fk := by
  simpa [findForeignKeyByName] using
    find?_name_self (fun x : ForeignKey => x.constraintName) l hnd fk hfk

theorem findIndexOptionByName_self (l : List IndexOption)
    (hnd : (l.map (·.optionName)).Nodup) (o : IndexOption) (ho : o ∈ l) :
    findIndexOptionByName l o.optionName = some o := by
  simpa [findIndexOptionByName] using
    find?_name_self (fun x : IndexOption => x.optionName) l hnd o ho

theorem findTableByName_self (l : List Table) (hnd : (l.map (·.name)).Nodup)
    (t : Table) (ht : t ∈ l) : findTableByName l t.name = some t := by
  simpa [findTableByName] using find?_name_self (fun x : Table => x.name) l hnd t ht

theorem areSameIndexes_refl (i : Index) (h : (i.options.map (·.optionName)).Nodup) :
    areSameIndexes i i = true := by
  rw [areSameIndexes]
  rw [if_neg (by simp), if_neg (by simp), if_neg (by simp)]
  rw [if_neg (by simp [zip_self_all (fun ic : IndexColumn => ic.column) i.columns])]
  rw [if_neg (by simp)]
  rw [List.all_eq_true]
  intro oB hoB
  rw [findIndexOptionByName_self i.options h oB hoB]
  exact areSameValue_refl _

theorem primaryKey_options_nodup (t : Table)
    (h : ∀ i ∈ t.indexes, (i.options.map (·.optionName)).Nodup)
    (pk : Index) (hpk : t.PrimaryKey = some pk) :
    (pk.options.map (·.optionName)).Nodup := by
  rw [Table.PrimaryKey] at hpk
  cases hfp : findPrimaryKey t.indexes with
  | some i =>
    rw [hfp] at hpk
    have hip : i = pk := by injection hpk
    subst hip
    exact h i (List.mem_of_find?_eq_some hfp)
  | none =>
    rw [hfp] at hpk
    simp only at hpk
    split at hpk
    · cases hpk
    · cases hpk
      simp

theorem areSamePrimaryKeys_refl (t : Table)
    (h : ∀ i ∈ t.indexes, (i.options.map (·.optionName)).Nodup) :
    areSamePrimaryKeys t.PrimaryKey t.PrimaryKey = true := by
  cases hpk : t.PrimaryKey with
  | none => rfl
  | some pk =>
    show areSameIndexes pk pk = true
    exact areSameIndexes_refl pk (primaryKey_options_nodup t h pk hpk)

theorem areSameForeignKeys_refl (mode : GeneratorMode) (fk : ForeignKey) :
    areSameForeignKeys mode fk fk = true := by
  simp [areSameForeignKeys]

theorem areSamePolicies_refl (p : Policy) : areSamePolicies p p = true := by
  rw [areSamePolicies]
  rw [if_neg (by simp), if_neg (by simp), if_neg (by simp), if_neg (by simp),
    if_neg (by simp)]
  exact zip_self_all toLowerStr _

theorem column_autoIncrement_update_self (c : Column) (h : c.autoIncrement = false) :
    { c with autoIncrement := false } = c := by
  cases c
  simp_all

theorem mergeTable_name (t1 t2 : Table) : (mergeTable t1 t2).name = t1.name := rfl

theorem mergeTable_foreignKeys (t1 t2 : Table) :
    (mergeTable t1 t2).foreignKeys = t1.foreignKeys := rfl

theorem mergeTable_policies (t1 t2 : Table) :
    (mergeTable t1 t2).policies = t1.policies := rfl

theorem mergeTable_columns_mem (t1 t2 : Table) (c : Column)
    (hc : c ∈ (mergeTable t1 t2).columns) : c ∈ t1.columns ∨ c ∈ t2.columns := by
  rw [mergeTable_filter_eq] at hc
  rcases List.mem_append.mp hc with h | h
  · exact Or.inl h
  · exact Or.inr (List.mem_of_mem_filter h)

theorem mergeTable_indexes_mem (t1 t2 : Table) (i : Index)
    (hi : i ∈ (mergeTable t1 t2).indexes) : i ∈ t1.indexes ∨ i ∈ t2.indexes := by
  rw [mergeTable_filter_eq] at hi
  rcases List.mem_append.mp hi with h | h
  · exact Or.inl h
  · exact Or.inr (List.mem_of_mem_filter h)

theorem autoIncrement_normalize_self (c : Column) :
    (if (some c).isNone || !(((some c).map (·.autoIncrement)).getD false) then
      { c with autoIncrement := false } else c) = c := by
  cases haI : c.autoIncrement with
  | true => simp [haI]
  | false => simp [haI, column_autoIncrement_update_self c haI]

set_option maxHeartbeats 1000000 in
theorem examineColumnMysql_any (g : Generator) (ct des : Table) (c : Column) (after : String)
    (hprim : c.keyOption = .columnKeyPrimary → c.notNull = some true)
    (hch : c.check = none) :
    examineColumnMysql g ct des c c after = .ok [] := by
  unfold examineColumnMysql
  simp [haveSameColumnDefinition_self g.mode c hprim hch, areSameDefaultValue_refl, lt_irrefl]

set_option maxHeartbeats 1000000 in
theorem examineColumnPostgres_any (g : Generator) (ct des : Table) (c : Column) :
    examineColumnPostgres g ct des c c = .ok [] := by
  unfold examineColumnPostgres
  simp [haveSameDataType_refl, areSameDefaultValue_refl, areSameCheckDefinition_refl]

set_option maxHeartbeats 1000000 in
theorem examineColumnMssql_any (g : Generator) (des : Table) (c : Column) :
    examineColumnMssql g des c c = .ok [] := by
  unfold examineColumnMssql
  simp [areSameCheckDefinition_refl]

theorem examineColumn_any (g : Generator) (ct des : Table) (prev : Option Column) (c : Column)
    (hfind : findColumnByName ct.columns c.name = some c)
    (hmy : g.mode = .mysql →
      (c.keyOption = .columnKeyPrimary → c.notNull = some true) ∧ c.check = none) :
    examineColumn g ct des prev c = .ok [] := by
  rw [examineColumn.eq_def, hfind]
  simp only [autoIncrement_normalize_self]
  cases hm : g.mode with
  | mysql => exact examineColumnMysql_any g ct des c _ (hmy hm).1 (hmy hm).2
  | postgres => exact examineColumnPostgres_any g ct des c
  | mssql => exact examineColumnMssql_any g des c
  | sqlite3 => rfl

theorem examineColumns_any (g : Generator) (ct des : Table)
    (hnd : (ct.columns.map (·.name)).Nodup)
    (hmy : g.mode = .mysql → ∀ c ∈ ct.columns,
      (c.keyOption = .columnKeyPrimary → c.notNull = some true) ∧ c.check = none) :
    ∀ (prev : Option Column) (cols : List Column), (∀ c ∈ cols, c ∈ ct.columns) →
      examineColumns g ct des prev cols = .ok [] := by
  intro prev cols
  induction cols generalizing prev with
  | nil => intro _; rfl
  | cons c rest ih =>
    intro hsub
    rw [examineColumns]
    rw [examineColumn_any g ct des prev c
      (findColumnByName_self ct.columns hnd c (hsub c (List.mem_cons_self c rest)))
      (fun hm => hmy hm c (hsub c (List.mem_cons_self c rest)))]
    rw [ih (some c) (fun x hx => hsub x (List.mem_cons_of_mem c hx))]
    rfl

theorem removeStaleAutoIncrement_any (g : Generator) (ct des : Table)
    (hnd : (des.columns.map (·.name)).Nodup) :
    ∀ cols : List Column, (∀ c ∈ cols, c ∈ des.columns) →
      removeStaleAutoIncrement g ct des cols = .ok [] := by
  intro cols
  induction cols with
  | nil => intro _; rfl
  | cons c rest ih =>
    intro hsub
    rw [removeStaleAutoIncrement]
    rw [findColumnByName_self des.columns hnd c (hsub c (List.mem_cons_self c rest))]
    rw [ih (fun x hx => hsub x (List.mem_cons_of_mem c hx))]
    simp [Bool.and_not_self]

theorem addNewAutoIncrement_any (g : Generator) (ct des : Table)
    (hnd : (ct.columns.map (·.name)).Nodup) :
    ∀ cols : List Column, (∀ c ∈ cols, c ∈ ct.columns) →
      addNewAutoIncrement g ct des cols = .ok [] := by
  intro cols
  induction cols with
  | nil => intro _; rfl
  | cons c rest ih =>
    intro hsub
    rw [addNewAutoIncrement]
    rw [findColumnByName_self ct.columns hnd c (hsub c (List.mem_cons_self c rest))]
    rw [ih (fun x hx => hsub x (List.mem_cons_of_mem c hx))]
    simp [Bool.and_not_self]

theorem examinePrimaryKey_any (g : Generator) (ct des : Table)
    (hpk : ct.PrimaryKey = des.PrimaryKey)
    (hopt : ∀ i ∈ des.indexes, (i.options.map (·.optionName)).Nodup) :
    examinePrimaryKey g ct des = [] := by
  simp [examinePrimaryKey, hpk, areSamePrimaryKeys_refl des hopt]

theorem examineIndexes_any (g : Generator) (ct des : Table)
    (hfind : ∀ i ∈ des.indexes, findIndexByName ct.indexes i.name = some i)
    (hopt : ∀ i ∈ des.indexes, (i.options.map (·.optionName)).Nodup) :
    examineIndexes g ct des = [] := by
  rw [examineIndexes]
  suffices hgen : ∀ l : List Index, (∀ i ∈ l, i ∈ des.indexes) →
      ∀ acc, l.foldl (fun acc desiredIndex =>
        if desiredIndex.primary then acc
        else
          match findIndexByName ct.indexes desiredIndex.name with
          | some currentIndex =>
            if !areSameIndexes currentIndex desiredIndex then
              acc ++ [generateDropIndex g.mode des.name desiredIndex.name,
                generateAddIndex g.mode des.name desiredIndex]
            else acc
          | none => acc ++ [generateAddIndex g.mode des.name desiredIndex]) acc = acc by
    exact hgen des.indexes (fun _ h => h) []
  intro l
  induction l with
  | nil => intro _ acc; rfl
  | cons i rest ih =>
    intro hsub acc
    rw [List.foldl_cons]
    have hstep : (if i.primary then acc
        else
          match findIndexByName ct.indexes i.name with
          | some currentIndex =>
            if !areSameIndexes currentIndex i then
              acc ++ [generateDropIndex g.mode des.name i.name,
                generateAddIndex g.mode des.name i]
            else acc
          | none => acc ++ [generateAddIndex g.mode des.name i]) = acc := by
      by_cases hp : i.primary
      · simp [hp]
      · rw [if_neg hp, hfind i (hsub i (List.mem_cons_self i rest))]
        simp [areSameIndexes_refl i (hopt i (hsub i (List.mem_cons_self i rest)))]
    rw [hstep]
    exact ih (fun x hx => hsub x (List.mem_cons_of_mem i hx)) acc

theorem examineForeignKeys_any (g : Generator) (ct des : Table) :
    ∀ fks : List ForeignKey,
      (∀ fk ∈ fks, findForeignKeyByName ct.foreignKeys fk.constraintName = some fk ∧
        fk.constraintName ≠ "") →
      examineForeignKeys g ct des fks = .ok [] := by
  intro fks
  induction fks with
  | nil => intro _; rfl
  | cons fk rest ih =>
    intro h
    rw [examineForeignKeys]
    rw [if_neg (by simpa using
      string_length_ne_zero (h fk (List.mem_cons_self fk rest)).2)]
    rw [(h fk (List.mem_cons_self fk rest)).1]
    rw [ih (fun x hx => h x (List.mem_cons_of_mem fk hx))]
    simp [areSameForeignKeys_refl]

theorem extendTable_columns (t : Table) (is : List Index) (fks : List ForeignKey)
    (ps : List Policy) : (extendTable t is fks ps).columns = t.columns := rfl

theorem extendTable_indexes (t : Table) (is : List Index) (fks : List ForeignKey)
    (ps : List Policy) : (extendTable t is fks ps).indexes = t.indexes ++ is := rfl

theorem extendTable_foreignKeys (t : Table) (is : List Index) (fks : List ForeignKey)
    (ps : List Policy) : (extendTable t is fks ps).foreignKeys = t.foreignKeys ++ fks := rfl

theorem extendTable_policies (t : Table) (is : List Index) (fks : List ForeignKey)
    (ps : List Policy) : (extendTable t is fks ps).policies = t.policies ++ ps := rfl

theorem extendTable_name (t : Table) (is : List Index) (fks : List ForeignKey)
    (ps : List Policy) : (extendTable t is fks ps).name = t.name := rfl

theorem extendTable_primaryKey (t : Table) (is : List Index) (fks : List ForeignKey)
    (ps : List Policy) (hprim : ∀ i ∈ is, i.primary = false) :
    (extendTable t is fks ps).PrimaryKey = t.PrimaryKey := by
  have hfp : findPrimaryKey (t.indexes ++ is) = findPrimaryKey t.indexes := by
    have hnone : List.find? (fun index => index.primary) is = none :=
      List.find?_eq_none.mpr (fun i hi => by simp [hprim i hi])
    rw [findPrimaryKey, findPrimaryKey, List.find?_append, hnone]
    cases t.indexes.find? (fun index => index.primary) <;> rfl
  rw [Table.PrimaryKey, Table.PrimaryKey]
  rw [show (extendTable t is fks ps).indexes = t.indexes ++ is from rfl, hfp]
  rfl

theorem generateDDLsForCreateTable_extend (g : Generator) (t : Table)
    (is : List Index) (fks : List ForeignKey) (ps : List Policy)
    (hok : TableStreamOK g.mode t is fks ps) :
    generateDDLsForCreateTable g (extendTable t is fks ps) t = .ok [] := by
  obtain ⟨hcols, hidx, hopts, hprim, hfk, hfkne, hpols, hmy⟩ := hok
  rw [generateDDLsForCreateTable]
  rw [examineColumns_any g (extendTable t is fks ps) t hcols hmy none t.columns
    (fun _ h => h)]
  have h2 : (if g.mode == GeneratorMode.mysql then
      removeStaleAutoIncrement g (extendTable t is fks ps) t
        (extendTable t is fks ps).columns
    else .ok []) = .ok ([] : List String) := by
    cases hb : (g.mode == GeneratorMode.mysql)
    · simp
    · simp [extendTable_columns, removeStaleAutoIncrement_any g (extendTable t is fks ps) t
        hcols t.columns (fun _ h => h)]
  have h3 : (if g.mode == GeneratorMode.mysql then
      addNewAutoIncrement g (extendTable t is fks ps) t t.columns
    else .ok []) = .ok ([] : List String) := by
    cases hb : (g.mode == GeneratorMode.mysql)
    · simp
    · simp [addNewAutoIncrement_any g (extendTable t is fks ps) t hcols
        t.columns (fun _ h => h)]
  rw [h2, h3]
  rw [examinePrimaryKey_any g (extendTable t is fks ps) t
    (extendTable_primaryKey t is fks ps hprim)
    (fun i hi => hopts i (List.mem_append_left is hi))]
  rw [examineIndexes_any g (extendTable t is fks ps) t
    (fun i hi => findIndexByName_self (t.indexes ++ is) hidx i (List.mem_append_left is hi))
    (fun i hi => hopts i (List.mem_append_left is hi))]
  rw [examineForeignKeys_any g (extendTable t is fks ps) t t.foreignKeys
    (fun fk hm => ⟨findForeignKeyByName_self (t.foreignKeys ++ fks) hfk fk
      (List.mem_append_left fks hm), hfkne fk hm⟩)]
  simp

theorem findTableByName_append_of_not (pre l : List Table) (n : String)
    (h : ∀ x ∈ pre, x.name ≠ n) :
    findTableByName (pre ++ l) n = findTableByName l n := by
  rw [findTableByName, findTableByName, List.find?_append]
  rw [List.find?_eq_none.mpr (fun x hx => by simpa using h x hx)]
  rfl

theorem replaceTableByName_append_of_not (pre l : List Table) (n : String) (t' : Table)
    (h : ∀ x ∈ pre, x.name ≠ n) :
    replaceTableByName (pre ++ l) n t' = pre ++ replaceTableByName l n t' := by
  induction pre with
  | nil => rfl
  | cons x rest ih =>
    rw [List.cons_append, replaceTableByName]
    rw [beq_eq_false_iff_ne.mpr (h x (List.mem_cons_self x rest))]
    rw [ih (fun y hy => h y (List.mem_cons_of_mem x hy))]
    rfl

theorem cleanupAbsentIndexes_skip (g : Generator) (ct dt : Table) :
    ∀ l : List Index,
      (∀ i ∈ l, containsString (convertIndexesToIndexNames dt.indexes) i.name = true) →
      cleanupAbsentIndexes g ct dt l = .ok [] := by
  intro l
  induction l with
  | nil => intro _; rfl
  | cons i rest ih =>
    intro h
    rw [cleanupAbsentIndexes, h i (List.mem_cons_self i rest)]
    simp only [Bool.true_or, if_true]
    exact ih (fun x hx => h x (List.mem_cons_of_mem i hx))

theorem cleanupTables_skip (g : Generator) :
    ∀ walk : List Table,
      (∀ ct ∈ walk, ∃ dt, findTableByName g.desiredTables ct.name = some dt ∧
        (∀ c ∈ ct.columns, c ∈ dt.columns) ∧
        (∀ i ∈ ct.indexes, i ∈ dt.indexes) ∧
        ct.foreignKeys = dt.foreignKeys ∧ ct.policies = dt.policies) →
      ∀ live, cleanupTables g live walk = .ok ([], live) := by
  intro walk
  induction walk with
  | nil => intro _ live; rfl
  | cons ct rest ih =>
    intro h live
    obtain ⟨dt, hfind, hcols, hidxs, hfk, hpol⟩ := h ct (List.mem_cons_self ct rest)
    rw [cleanupTables, hfind]
    dsimp only
    have hfks : ct.foreignKeys.foldl
        (fun acc foreignKey =>
          if containsString (convertForeignKeysToConstraintNames dt.foreignKeys)
              foreignKey.constraintName then acc
          else acc ++ generateDDLsForAbsentForeignKey g foreignKey ct dt) [] = [] := by
      apply foldl_skip
      intro fk hm
      rw [hfk] at hm
      exact containsString_map_self (·.constraintName) dt.foreignKeys fk hm
    have hidx : cleanupAbsentIndexes g ct dt ct.indexes = .ok [] := by
      apply cleanupAbsentIndexes_skip
      intro i hi
      exact containsString_map_self (·.name) dt.indexes i (hidxs i hi)
    have hcolsf : ct.columns.foldl
        (fun acc column =>
          if containsString (convertColumnsToColumnNames dt.columns) column.name then acc
          else acc ++ generateDDLsForAbsentColumn g ct column.name) [] = [] := by
      apply foldl_skip
      intro c hc
      exact containsString_map_self (·.name) dt.columns c (hcols c hc)
    have hpols : ct.policies.foldl
        (fun acc policy =>
          if containsString (convertPolicyNames dt.policies) policy.name then acc
          else acc ++ ["DROP POLICY " ++ escapeSQLName g.mode policy.name ++ " ON " ++
            escapeTableName g.mode ct.name]) [] = [] := by
      apply foldl_skip
      intro po hpo
      rw [hpol] at hpo
      exact containsString_map_self (·.name) dt.policies po hpo
    rw [hfks, hidx, hcolsf, hpols]
    rw [except_bind_ok]
    rw [ih (fun x hx => h x (List.mem_cons_of_mem ct hx)) live]
    rfl

/-! ### Stream decomposition lemmas -/

theorem append_cons_assoc {α : Type} (P : List α) (d : α) (R : List α) :
    P ++ d :: R = (P ++ [d]) ++ R := by simp

theorem streamTables_append (l1 l2 : List DDL) :
    streamTables (l1 ++ l2) = streamTables l1 ++ streamTables l2 := by
  simp [streamTables, List.filterMap_append]

theorem tableIndexes_append (n : String) (l1 l2 : List DDL) :
    tableIndexes n (l1 ++ l2) = tableIndexes n l1 ++ tableIndexes n l2 := by
  simp [tableIndexes, List.filterMap_append]

theorem tableForeignKeys_append (n : String) (l1 l2 : List DDL) :
    tableForeignKeys n (l1 ++ l2) = tableForeignKeys n l1 ++ tableForeignKeys n l2 := by
  simp [tableForeignKeys, List.filterMap_append]

theorem tablePolicies_append (n : String) (l1 l2 : List DDL) :
    tablePolicies n (l1 ++ l2) = tablePolicies n l1 ++ tablePolicies n l2 := by
  simp [tablePolicies, List.filterMap_append]

theorem convertDDLsToViews_append (l1 l2 : List DDL) :
    convertDDLsToViews (l1 ++ l2) = convertDDLsToViews l1 ++ convertDDLsToViews l2 := by
  simp [convertDDLsToViews, List.filterMap_append]

theorem streamTables_one (d : DDL) :
    streamTables [d] = (match d with
      | .createTable s t => [(s, t)]
      | _ => []) := by
  cases d <;> rfl

theorem tableIndexes_one (n : String) (d : DDL) :
    tableIndexes n [d] = (match d with
      | .createIndex _ tn i => if tn == n then [i] else []
      | _ => []) := by
  cases d <;>
    first
    | rfl
    | (rename_i tn i
       by_cases h : tn = n
       · simp [tableIndexes, List.filterMap_cons, h]
       · simp [tableIndexes, List.filterMap_cons, h])

theorem tableForeignKeys_one (n : String) (d : DDL) :
    tableForeignKeys n [d] = (match d with
      | .addForeignKey _ tn fk => if tn == n then [fk] else []
      | _ => []) := by
  cases d <;>
    first
    | rfl
    | (rename_i tn fk
       by_cases h : tn = n
       · simp [tableForeignKeys, List.filterMap_cons, h]
       · simp [tableForeignKeys, List.filterMap_cons, h])

theorem tablePolicies_one (n : String) (d : DDL) :
    tablePolicies n [d] = (match d with
      | .addPolicy _ tn p => if tn == n then [p] else []
      | _ => []) := by
  cases d <;>
    first
    | rfl
    | (rename_i tn p
       by_cases h : tn = n
       · simp [tablePolicies, List.filterMap_cons, h]
       · simp [tablePolicies, List.filterMap_cons, h])

theorem convertDDLsToViews_one (d : DDL) :
    convertDDLsToViews [d] = (match d with
      | .view v => [v]
      | _ => []) := by
  cases d <;> rfl

theorem applyExtras_name (t : Table) (l : List DDL) : (applyExtras t l).name = t.name := rfl

theorem nodup_parts {α : Type} {l1 l2 l3 : List α} {a : α}
    (h : (l1 ++ (l2 ++ a :: l3)).Nodup) : a ∉ l1 ∧ a ∉ l2 := by
  rcases List.nodup_append.mp h with ⟨h1, h23, disj⟩
  rcases List.nodup_append.mp h23 with ⟨h2, hcons, disj2⟩
  constructor
  · intro hal1
    exact disj hal1 (List.mem_append_right l2 (List.mem_cons_self a l3))
  · intro hal2
    exact disj2 hal2 (List.mem_cons_self a l3)

theorem findTableByName_map_name {β : Type} (g : β → Table) (nameOf : β → String)
    (hg : ∀ p, (g p).name = nameOf p)
    (l : List β) (hnd : (l.map nameOf).Nodup) (q : β) (hq : q ∈ l) :
    findTableByName (l.map g) (nameOf q) = some (g q) := by
  have hmaps : (l.map g).map (fun t : Table => t.name) = l.map nameOf := by
    rw [List.map_map]
    exact List.map_congr_left (fun p _ => hg p)
  have h := find?_name_self (fun t : Table => t.name) (l.map g)
    (by rw [hmaps]; exact hnd) (g q) (List.mem_map_of_mem g hq)
  rw [findTableByName]
  simpa [hg] using h

theorem replaceTableByName_map {β : Type} (f f' : β → Table) (nameOf : β → String)
    (hf : ∀ p, (f p).name = nameOf p)
    (l : List β) (hnd : (l.map nameOf).Nodup)
    (q : β) (hq : q ∈ l)
    (hoth : ∀ p ∈ l, nameOf p ≠ nameOf q → f' p = f p) :
    replaceTableByName (l.map f) (nameOf q) (f' q) = l.map f' := by
  induction l with
  | nil => cases hq
  | cons p rest ih =>
    rw [List.map_cons, List.map_cons, replaceTableByName]
    by_cases hname : nameOf p = nameOf q
    · rw [hf p, if_pos (by simp [hname])]
      have hqp : q = p := by
        rcases List.mem_cons.mp hq with h | h
        · exact h
        · exact absurd (hname ▸ List.mem_map_of_mem nameOf h)
            (List.nodup_cons.mp hnd).1
      subst hqp
      congr 1
      refine List.map_congr_left (fun x hx => ?_)
      have hxq : nameOf x ≠ nameOf q := by
        intro he
        exact (List.nodup_cons.mp hnd).1 (he ▸ List.mem_map_of_mem nameOf hx)
      exact (hoth x (List.mem_cons_of_mem q hx) hxq).symm
    · rw [hf p, if_neg (by simp [hname])]
      have hqrest : q ∈ rest := by
        rcases List.mem_cons.mp hq with h | h
        · exact absurd (h ▸ rfl) (fun he => hname he)
        · exact h
      rw [ih (List.nodup_cons.mp hnd).2 hqrest
        (fun x hx hne => hoth x (List.mem_cons_of_mem p hx) hne)]
      rw [hoth p (List.mem_cons_self p rest) hname]

theorem replaceTableByName_self_of_find (l : List Table) (n : String) (x : Table)
    (h : findTableByName l n = some x) : replaceTableByName l n x = l := by
  induction l with
  | nil => rfl
  | cons t rest ih =>
    rw [findTableByName, List.find?_cons] at h
    rw [replaceTableByName]
    by_cases ht : (t.name == n) = true
    · rw [ht] at h
      simp only at h
      injection h with hx
      rw [if_pos ht, hx]
    · rw [Bool.not_eq_true] at ht
      rw [ht] at h
      simp only at h
      rw [if_neg (by simp [ht])]
      rw [ih (by rw [findTableByName]; exact h)]

theorem generateDDLsForCreateIndex_id (g : Generator) (tn : String) (i : Index)
    (action st : String) (cur des : Table)
    (hfc : findTableByName g.currentTables tn = some cur)
    (hfi : findIndexByName cur.indexes i.name = some i)
    (hopt : (i.options.map (·.optionName)).Nodup)
    (hfd : findTableByName g.desiredTables tn = some des)
    (hdup : containsString (convertIndexesToIndexNames des.indexes) i.name = false) :
    generateDDLsForCreateIndex g tn i action st =
      .ok ([], { g with
        currentTables := replaceTableByName g.currentTables tn cur,
        desiredTables := replaceTableByName g.desiredTables tn
          { des with indexes := des.indexes ++ [i] } }) := by
  rw [generateDDLsForCreateIndex, hfc]
  dsimp only
  rw [hfi]
  dsimp only
  rw [areSameIndexes_refl i hopt]
  simp only [Bool.not_true, Bool.false_eq_true, if_false]
  rw [hfd]
  dsimp only
  rw [hdup]
  simp only [Bool.false_eq_true, if_false]

theorem generateDDLsForCreatePolicy_id (g : Generator) (tn : String) (po : Policy)
    (action st : String) (cur des : Table)
    (hfc : findTableByName g.currentTables tn = some cur)
    (hfp : findPolicyByName cur.policies po.name = some po)
    (hfd : findTableByName g.desiredTables tn = some des)
    (hdup : containsString (convertPolicyNames des.policies) po.name = false) :
    generateDDLsForCreatePolicy g tn po action st =
      .ok ([], { g with
        currentTables := replaceTableByName g.currentTables tn cur,
        desiredTables := replaceTableByName g.desiredTables tn
          { des with policies := des.policies ++ [po] } }) := by
  rw [generateDDLsForCreatePolicy, hfc]
  dsimp only
  rw [hfp]
  dsimp only
  rw [areSamePolicies_refl po]
  simp only [Bool.not_true, Bool.false_eq_true, if_false]
  rw [hfd]
  dsimp only
  rw [hdup]
  simp only [Bool.false_eq_true, if_false]

theorem generateDDLsForAddForeignKey_id (g : Generator) (tn : String) (fk : ForeignKey)
    (action st : String) (des : Table)
    (hfd : findTableByName g.desiredTables tn = some des)
    (hdup : containsString (convertForeignKeysToConstraintNames des.foreignKeys)
      fk.constraintName = false) :
    generateDDLsForAddForeignKey g tn fk action st =
      .ok ([], { g with
        desiredTables := replaceTableByName g.desiredTables tn
          { des with foreignKeys := des.foreignKeys ++ [fk] } }) := by
  rw [generateDDLsForAddForeignKey, hfd]
  dsimp only
  rw [hdup]
  simp only [Bool.false_eq_true, if_false]

theorem generateDDLsForCreateView_id (g : Generator) (v : View)
    (hfv : findViewByName g.currentViews v.name = some v)
    (hdup : containsString (convertViewNames g.desiredViews) v.name = false) :
    generateDDLsForCreateView g v.name v =
      .ok ([], { g with desiredViews := g.desiredViews ++ [v] }) := by
  rw [generateDDLsForCreateView, hfv]
  dsimp only
  rw [hdup]
  simp only [bne_self_eq_false, Bool.false_eq_true, if_false]

theorem extendTable_nil (t : Table) : extendTable t [] [] [] = t := by
  simp [extendTable]

theorem applyExtras_irrelevant (t : Table) (P : List DDL) (d : DDL)
    (h1 : tableIndexes t.name [d] = []) (h2 : tableForeignKeys t.name [d] = [])
    (h3 : tablePolicies t.name [d] = []) :
    applyExtras t (P ++ [d]) = applyExtras t P := by
  rw [applyExtras, applyExtras, tableIndexes_append, tableForeignKeys_append,
    tablePolicies_append, h1, h2, h3, List.append_nil, List.append_nil, List.append_nil]

theorem mem_of_containsString (l : List String) (x : String)
    (h : containsString l x = true) : x ∈ l := by
  simp only [containsString, List.any_eq_true] at h
  rcases h with ⟨a, ha, he⟩
  exact (beq_iff_eq.mp he) ▸ ha

theorem streamNames_nodup_left (P R : List DDL)
    (h : ((streamTables (P ++ R)).map (fun p => p.2.name)).Nodup) :
    ((streamTables P).map (fun p => p.2.name)).Nodup := by
  rw [streamTables_append, List.map_append] at h
  exact h.of_append_left

theorem streamTables_nil : streamTables [] = [] := rfl

theorem convertDDLsToViews_nil : convertDDLsToViews [] = [] := rfl

theorem streamNames_irrelevant (P : List DDL) (d : DDL) (h : streamTables [d] = []) :
    (streamTables (P ++ [d])).map (fun p => p.2.name) =
      (streamTables P).map (fun p => p.2.name) := by
  rw [streamTables_append, h, List.append_nil]

theorem containsString_false (l : List String) (x : String) (h : x ∉ l) :
    containsString l x = false := by
  rw [containsString, List.any_eq_false]
  intro a ha
  intro heq
  exact h ((beq_iff_eq.mp heq) ▸ ha)

theorem findTableByName_append_left (l1 l2 : List Table) (n : String) (x : Table)
    (h : findTableByName l1 n = some x) : findTableByName (l1 ++ l2) n = some x := by
  rw [findTableByName] at h ⊢
  rw [List.find?_append, h]
  rfl

theorem findIndexByName_append_left (l1 l2 : List Index) (n : String) (x : Index)
    (h : findIndexByName l1 n = some x) : findIndexByName (l1 ++ l2) n = some x := by
  rw [findIndexByName] at h ⊢
  rw [List.find?_append, h]
  rfl

theorem mergeTable_indexes_eq (t1 t2 : Table) :
    (mergeTable t1 t2).indexes = t1.indexes ++ t2.indexes.filter
      (fun i => containsString (convertIndexesToIndexNames t1.indexes) i.name) := by
  rw [mergeTable_filter_eq]

theorem cleanupViews_skip (g : Generator)
    (h : ∀ v ∈ g.currentViews,
      containsString (convertViewNames g.desiredViews) v.name = true) :
    cleanupViews g = [] := by
  rw [cleanupViews]
  exact foldl_skip _ _ _ h []

theorem replace_stream_index (P : List DDL) (st tn : String) (i : Index)
    (hndP' : ((streamTables P).map (fun p => p.2.name)).Nodup)
    (q : String × Table) (hq : q ∈ streamTables P) (hqname : q.2.name = tn) :
    replaceTableByName ((streamTables P).map (fun p => applyExtras p.2 P)) tn
      { applyExtras q.2 P with
        indexes := (applyExtras q.2 P).indexes ++ [i] } =
    (streamTables (P ++ [DDL.createIndex st tn i])).map
      (fun p => applyExtras p.2 (P ++ [DDL.createIndex st tn i])) := by
  rw [streamTables_append, show streamTables [DDL.createIndex st tn i] = [] from rfl,
    List.append_nil]
  have hval : ({ applyExtras q.2 P with
      indexes := (applyExtras q.2 P).indexes ++ [i] } : Table) =
      applyExtras q.2 (P ++ [DDL.createIndex st tn i]) := by
    rw [applyExtras, applyExtras, extendTable, extendTable]
    rw [tableIndexes_append, tableForeignKeys_append, tablePolicies_append,
      tableIndexes_one, tableForeignKeys_one, tablePolicies_one]
    dsimp only
    rw [if_pos (beq_iff_eq.mpr hqname.symm)]
    simp [List.append_assoc]
  have hmap := replaceTableByName_map (fun p => applyExtras p.2 P)
    (fun p => applyExtras p.2 (P ++ [DDL.createIndex st tn i]))
    (fun p => p.2.name) (fun p => applyExtras_name p.2 P)
    (streamTables P) hndP' q hq (fun p hp hne => by
      exact applyExtras_irrelevant p.2 P (DDL.createIndex st tn i)
        (by
          rw [tableIndexes_one]
          dsimp only
          rw [if_neg (fun he => hne (by
            show p.2.name = q.2.name
            rw [hqname]
            exact (beq_iff_eq.mp he).symm))]) rfl rfl)
  simp only at hmap
  rw [hqname] at hmap
  rw [hval]
  exact hmap

theorem replace_stream_fk (P : List DDL) (st tn : String) (fk : ForeignKey)
    (hndP' : ((streamTables P).map (fun p => p.2.name)).Nodup)
    (q : String × Table) (hq : q ∈ streamTables P) (hqname : q.2.name = tn) :
    replaceTableByName ((streamTables P).map (fun p => applyExtras p.2 P)) tn
      { applyExtras q.2 P with
        foreignKeys := (applyExtras q.2 P).foreignKeys ++ [fk] } =
    (streamTables (P ++ [DDL.addForeignKey st tn fk])).map
      (fun p => applyExtras p.2 (P ++ [DDL.addForeignKey st tn fk])) := by
  rw [streamTables_append, show streamTables [DDL.addForeignKey st tn fk] = [] from rfl,
    List.append_nil]
  have hval : ({ applyExtras q.2 P with
      foreignKeys := (applyExtras q.2 P).foreignKeys ++ [fk] } : Table) =
      applyExtras q.2 (P ++ [DDL.addForeignKey st tn fk]) := by
    rw [applyExtras, applyExtras, extendTable, extendTable]
    rw [tableIndexes_append, tableForeignKeys_append, tablePolicies_append,
      tableIndexes_one, tableForeignKeys_one, tablePolicies_one]
    dsimp only
    rw [if_pos (beq_iff_eq.mpr hqname.symm)]
    simp [List.append_assoc]
  have hmap := replaceTableByName_map (fun p => applyExtras p.2 P)
    (fun p => applyExtras p.2 (P ++ [DDL.addForeignKey st tn fk]))
    (fun p => p.2.name) (fun p => applyExtras_name p.2 P)
    (streamTables P) hndP' q hq (fun p hp hne => by
      exact applyExtras_irrelevant p.2 P (DDL.addForeignKey st tn fk)
        rfl
        (by
          rw [tableForeignKeys_one]
          dsimp only
          rw [if_neg (fun he => hne (by
            show p.2.name = q.2.name
            rw [hqname]
            exact (beq_iff_eq.mp he).symm))]) rfl)
  simp only at hmap
  rw [hqname] at hmap
  rw [hval]
  exact hmap

theorem replace_stream_policy (P : List DDL) (st tn : String) (po : Policy)
    (hndP' : ((streamTables P).map (fun p => p.2.name)).Nodup)
    (q : String × Table) (hq : q ∈ streamTables P) (hqname : q.2.name = tn) :
    replaceTableByName ((streamTables P).map (fun p => applyExtras p.2 P)) tn
      { applyExtras q.2 P with
        policies := (applyExtras q.2 P).policies ++ [po] } =
    (streamTables (P ++ [DDL.addPolicy st tn po])).map
      (fun p => applyExtras p.2 (P ++ [DDL.addPolicy st tn po])) := by
  rw [streamTables_append, show streamTables [DDL.addPolicy st tn po] = [] from rfl,
    List.append_nil]
  have hval : ({ applyExtras q.2 P with
      policies := (applyExtras q.2 P).policies ++ [po] } : Table) =
      applyExtras q.2 (P ++ [DDL.addPolicy st tn po]) := by
    rw [applyExtras, applyExtras, extendTable, extendTable]
    rw [tableIndexes_append, tableForeignKeys_append, tablePolicies_append,
      tableIndexes_one, tableForeignKeys_one, tablePolicies_one]
    dsimp only
    rw [if_pos (beq_iff_eq.mpr hqname.symm)]
    simp [List.append_assoc]
  have hmap := replaceTableByName_map (fun p => applyExtras p.2 P)
    (fun p => applyExtras p.2 (P ++ [DDL.addPolicy st tn po]))
    (fun p => p.2.name) (fun p => applyExtras_name p.2 P)
    (streamTables P) hndP' q hq (fun p hp hne => by
      exact applyExtras_irrelevant p.2 P (DDL.addPolicy st tn po)
        rfl rfl
        (by
          rw [tablePolicies_one]
          dsimp only
          rw [if_neg (fun he => hne (by
            show p.2.name = q.2.name
            rw [hqname]
            exact (beq_iff_eq.mp he).symm))]))
  simp only at hmap
  rw [hqname] at hmap
  rw [hval]
  exact hmap

theorem convertDDLsToTablesAux_stream (R : List DDL) : ∀ (P : List DDL),
    ((streamTables (P ++ R)).map (fun p => p.2.name)).Nodup →
    wfOrder ((streamTables P).map (fun p => p.2.name)) R = true →
    (∀ p ∈ streamTables R, tableIndexes p.2.name P = [] ∧
      tableForeignKeys p.2.name P = [] ∧ tablePolicies p.2.name P = []) →
    convertDDLsToTables.convertDDLsToTablesAux
        ((streamTables P).map (fun p => applyExtras p.2 P)) R =
      .ok ((streamTables (P ++ R)).map (fun p => applyExtras p.2 (P ++ R))) := by
  induction R with
  | nil =>
    intro P hnd hwf hny
    rw [convertDDLsToTables.convertDDLsToTablesAux]
    rw [List.append_nil]
  | cons d R ih =>
    intro P hnd hwf hny
    rw [append_cons_assoc P d R] at hnd ⊢
    cases d with
    | createTable s t =>
      have hhead : (s, t) ∈ streamTables (DDL.createTable s t :: R) :=
        List.mem_cons_self _ _
      obtain ⟨he1, he2, he3⟩ := hny (s, t) hhead
      rw [convertDDLsToTables.convertDDLsToTablesAux]
      have hacc : (streamTables P).map (fun p => applyExtras p.2 P) ++ [t] =
          (streamTables (P ++ [DDL.createTable s t])).map
            (fun p => applyExtras p.2 (P ++ [DDL.createTable s t])) := by
        rw [streamTables_append, List.map_append, streamTables_one]
        congr 1
        · refine (List.map_congr_left (fun p hp => ?_)).symm
          exact applyExtras_irrelevant p.2 P _ rfl rfl rfl
        · show [t] = [applyExtras t (P ++ [DDL.createTable s t])]
          rw [applyExtras_irrelevant t P (DDL.createTable s t) rfl rfl rfl]
          rw [show applyExtras t P = extendTable t [] [] [] by
            rw [applyExtras, he1, he2, he3]]
          rw [extendTable_nil]
      rw [hacc]
      rw [ih (P ++ [DDL.createTable s t]) hnd
        (by
          have hn : (streamTables (P ++ [DDL.createTable s t])).map (fun p => p.2.name) =
              (streamTables P).map (fun p => p.2.name) ++ [t.name] := by
            rw [streamTables_append, List.map_append, streamTables_one]
            rfl
          rw [hn]
          rw [wfOrder] at hwf
          exact hwf)
        (by
          intro p hp
          obtain ⟨g1, g2, g3⟩ := hny p (List.mem_cons_of_mem _ hp)
          refine ⟨?_, ?_, ?_⟩
          · rw [tableIndexes_append, g1, tableIndexes_one]
            rfl
          · rw [tableForeignKeys_append, g2, tableForeignKeys_one]
            rfl
          · rw [tablePolicies_append, g3, tablePolicies_one]
            rfl)]
    | createIndex st tn i =>
      rw [wfOrder, Bool.and_eq_true] at hwf
      rcases hwf with ⟨hcont, hwf'⟩
      rcases List.mem_map.mp (mem_of_containsString _ _ hcont) with ⟨q, hq, hqname⟩
      have hndP := streamNames_nodup_left (P ++ [DDL.createIndex st tn i]) R hnd
      have hndP' : ((streamTables P).map (fun p => p.2.name)).Nodup := by
        refine streamNames_nodup_left P [DDL.createIndex st tn i] ?_
        rw [streamTables_append] at hndP
        rw [show streamTables [DDL.createIndex st tn i] = [] from rfl] at hndP
        rw [streamTables_append,
          show streamTables [DDL.createIndex st tn i] = [] from rfl]
        exact hndP
      have hfind : findTableByName
          ((streamTables P).map (fun p => applyExtras p.2 P)) tn =
          some (applyExtras q.2 P) := by
        rw [← hqname]
        exact findTableByName_map_name (fun p => applyExtras p.2 P)
          (fun p => p.2.name) (fun p => applyExtras_name p.2 P)
          (streamTables P) hndP' q hq
      rw [convertDDLsToTables.convertDDLsToTablesAux]
      rw [hfind]
      dsimp only
      have hrepl := replace_stream_index P st tn i hndP' q hq hqname
      rw [hrepl]
      rw [ih (P ++ [DDL.createIndex st tn i]) hnd
        (by
          have hn : (streamTables (P ++ [DDL.createIndex st tn i])).map
              (fun p => p.2.name) = (streamTables P).map (fun p => p.2.name) := by
            rw [streamTables_append, show streamTables [DDL.createIndex st tn i] = []
              from rfl, List.append_nil]
          rw [hn]
          exact hwf')
        (by
          intro p hp
          obtain ⟨g1, g2, g3⟩ := hny p hp
          have hne : tn ≠ p.2.name := by
            intro he
            have hpPR : p.2.name ∈ (streamTables R).map (fun p => p.2.name) :=
              List.mem_map_of_mem _ hp
            have hqP : q.2.name ∈ (streamTables (P ++ [DDL.createIndex st tn i])).map
                (fun p => p.2.name) := by
              rw [streamTables_append, show streamTables [DDL.createIndex st tn i] = []
                from rfl, List.append_nil]
              exact List.mem_map_of_mem _ hq
            rw [streamTables_append, List.map_append] at hnd
            exact (List.nodup_append.mp hnd).2.2 hqP (by rw [hqname, he]; exact hpPR)
          refine ⟨?_, ?_, ?_⟩
          · rw [tableIndexes_append, g1, tableIndexes_one]
            dsimp only
            rw [if_neg (fun he => hne (beq_iff_eq.mp he))]
            rfl
          · rw [tableForeignKeys_append, g2, tableForeignKeys_one]
            rfl
          · rw [tablePolicies_append, g3, tablePolicies_one]
            rfl)]
    | addForeignKey st tn fk =>
      rw [wfOrder, Bool.and_eq_true] at hwf
      rcases hwf with ⟨hcont, hwf'⟩
      rcases List.mem_map.mp (mem_of_containsString _ _ hcont) with ⟨q, hq, hqname⟩
      have hndP := streamNames_nodup_left (P ++ [DDL.addForeignKey st tn fk]) R hnd
      have hndP' : ((streamTables P).map (fun p => p.2.name)).Nodup := by
        rw [streamTables_append,
          show streamTables [DDL.addForeignKey st tn fk] = [] from rfl,
          List.append_nil] at hndP
        exact hndP
      have hfind : findTableByName
          ((streamTables P).map (fun p => applyExtras p.2 P)) tn =
          some (applyExtras q.2 P) := by
        rw [← hqname]
        exact findTableByName_map_name (fun p => applyExtras p.2 P)
          (fun p => p.2.name) (fun p => applyExtras_name p.2 P)
          (streamTables P) hndP' q hq
      rw [convertDDLsToTables.convertDDLsToTablesAux]
      rw [hfind]
      dsimp only
      have hrepl := replace_stream_fk P st tn fk hndP' q hq hqname
      rw [hrepl]
      rw [ih (P ++ [DDL.addForeignKey st tn fk]) hnd
        (by
          rw [streamTables_append,
            show streamTables [DDL.addForeignKey st tn fk] = [] from rfl,
            List.append_nil]
          exact hwf')
        (by
          intro p hp
          obtain ⟨g1, g2, g3⟩ := hny p hp
          have hne : tn ≠ p.2.name := by
            intro he
            have hpPR : p.2.name ∈ (streamTables R).map (fun p => p.2.name) :=
              List.mem_map_of_mem _ hp
            have hqP : q.2.name ∈ (streamTables (P ++ [DDL.addForeignKey st tn fk])).map
                (fun p => p.2.name) := by
              rw [streamTables_append,
                show streamTables [DDL.addForeignKey st tn fk] = [] from rfl,
                List.append_nil]
              exact List.mem_map_of_mem _ hq
            rw [streamTables_append, List.map_append] at hnd
            exact (List.nodup_append.mp hnd).2.2 hqP (by rw [hqname, he]; exact hpPR)
          refine ⟨?_, ?_, ?_⟩
          · rw [tableIndexes_append, g1, tableIndexes_one]
            rfl
          · rw [tableForeignKeys_append, g2, tableForeignKeys_one]
            dsimp only
            rw [if_neg (fun he => hne (beq_iff_eq.mp he))]
            rfl
          · rw [tablePolicies_append, g3, tablePolicies_one]
            rfl)]
    | addPolicy st tn po =>
      rw [wfOrder, Bool.and_eq_true] at hwf
      rcases hwf with ⟨hcont, hwf'⟩
      rcases List.mem_map.mp (mem_of_containsString _ _ hcont) with ⟨q, hq, hqname⟩
      have hndP := streamNames_nodup_left (P ++ [DDL.addPolicy st tn po]) R hnd
      have hndP' : ((streamTables P).map (fun p => p.2.name)).Nodup := by
        rw [streamTables_append,
          show streamTables [DDL.addPolicy st tn po] = [] from rfl,
          List.append_nil] at hndP
        exact hndP
      have hfind : findTableByName
          ((streamTables P).map (fun p => applyExtras p.2 P)) tn =
          some (applyExtras q.2 P) := by
        rw [← hqname]
        exact findTableByName_map_name (fun p => applyExtras p.2 P)
          (fun p => p.2.name) (fun p => applyExtras_name p.2 P)
          (streamTables P) hndP' q hq
      rw [convertDDLsToTables.convertDDLsToTablesAux]
      rw [hfind]
      dsimp only
      have hrepl := replace_stream_policy P st tn po hndP' q hq hqname
      rw [hrepl]
      rw [ih (P ++ [DDL.addPolicy st tn po]) hnd
        (by
          rw [streamTables_append,
            show streamTables [DDL.addPolicy st tn po] = [] from rfl,
            List.append_nil]
          exact hwf')
        (by
          intro p hp
          obtain ⟨g1, g2, g3⟩ := hny p hp
          have hne : tn ≠ p.2.name := by
            intro he
            have hpPR : p.2.name ∈ (streamTables R).map (fun p => p.2.name) :=
              List.mem_map_of_mem _ hp
            have hqP : q.2.name ∈ (streamTables (P ++ [DDL.addPolicy st tn po])).map
                (fun p => p.2.name) := by
              rw [streamTables_append,
                show streamTables [DDL.addPolicy st tn po] = [] from rfl,
                List.append_nil]
              exact List.mem_map_of_mem _ hq
            rw [streamTables_append, List.map_append] at hnd
            exact (List.nodup_append.mp hnd).2.2 hqP (by rw [hqname, he]; exact hpPR)
          refine ⟨?_, ?_, ?_⟩
          · rw [tableIndexes_append, g1, tableIndexes_one]
            rfl
          · rw [tableForeignKeys_append, g2, tableForeignKeys_one]
            rfl
          · rw [tablePolicies_append, g3, tablePolicies_one]
            dsimp only
            rw [if_neg (fun he => hne (beq_iff_eq.mp he))]
            rfl)]
    | view v =>
      rw [convertDDLsToTables.convertDDLsToTablesAux]
      have hmap : (streamTables P).map (fun p => applyExtras p.2 P) =
          (streamTables (P ++ [DDL.view v])).map
            (fun p => applyExtras p.2 (P ++ [DDL.view v])) := by
        rw [streamTables_append, show streamTables [DDL.view v] = [] from rfl,
          List.append_nil]
        refine (List.map_congr_left (fun p hp => ?_)).symm
        exact applyExtras_irrelevant p.2 P (DDL.view v) rfl rfl rfl
      rw [hmap]
      rw [ih (P ++ [DDL.view v]) hnd
        (by
          rw [streamTables_append, show streamTables [DDL.view v] = [] from rfl,
            List.append_nil]
          rw [wfOrder] at hwf
          exact hwf)
        (by
          intro p hp
          obtain ⟨g1, g2, g3⟩ := hny p hp
          refine ⟨?_, ?_, ?_⟩
          · rw [tableIndexes_append, g1, tableIndexes_one]
            rfl
          · rw [tableForeignKeys_append, g2, tableForeignKeys_one]
            rfl
          · rw [tablePolicies_append, g3, tablePolicies_one]
            rfl)]
    | addPrimaryKey st tn i =>
      rw [wfOrder] at hwf
      exact absurd hwf (by decide)
    | addIndex st tn i =>
      rw [wfOrder] at hwf
      exact absurd hwf (by decide)

theorem walkDesired_stream (R : List DDL) : ∀ (P : List DDL) (g : Generator),
    ((streamTables (P ++ R)).map (fun p => p.2.name)).Nodup →
    ((convertDDLsToViews (P ++ R)).map (·.name)).Nodup →
    wfOrder ((streamTables P).map (fun p => p.2.name)) R = true →
    (∀ p ∈ streamTables (P ++ R), TableStreamOK g.mode p.2
      (tableIndexes p.2.name (P ++ R)) (tableForeignKeys p.2.name (P ++ R))
      (tablePolicies p.2.name (P ++ R))) →
    (∀ p ∈ streamTables R, tableIndexes p.2.name P = [] ∧
      tableForeignKeys p.2.name P = [] ∧ tablePolicies p.2.name P = []) →
    g.currentTables =
      (streamTables P).map (fun p => mergeTable (applyExtras p.2 (P ++ R)) p.2) ++
        (streamTables R).map (fun p => applyExtras p.2 (P ++ R)) →
    g.desiredTables = (streamTables P).map (fun p => applyExtras p.2 P) →
    g.currentViews = convertDDLsToViews (P ++ R) →
    g.desiredViews = convertDDLsToViews P →
    walkDesired g R = .ok ([], { g with
      currentTables := (streamTables (P ++ R)).map
        (fun p => mergeTable (applyExtras p.2 (P ++ R)) p.2),
      desiredTables := (streamTables (P ++ R)).map (fun p => applyExtras p.2 (P ++ R)),
      desiredViews := convertDDLsToViews (P ++ R) }) := by
  induction R with
  | nil =>
    intro P g hnd hndv hwf hok hny hcur hdes hcv hdv
    rw [List.append_nil] at hcur ⊢
    rw [streamTables_nil, List.map_nil, List.append_nil] at hcur
    rw [walkDesired, ← hcur, ← hdes, ← hdv]
  | cons d R ih =>
    intro P g hnd hndv hwf hok hny hcur hdes hcv hdv
    rw [append_cons_assoc P d R] at hnd hndv hok hcur hcv ⊢
    cases d with
    | createTable s t =>
      have hone : streamTables [DDL.createTable s t] = [(s, t)] := rfl
      have hSTcons : streamTables (DDL.createTable s t :: R) = (s, t) :: streamTables R :=
        rfl
      rw [hSTcons, List.map_cons] at hcur
      dsimp only at hcur
      have hndX := hnd
      rw [streamTables_append, streamTables_append, hone] at hndX
      simp only [List.map_append, List.map_cons, List.map_nil, List.append_assoc,
        List.singleton_append, List.cons_append, List.nil_append] at hndX
      have hnotin : t.name ∉ (streamTables P).map (fun p => p.2.name) := by
        intro hmem
        exact (List.nodup_append.mp hndX).2.2 hmem (List.mem_cons_self _ _)
      have hdisj : ∀ x ∈ (streamTables P).map
          (fun p => mergeTable (applyExtras p.2 ((P ++ [DDL.createTable s t]) ++ R)) p.2),
          x.name ≠ t.name := by
        intro x hx he
        rcases List.mem_map.mp hx with ⟨p, hp, rfl⟩
        exact hnotin (he ▸ List.mem_map_of_mem (fun p => p.2.name) hp)
      have hfound : findTableByName g.currentTables t.name =
          some (applyExtras t ((P ++ [DDL.createTable s t]) ++ R)) := by
        rw [hcur, findTableByName_append_of_not _ _ _ hdisj]
        have hcs := findTableByName_cons_self
          (applyExtras t ((P ++ [DDL.createTable s t]) ++ R))
          ((streamTables R).map
            (fun p => applyExtras p.2 ((P ++ [DDL.createTable s t]) ++ R)))
        rw [applyExtras_name] at hcs
        exact hcs
      have hqmem : (s, t) ∈ streamTables ((P ++ [DDL.createTable s t]) ++ R) := by
        rw [streamTables_append, streamTables_append, hone]
        exact List.mem_append_left _
          (List.mem_append_right _ (List.mem_cons_self _ _))
      have hgen : generateDDLsForCreateTable g
          (applyExtras t ((P ++ [DDL.createTable s t]) ++ R)) t = .ok [] :=
        generateDDLsForCreateTable_extend g t _ _ _ (hok (s, t) hqmem)
      rw [walkDesired, hfound]
      dsimp only
      rw [hgen]
      rw [except_bind_ok, except_pure, except_bind_ok]
      dsimp only
      have hrep : replaceTableByName g.currentTables t.name
          (mergeTable (applyExtras t ((P ++ [DDL.createTable s t]) ++ R)) t) =
          (streamTables (P ++ [DDL.createTable s t])).map
            (fun p => mergeTable (applyExtras p.2 ((P ++ [DDL.createTable s t]) ++ R)) p.2) ++
          (streamTables R).map
            (fun p => applyExtras p.2 ((P ++ [DDL.createTable s t]) ++ R)) := by
        rw [hcur, replaceTableByName_append_of_not _ _ _ _ hdisj]
        have hcs := replaceTableByName_cons_self
          (applyExtras t ((P ++ [DDL.createTable s t]) ++ R))
          (mergeTable (applyExtras t ((P ++ [DDL.createTable s t]) ++ R)) t)
          ((streamTables R).map
            (fun p => applyExtras p.2 ((P ++ [DDL.createTable s t]) ++ R)))
        rw [applyExtras_name] at hcs
        rw [hcs]
        rw [streamTables_append, hone, List.map_append]
        simp [List.append_assoc]
      have hdes1 : (g.desiredTables ++ [t]) =
          (streamTables (P ++ [DDL.createTable s t])).map
            (fun p => applyExtras p.2 (P ++ [DDL.createTable s t])) := by
        rw [hdes, streamTables_append, hone, List.map_append]
        congr 1
        · refine List.map_congr_left (fun p hp => ?_)
          exact (applyExtras_irrelevant p.2 P (DDL.createTable s t) rfl rfl rfl).symm
        · obtain ⟨he1, he2, he3⟩ := hny (s, t) (hSTcons ▸ List.mem_cons_self _ _)
          show [t] = [applyExtras t (P ++ [DDL.createTable s t])]
          rw [applyExtras_irrelevant t P (DDL.createTable s t) rfl rfl rfl]
          rw [show applyExtras t P = extendTable t [] [] [] by
            rw [applyExtras, he1, he2, he3]]
          rw [extendTable_nil]
      rw [ih (P ++ [DDL.createTable s t])
        { g with
          currentTables := replaceTableByName g.currentTables t.name
            (mergeTable (applyExtras t ((P ++ [DDL.createTable s t]) ++ R)) t),
          desiredTables := g.desiredTables ++ [t] }
        hnd hndv
        (by
          have hn : (streamTables (P ++ [DDL.createTable s t])).map (fun p => p.2.name) =
              (streamTables P).map (fun p => p.2.name) ++ [t.name] := by
            rw [streamTables_append, hone]
            simp
          rw [hn]
          rw [wfOrder] at hwf
          exact hwf)
        hok
        (by
          intro p hp
          obtain ⟨g1, g2, g3⟩ := hny p (hSTcons ▸ List.mem_cons_of_mem _ hp)
          refine ⟨?_, ?_, ?_⟩
          · rw [tableIndexes_append, g1, tableIndexes_one]
            rfl
          · rw [tableForeignKeys_append, g2, tableForeignKeys_one]
            rfl
          · rw [tablePolicies_append, g3, tablePolicies_one]
            rfl)
        hrep hdes1 hcv
        (by
          show g.desiredViews = convertDDLsToViews (P ++ [DDL.createTable s t])
          rw [convertDDLsToViews_append,
            show convertDDLsToViews [DDL.createTable s t] = [] from rfl,
            List.append_nil]
          exact hdv)]
      rfl
    | createIndex st tn i =>
      have hstc : streamTables (DDL.createIndex st tn i :: R) = streamTables R := rfl
      rw [hstc] at hcur
      rw [wfOrder, Bool.and_eq_true] at hwf
      rcases hwf with ⟨hcont, hwf'⟩
      rcases List.mem_map.mp (mem_of_containsString _ _ hcont) with ⟨q, hq, hqname⟩
      have hndP' : ((streamTables P).map (fun p => p.2.name)).Nodup := by
        have h := streamNames_nodup_left (P ++ [DDL.createIndex st tn i]) R hnd
        rw [streamNames_irrelevant P (DDL.createIndex st tn i) rfl] at h
        exact h
      have hqmem : q ∈ streamTables ((P ++ [DDL.createIndex st tn i]) ++ R) := by
        rw [streamTables_append, streamTables_append,
          show streamTables [DDL.createIndex st tn i] = [] from rfl, List.append_nil]
        exact List.mem_append_left _ hq
      obtain ⟨qc1, qc2, qc3, qc4, qc5, qc6, qc7, qc8⟩ := hok q hqmem
      have hIdec : tableIndexes q.2.name ((P ++ [DDL.createIndex st tn i]) ++ R) =
          tableIndexes q.2.name P ++ i :: tableIndexes q.2.name R := by
        rw [tableIndexes_append, tableIndexes_append, tableIndexes_one]
        dsimp only
        rw [if_pos (beq_iff_eq.mpr hqname.symm)]
        simp
      have himem : i ∈ tableIndexes q.2.name ((P ++ [DDL.createIndex st tn i]) ++ R) := by
        rw [hIdec]
        exact List.mem_append_right _ (List.mem_cons_self _ _)
      have hnodupX := qc2
      rw [hIdec] at hnodupX
      simp only [List.map_append, List.map_cons, List.append_assoc] at hnodupX
      have hiq := nodup_parts hnodupX
      have hfc : findTableByName g.currentTables tn =
          some (mergeTable
            (applyExtras q.2 ((P ++ [DDL.createIndex st tn i]) ++ R)) q.2) := by
        rw [hcur]
        refine findTableByName_append_left _ _ _ _ ?_
        have h := findTableByName_map_name
          (fun p => mergeTable
            (applyExtras p.2 ((P ++ [DDL.createIndex st tn i]) ++ R)) p.2)
          (fun p => p.2.name) (fun p => rfl) (streamTables P) hndP' q hq
        simp only [] at h
        rw [hqname] at h
        exact h
      have hfi : findIndexByName
          (mergeTable (applyExtras q.2 ((P ++ [DDL.createIndex st tn i]) ++ R)) q.2).indexes
          i.name = some i := by
        rw [mergeTable_indexes_eq]
        refine findIndexByName_append_left _ _ _ _ ?_
        show findIndexByName
          (q.2.indexes ++ tableIndexes q.2.name ((P ++ [DDL.createIndex st tn i]) ++ R))
          i.name = some i
        rw [findIndexByName]
        exact find?_name_self (fun x : Index => x.name) _ qc2 i
          (List.mem_append_right _ himem)
      have hoptI : (i.options.map (·.optionName)).Nodup :=
        qc3 i (List.mem_append_right _ himem)
      have hfd : findTableByName g.desiredTables tn = some (applyExtras q.2 P) := by
        rw [hdes]
        have h := findTableByName_map_name (fun p => applyExtras p.2 P)
          (fun p => p.2.name) (fun p => applyExtras_name p.2 P) (streamTables P) hndP' q hq
        simp only [] at h
        rw [hqname] at h
        exact h
      have hdup : containsString
          (convertIndexesToIndexNames (applyExtras q.2 P).indexes) i.name = false := by
        show containsString
          (convertIndexesToIndexNames (q.2.indexes ++ tableIndexes q.2.name P)) i.name
          = false
        refine containsString_false _ _ ?_
        intro hmem
        rw [convertIndexesToIndexNames, List.map_append] at hmem
        rcases List.mem_append.mp hmem with h | h
        · exact hiq.1 h
        · exact hiq.2 h
      have hdisjPR : ∀ x ∈ (streamTables P).map (fun p => p.2.name),
          x ∉ (streamTables R).map (fun p => p.2.name) := by
        intro x hxP hxR
        have hnd2 := hnd
        rw [streamTables_append, List.map_append,
          streamNames_irrelevant P (DDL.createIndex st tn i) rfl] at hnd2
        exact (List.nodup_append.mp hnd2).2.2 hxP hxR
      rw [walkDesired]
      rw [generateDDLsForCreateIndex_id g tn i "CREATE INDEX" st _ _ hfc hfi hoptI hfd hdup]
      rw [except_bind_ok]
      dsimp only
      rw [replaceTableByName_self_of_find _ _ _ hfc]
      have hrepD : replaceTableByName g.desiredTables tn
          { applyExtras q.2 P with indexes := (applyExtras q.2 P).indexes ++ [i] } =
          (streamTables (P ++ [DDL.createIndex st tn i])).map
            (fun p => applyExtras p.2 (P ++ [DDL.createIndex st tn i])) := by
        rw [hdes]
        exact replace_stream_index P st tn i hndP' q hq hqname
      rw [hrepD]
      rw [ih (P ++ [DDL.createIndex st tn i])
        { g with
          currentTables := g.currentTables,
          desiredTables := (streamTables (P ++ [DDL.createIndex st tn i])).map
            (fun p => applyExtras p.2 (P ++ [DDL.createIndex st tn i])) }
        hnd hndv
        (by
          rw [streamNames_irrelevant P (DDL.createIndex st tn i) rfl]
          exact hwf')
        hok
        (by
          intro p hp
          obtain ⟨g1, g2, g3⟩ := hny p hp
          have hne : tn ≠ p.2.name := by
            intro he
            refine hdisjPR q.2.name (List.mem_map_of_mem _ hq) ?_
            rw [hqname, he]
            exact List.mem_map_of_mem _ hp
          refine ⟨?_, ?_, ?_⟩
          · rw [tableIndexes_append, g1, tableIndexes_one]
            dsimp only
            rw [if_neg (fun he => hne (beq_iff_eq.mp he))]
            rfl
          · rw [tableForeignKeys_append, g2, tableForeignKeys_one]
            rfl
          · rw [tablePolicies_append, g3, tablePolicies_one]
            rfl)
        (by
          show g.currentTables = _
          rw [hcur, streamTables_append,
            show streamTables [DDL.createIndex st tn i] = [] from rfl, List.append_nil])
        rfl
        hcv
        (by
          show g.desiredViews = _
          rw [hdv, convertDDLsToViews_append,
            show convertDDLsToViews [DDL.createIndex st tn i] = [] from rfl,
            List.append_nil])]
      rfl
    | addForeignKey st tn fk =>
      have hstc : streamTables (DDL.addForeignKey st tn fk :: R) = streamTables R := rfl
      rw [hstc] at hcur
      rw [wfOrder, Bool.and_eq_true] at hwf
      rcases hwf with ⟨hcont, hwf'⟩
      rcases List.mem_map.mp (mem_of_containsString _ _ hcont) with ⟨q, hq, hqname⟩
      have hndP' : ((streamTables P).map (fun p => p.2.name)).Nodup := by
        have h := streamNames_nodup_left (P ++ [DDL.addForeignKey st tn fk]) R hnd
        rw [streamNames_irrelevant P (DDL.addForeignKey st tn fk) rfl] at h
        exact h
      have hqmem : q ∈ streamTables ((P ++ [DDL.addForeignKey st tn fk]) ++ R) := by
        rw [streamTables_append, streamTables_append,
          show streamTables [DDL.addForeignKey st tn fk] = [] from rfl, List.append_nil]
        exact List.mem_append_left _ hq
      obtain ⟨qc1, qc2, qc3, qc4, qc5, qc6, qc7, qc8⟩ := hok q hqmem
      have hFdec : tableForeignKeys q.2.name ((P ++ [DDL.addForeignKey st tn fk]) ++ R) =
          tableForeignKeys q.2.name P ++ fk :: tableForeignKeys q.2.name R := by
        rw [tableForeignKeys_append, tableForeignKeys_append, tableForeignKeys_one]
        dsimp only
        rw [if_pos (beq_iff_eq.mpr hqname.symm)]
        simp
      have hnodupX := qc5
      rw [hFdec] at hnodupX
      simp only [List.map_append, List.map_cons, List.append_assoc] at hnodupX
      have hiq := nodup_parts hnodupX
      have hfd : findTableByName g.desiredTables tn = some (applyExtras q.2 P) := by
        rw [hdes]
        have h := findTableByName_map_name (fun p => applyExtras p.2 P)
          (fun p => p.2.name) (fun p => applyExtras_name p.2 P) (streamTables P) hndP' q hq
        simp only [] at h
        rw [hqname] at h
        exact h
      have hdup : containsString
          (convertForeignKeysToConstraintNames (applyExtras q.2 P).foreignKeys)
          fk.constraintName = false := by
        show containsString
          (convertForeignKeysToConstraintNames
            (q.2.foreignKeys ++ tableForeignKeys q.2.name P)) fk.constraintName = false
        refine containsString_false _ _ ?_
        intro hmem
        rw [convertForeignKeysToConstraintNames, List.map_append] at hmem
        rcases List.mem_append.mp hmem with h | h
        · exact hiq.1 h
        · exact hiq.2 h
      have hdisjPR : ∀ x ∈ (streamTables P).map (fun p => p.2.name),
          x ∉ (streamTables R).map (fun p => p.2.name) := by
        intro x hxP hxR
        have hnd2 := hnd
        rw [streamTables_append, List.map_append,
          streamNames_irrelevant P (DDL.addForeignKey st tn fk) rfl] at hnd2
        exact (List.nodup_append.mp hnd2).2.2 hxP hxR
      rw [walkDesired]
      rw [generateDDLsForAddForeignKey_id g tn fk "ALTER TABLE" st _ hfd hdup]
      rw [except_bind_ok]
      dsimp only
      have hrepD : replaceTableByName g.desiredTables tn
          { applyExtras q.2 P with
            foreignKeys := (applyExtras q.2 P).foreignKeys ++ [fk] } =
          (streamTables (P ++ [DDL.addForeignKey st tn fk])).map
            (fun p => applyExtras p.2 (P ++ [DDL.addForeignKey st tn fk])) := by
        rw [hdes]
        exact replace_stream_fk P st tn fk hndP' q hq hqname
      rw [hrepD]
      rw [ih (P ++ [DDL.addForeignKey st tn fk])
        { g with
          desiredTables := (streamTables (P ++ [DDL.addForeignKey st tn fk])).map
            (fun p => applyExtras p.2 (P ++ [DDL.addForeignKey st tn fk])) }
        hnd hndv
        (by
          rw [streamNames_irrelevant P (DDL.addForeignKey st tn fk) rfl]
          exact hwf')
        hok
        (by
          intro p hp
          obtain ⟨g1, g2, g3⟩ := hny p hp
          have hne : tn ≠ p.2.name := by
            intro he
            refine hdisjPR q.2.name (List.mem_map_of_mem _ hq) ?_
            rw [hqname, he]
            exact List.mem_map_of_mem _ hp
          refine ⟨?_, ?_, ?_⟩
          · rw [tableIndexes_append, g1, tableIndexes_one]
            rfl
          · rw [tableForeignKeys_append, g2, tableForeignKeys_one]
            dsimp only
            rw [if_neg (fun he => hne (beq_iff_eq.mp he))]
            rfl
          · rw [tablePolicies_append, g3, tablePolicies_one]
            rfl)
        (by
          show g.currentTables = _
          rw [hcur, streamTables_append,
            show streamTables [DDL.addForeignKey st tn fk] = [] from rfl, List.append_nil])
        rfl
        hcv
        (by
          show g.desiredViews = _
          rw [hdv, convertDDLsToViews_append,
            show convertDDLsToViews [DDL.addForeignKey st tn fk] = [] from rfl,
            List.append_nil])]
      rfl
    | addPolicy st tn po =>
      have hstc : streamTables (DDL.addPolicy st tn po :: R) = streamTables R := rfl
      rw [hstc] at hcur
      rw [wfOrder, Bool.and_eq_true] at hwf
      rcases hwf with ⟨hcont, hwf'⟩
      rcases List.mem_map.mp (mem_of_containsString _ _ hcont) with ⟨q, hq, hqname⟩
      have hndP' : ((streamTables P).map (fun p => p.2.name)).Nodup := by
        have h := streamNames_nodup_left (P ++ [DDL.addPolicy st tn po]) R hnd
        rw [streamNames_irrelevant P (DDL.addPolicy st tn po) rfl] at h
        exact h
      have hqmem : q ∈ streamTables ((P ++ [DDL.addPolicy st tn po]) ++ R) := by
        rw [streamTables_append, streamTables_append,
          show streamTables [DDL.addPolicy st tn po] = [] from rfl, List.append_nil]
        exact List.mem_append_left _ hq
      obtain ⟨qc1, qc2, qc3, qc4, qc5, qc6, qc7, qc8⟩ := hok q hqmem
      have hPdec : tablePolicies q.2.name ((P ++ [DDL.addPolicy st tn po]) ++ R) =
          tablePolicies q.2.name P ++ po :: tablePolicies q.2.name R := by
        rw [tablePolicies_append, tablePolicies_append, tablePolicies_one]
        dsimp only
        rw [if_pos (beq_iff_eq.mpr hqname.symm)]
        simp
      have hpomem : po ∈ tablePolicies q.2.name ((P ++ [DDL.addPolicy st tn po]) ++ R) := by
        rw [hPdec]
        exact List.mem_append_right _ (List.mem_cons_self _ _)
      have hnodupX := qc7
      rw [hPdec] at hnodupX
      simp only [List.map_append, List.map_cons, List.append_assoc] at hnodupX
      have hiq := nodup_parts hnodupX
      have hfc : findTableByName g.currentTables tn =
          some (mergeTable
            (applyExtras q.2 ((P ++ [DDL.addPolicy st tn po]) ++ R)) q.2) := by
        rw [hcur]
        refine findTableByName_append_left _ _ _ _ ?_
        have h := findTableByName_map_name
          (fun p => mergeTable
            (applyExtras p.2 ((P ++ [DDL.addPolicy st tn po]) ++ R)) p.2)
          (fun p => p.2.name) (fun p => rfl) (streamTables P) hndP' q hq
        simp only [] at h
        rw [hqname] at h
        exact h
      have hfp : findPolicyByName
          (mergeTable (applyExtras q.2 ((P ++ [DDL.addPolicy st tn po]) ++ R)) q.2).policies
          po.name = some po := by
        rw [mergeTable_policies]
        show findPolicyByName
          (q.2.policies ++ tablePolicies q.2.name ((P ++ [DDL.addPolicy st tn po]) ++ R))
          po.name = some po
        rw [findPolicyByName]
        exact find?_name_self (fun x : Policy => x.name) _ qc7 po
          (List.mem_append_right _ hpomem)
      have hfd : findTableByName g.desiredTables tn = some (applyExtras q.2 P) := by
        rw [hdes]
        have h := findTableByName_map_name (fun p => applyExtras p.2 P)
          (fun p => p.2.name) (fun p => applyExtras_name p.2 P) (streamTables P) hndP' q hq
        simp only [] at h
        rw [hqname] at h
        exact h
      have hdup : containsString
          (convertPolicyNames (applyExtras q.2 P).policies) po.name = false := by
        show containsString
          (convertPolicyNames (q.2.policies ++ tablePolicies q.2.name P)) po.name = false
        refine containsString_false _ _ ?_
        intro hmem
        rw [convertPolicyNames, List.map_append] at hmem
        rcases List.mem_append.mp hmem with h | h
        · exact hiq.1 h
        · exact hiq.2 h
      have hdisjPR : ∀ x ∈ (streamTables P).map (fun p => p.2.name),
          x ∉ (streamTables R).map (fun p => p.2.name) := by
        intro x hxP hxR
        have hnd2 := hnd
        rw [streamTables_append, List.map_append,
          streamNames_irrelevant P (DDL.addPolicy st tn po) rfl] at hnd2
        exact (List.nodup_append.mp hnd2).2.2 hxP hxR
      rw [walkDesired]
      rw [generateDDLsForCreatePolicy_id g tn po "CREATE POLICY" st _ _ hfc hfp hfd hdup]
      rw [except_bind_ok]
      dsimp only
      rw [replaceTableByName_self_of_find _ _ _ hfc]
      have hrepD : replaceTableByName g.desiredTables tn
          { applyExtras q.2 P with
            policies := (applyExtras q.2 P).policies ++ [po] } =
          (streamTables (P ++ [DDL.addPolicy st tn po])).map
            (fun p => applyExtras p.2 (P ++ [DDL.addPolicy st tn po])) := by
        rw [hdes]
        exact replace_stream_policy P st tn po hndP' q hq hqname
      rw [hrepD]
      rw [ih (P ++ [DDL.addPolicy st tn po])
        { g with
          currentTables := g.currentTables,
          desiredTables := (streamTables (P ++ [DDL.addPolicy st tn po])).map
            (fun p => applyExtras p.2 (P ++ [DDL.addPolicy st tn po])) }
        hnd hndv
        (by
          rw [streamNames_irrelevant P (DDL.addPolicy st tn po) rfl]
          exact hwf')
        hok
        (by
          intro p hp
          obtain ⟨g1, g2, g3⟩ := hny p hp
          have hne : tn ≠ p.2.name := by
            intro he
            refine hdisjPR q.2.name (List.mem_map_of_mem _ hq) ?_
            rw [hqname, he]
            exact List.mem_map_of_mem _ hp
          refine ⟨?_, ?_, ?_⟩
          · rw [tableIndexes_append, g1, tableIndexes_one]
            rfl
          · rw [tableForeignKeys_append, g2, tableForeignKeys_one]
            rfl
          · rw [tablePolicies_append, g3, tablePolicies_one]
            dsimp only
            rw [if_neg (fun he => hne (beq_iff_eq.mp he))]
            rfl)
        (by
          show g.currentTables = _
          rw [hcur, streamTables_append,
            show streamTables [DDL.addPolicy st tn po] = [] from rfl, List.append_nil])
        rfl
        hcv
        (by
          show g.desiredViews = _
          rw [hdv, convertDDLsToViews_append,
            show convertDDLsToViews [DDL.addPolicy st tn po] = [] from rfl,
            List.append_nil])]
      rfl
    | view v =>
      have honeV : convertDDLsToViews [DDL.view v] = [v] := rfl
      have hstv : streamTables (DDL.view v :: R) = streamTables R := rfl
      rw [hstv] at hcur
      have hndvX := hndv
      rw [convertDDLsToViews_append, convertDDLsToViews_append, honeV] at hndvX
      simp only [List.map_append, List.map_cons, List.map_nil, List.append_assoc,
        List.singleton_append, List.cons_append, List.nil_append] at hndvX
      have hvmem : v ∈ convertDDLsToViews ((P ++ [DDL.view v]) ++ R) := by
        rw [convertDDLsToViews_append, convertDDLsToViews_append, honeV]
        exact List.mem_append_left _
          (List.mem_append_right _ (List.mem_cons_self _ _))
      have hfv : findViewByName g.currentViews v.name = some v := by
        rw [hcv, findViewByName]
        exact find?_name_self (fun x : View => x.name) _ hndv v hvmem
      have hdup : containsString (convertViewNames g.desiredViews) v.name = false := by
        rw [hdv]
        refine containsString_false _ _ ?_
        intro hmem
        exact (List.nodup_append.mp hndvX).2.2 hmem (List.mem_cons_self _ _)
      rw [walkDesired]
      rw [generateDDLsForCreateView_id g v hfv hdup]
      rw [except_bind_ok]
      dsimp only
      rw [ih (P ++ [DDL.view v]) { g with desiredViews := g.desiredViews ++ [v] }
        hnd hndv
        (by
          rw [streamNames_irrelevant P (DDL.view v) rfl]
          rw [wfOrder] at hwf
          exact hwf)
        hok
        (by
          intro p hp
          obtain ⟨g1, g2, g3⟩ := hny p hp
          refine ⟨?_, ?_, ?_⟩
          · rw [tableIndexes_append, g1, tableIndexes_one]
            rfl
          · rw [tableForeignKeys_append, g2, tableForeignKeys_one]
            rfl
          · rw [tablePolicies_append, g3, tablePolicies_one]
            rfl)
        (by
          show g.currentTables = _
          rw [hcur, streamTables_append,
            show streamTables [DDL.view v] = [] from rfl, List.append_nil])
        (by
          show g.desiredTables = _
          rw [hdes, streamTables_append,
            show streamTables [DDL.view v] = [] from rfl, List.append_nil]
          refine List.map_congr_left (fun p hp => ?_)
          exact (applyExtras_irrelevant p.2 P (DDL.view v) rfl rfl rfl).symm)
        hcv
        (by
          show g.desiredViews ++ [v] = _
          rw [hdv, convertDDLsToViews_append, honeV])]
      rfl
    | addPrimaryKey st tn i =>
      rw [wfOrder] at hwf
      exact absurd hwf (by decide)
    | addIndex st tn i =>
      rw [wfOrder] at hwf
      exact absurd hwf (by decide)

/-- C1 counterexample: `diff(dialect, S, S) = []` fails for parseable
schemas. (1) Under MySQL, `CREATE TABLE users (id bigint PRIMARY KEY)`
diffed against itself emits a spurious `CHANGE COLUMN` (the primary-key
column lacks an explicit `NOT NULL`). (2) Under MySQL, a table with a
column-level CHECK diffed against itself emits a spurious `CHANGE COLUMN`:
the Go code compares the two `*CheckDefinition` pointers, which stem from
independent parses and are never equal when non-nil. (3) A stream with an
`ADD PRIMARY KEY` statement always aborts the desired-side walk. (4) A
stream with an `ADD INDEX` statement always aborts the current-side
conversion. -/
theorem diff_identity_counterexample :
    (diffDDLs .mysql [ddlUsers] [ddlUsers] ≠ .ok [] ∧
      diffDDLs .mysql [ddlUsers] [ddlUsers] =
        .ok ["ALTER TABLE `users` CHANGE COLUMN `id` `id` bigint NOT NULL"]) ∧
    (diffDDLs .mysql [ddlChk] [ddlChk] ≠ .ok [] ∧
      diffDDLs .mysql [ddlChk] [ddlChk] =
        .ok ["ALTER TABLE `t` CHANGE COLUMN `c` `c` integer CHECK (c > 0)"]) ∧
    diffDDLs .mysql [ddlChk, apkDdl] [ddlChk, apkDdl] =
      .error "unexpected ddl type in generateDDLs: ALTER TABLE t ADD PRIMARY KEY (c)" ∧
    diffDDLs .mysql [ddlChk, aidxDdl] [ddlChk, aidxDdl] =
      .error "unexpected ddl type in convertDDLsToTables: ALTER TABLE t ADD INDEX tidx (c)" :=
  ⟨⟨by decide, by decide⟩, ⟨by decide, by decide⟩, by decide, by decide⟩


/-- C1 (amended): for every dialect, diffing a well-formed schema stream
against itself yields the empty statement list. The stream may freely mix
CREATE TABLE, CREATE INDEX, ADD FOREIGN KEY, CREATE POLICY and CREATE VIEW
statements; well-formedness (`StreamWF`) requires distinct table and view
names, every ALTER-style statement referencing an earlier CREATE TABLE, no
ADD PRIMARY KEY / ADD INDEX statements (the generator unconditionally
aborts on those), per-table distinct component names, non-empty foreign-key
constraint names, and — under MySQL — explicit `NOT NULL` on primary-key
columns and no column-level CHECKs (both forced by the counterexample: the
generator emits spurious `CHANGE COLUMN`s otherwise). -/
theorem diff_identity (m : GeneratorMode) (ddls : List DDL) (hwf : StreamWF m ddls) :
    diffDDLs m ddls ddls = .ok [] := by
  obtain ⟨hnd, hndv, hord, hok⟩ := hwf
  have hconv : convertDDLsToTables ddls =
      .ok ((streamTables ddls).map (fun p => applyExtras p.2 ddls)) := by
    rw [convertDDLsToTables]
    exact convertDDLsToTablesAux_stream ddls [] hnd hord (fun p hp => ⟨rfl, rfl, rfl⟩)
  rw [diffDDLs, hconv, except_bind_ok]
  dsimp only
  rw [generateDDLs]
  have hwalk := walkDesired_stream ddls []
    { mode := m,
      currentTables := (streamTables ddls).map (fun p => applyExtras p.2 ddls),
      currentViews := convertDDLsToViews ddls }
    hnd hndv hord hok (fun p hp => ⟨rfl, rfl, rfl⟩) rfl rfl rfl rfl
  rw [hwalk, except_bind_ok]
  dsimp only
  rw [List.nil_append]
  have hcond : ∀ ct ∈ (streamTables ddls).map
      (fun p => mergeTable (applyExtras p.2 ddls) p.2),
      ∃ dt, findTableByName
          ((streamTables ddls).map (fun p => applyExtras p.2 ddls)) ct.name = some dt ∧
        (∀ c ∈ ct.columns, c ∈ dt.columns) ∧
        (∀ i ∈ ct.indexes, i ∈ dt.indexes) ∧
        ct.foreignKeys = dt.foreignKeys ∧ ct.policies = dt.policies := by
    intro ct hct
    rcases List.mem_map.mp hct with ⟨p, hp, rfl⟩
    refine ⟨applyExtras p.2 ddls, ?_, ?_, ?_, rfl, rfl⟩
    · have h := findTableByName_map_name (fun p => applyExtras p.2 ddls)
        (fun p => p.2.name) (fun p => applyExtras_name p.2 ddls)
        (streamTables ddls) hnd p hp
      exact h
    · intro c hc
      rcases mergeTable_columns_mem _ _ c hc with h | h
      · exact h
      · exact h
    · intro i hi
      rcases mergeTable_indexes_mem _ _ i hi with h | h
      · exact h
      · exact List.mem_append_left _ h
  rw [cleanupTables_skip _ _ hcond _]
  rw [except_bind_ok]
  dsimp only
  rw [cleanupViews_skip _
    (fun v hv => containsString_map_self (fun x : View => x.name) _ v hv)]
  rfl

/-- C1 witness: the identity holds concretely for a PostgreSQL stream
exercising every covered statement kind (table with primary key, index,
foreign key and policy; a CREATE INDEX, an ADD FOREIGN KEY, a CREATE
POLICY and a CREATE VIEW statement), and for a MySQL table with an
explicitly NOT NULL primary key and an index. -/
theorem diff_identity_witness :
    diffDDLs .postgres streamW streamW = .ok [] ∧
    diffDDLs .mysql [DDL.createTable "CREATE TABLE users" tblOk]
      [DDL.createTable "CREATE TABLE users" tblOk] = .ok [] :=
  ⟨diff_identity .postgres streamW
      ⟨by decide, by decide, by decide, fun p hp => by
        rw [show streamTables streamW =
          [("CREATE TABLE pt (id bigint PRIMARY KEY NOT NULL, w2 integer)", tblW)]
          from rfl] at hp
        rcases List.mem_singleton.mp hp with rfl
        exact ⟨by decide, by decide, by decide, by decide, by decide, by decide,
          by decide, by decide⟩⟩,
    diff_identity .mysql [DDL.createTable "CREATE TABLE users" tblOk]
      ⟨by decide, by decide, by decide, fun p hp => by
        rcases List.mem_singleton.mp hp with rfl
        exact ⟨by decide, by decide, by decide, by decide, by decide, by decide,
          by decide, by decide⟩⟩⟩

end Sqldef
